import Mathlib

/-! UBMP4 NeoPixel driver (Adv-3-NeoPixel.c): embedding and verification

The C program keeps all of its data in global variables.  The embedding threads
one record `State` through every function.  Machine integers are naturals or
integers with explicit wrap-around: `unsigned char` values are reduced modulo
256 and `signed char` values are wrapped into -128..127.  Plain `char` is
unsigned for the XC8 compiler the project targets, so the constant tables hold
values in 0..255.

Two ghost fields record what the program does to the outside world and to its
arrays: `trace` is the list of writes to the output pin `H1OUT` and of
busy-wait delays, in program order, and `acc` is the list of array accesses
(array, index, read or write), in program order.

An access outside an array has no defined behaviour in C.  The embedding logs
it and goes on with the variables unchanged, which no C program promises; so
the properties of runs of the main loop are stated for the runs whose log
holds no access outside an array, where the embedding and the program agree.
-/

namespace NeoPixel

/-! ## Ghost events -/

/-- One observable action: a write to the NeoPixel output pin or a busy wait. -/
inductive Ev where
  | pin (level : Bool)
  | delay_us (n : Nat)
  | delay_ms (n : Nat)
  deriving DecidableEq, Repr

/-- The arrays of the program. -/
inductive Arr where
  | rPix | gPix | bPix
  | gamma | sine
  | cooler_r | cooler_g | cooler_b
  | stripes
  deriving DecidableEq, Repr

/-- One array access: which array, at which index, and whether it stores. -/
structure Access where
  arr : Arr
  idx : Int
  write : Bool
  deriving DecidableEq, Repr

/-! ## Constants -/

def neoLEDs : Nat := 60
def neoDel : Nat := 16

def OFF_MODE : Nat := 0
def RAINBOW_MODE : Nat := 1
def IONGUN_MODE : Nat := 2
def WARMINGSTRIPES_MODE : Nat := 3
def RANDOM_MODE : Nat := 4
def COLOUR_MODE : Nat := 5

def NOBUTTON : Nat := 0
def MODESEL : Nat := 1
def RBUTTON : Nat := 2
def GBUTTON : Nat := 3
def BBUTTON : Nat := 4

/-! ## Machine integers -/

/-- Conversion of an `int` result to `unsigned char`. -/
def toU8 (x : Int) : Nat := (x % 256).toNat

/-- Conversion of an `int` result to `signed char` (two's complement wrap). -/
def toS8 (x : Int) : Int := (x + 128) % 256 - 128

/-! ## Program state -/

/-- The global variables of the program, followed by the two ghost logs. -/
structure State where
  rPix : List Nat
  gPix : List Nat
  bPix : List Nat
  pixIndex : Int
  pixLEDs : Nat
  rVal : Nat
  gVal : Nat
  bVal : Nat
  rVal2 : Nat
  gVal2 : Nat
  bVal2 : Nat
  wVal : Nat
  wVal2 : Nat
  ri : Nat
  gi : Nat
  bi : Nat
  leds : Nat
  bits : Nat
  mode : Nat
  button : Nat
  buttonDelay : Nat
  trace : List Ev
  acc : List Access
  deriving DecidableEq, Repr

/-- Value found by an array read at an index inside the array.  A read outside
the array has no defined value in C: the 0 returned there stands for nothing,
the access log keeps the index, and the properties of the main loop are stated
for runs whose log holds no such access (see `AccOK`). -/
def look (xs : List Nat) (i : Int) : Nat :=
  if 0 ≤ i then xs.getD i.toNat 0 else 0

/-- Array store at an index inside the array.  A store outside the array has
no defined effect in C (it may overwrite any other variable): the unchanged
array returned there stands for nothing, the access log keeps the index, and
the properties of the main loop are stated for runs whose log holds no such
store (see `StoresOK`). -/
def store (xs : List Nat) (i : Int) (v : Nat) : List Nat :=
  if 0 ≤ i then xs.set i.toNat v else xs

/-- Record an array access in the ghost log. -/
def touch (a : Arr) (i : Int) (w : Bool) (s : State) : State :=
  { s with acc := s.acc ++ [⟨a, i, w⟩] }

/-- Write `level` to the output pin: `H1OUT = level`. -/
def H1OUT (level : Bool) (s : State) : State :=
  { s with trace := s.trace ++ [Ev.pin level] }

/-- Busy wait `__delay_us(n)`. -/
def delay_us (n : Nat) (s : State) : State :=
  { s with trace := s.trace ++ [Ev.delay_us n] }

/-- Busy wait `__delay_ms(n)`. -/
def delay_ms (n : Nat) (s : State) : State :=
  { s with trace := s.trace ++ [Ev.delay_ms n] }

/-! ## Bit transmitter -/

/-- The loop of `np_shift`: `for(bits = 8; bits != 0; bits --)`, entered with
the loop counter equal to the first argument. -/
def np_shift_loop : Nat → Nat → State → State
  | 0, _, s => s
  | bits + 1, col, s =>
    let s := H1OUT true s
    let s := if col &&& 0b10000000 = 0 then H1OUT false s else s
    let col := (col <<< 1) % 256
    let s := H1OUT false s
    np_shift_loop bits col { s with bits := bits }

/-- Shift 8 bits of colour data to the output pin: `np_shift(col)`. -/
def np_shift (col : Nat) (s : State) : State :=
  np_shift_loop 8 (col % 256) { s with bits := 8 }

/-! ## Look-up tables -/

/-- Gamma 1.8 colour value look-up table, `gamma[256]`. -/
def gamma : List Nat := [
  0, 0, 0, 0, 0, 0, 0, 0,
  1, 1, 1, 1, 1, 1, 1, 2,
  2, 2, 2, 2, 3, 3, 3, 3,
  4, 4, 4, 4, 5, 5, 5, 6,
  6, 6, 7, 7, 8, 8, 8, 9,
  9, 10, 10, 10, 11, 11, 12, 12,
  13, 13, 14, 14, 15, 15, 16, 16,
  17, 17, 18, 18, 19, 19, 20, 21,
  21, 22, 22, 23, 24, 24, 25, 26,
  26, 27, 28, 28, 29, 30, 30, 31,
  32, 32, 33, 34, 35, 35, 36, 37,
  38, 38, 39, 40, 41, 41, 42, 43,
  44, 45, 46, 46, 47, 48, 49, 50,
  51, 52, 53, 53, 54, 55, 56, 57,
  58, 59, 60, 61, 62, 63, 64, 65,
  66, 67, 68, 69, 70, 71, 72, 73,
  74, 75, 76, 77, 78, 79, 80, 81,
  82, 83, 84, 86, 87, 88, 89, 90,
  91, 92, 93, 95, 96, 97, 98, 99,
  100, 102, 103, 104, 105, 107, 108, 109,
  110, 111, 113, 114, 115, 116, 118, 119,
  120, 122, 123, 124, 126, 127, 128, 129,
  131, 132, 134, 135, 136, 138, 139, 140,
  142, 143, 145, 146, 147, 149, 150, 152,
  153, 154, 156, 157, 159, 160, 162, 163,
  165, 166, 168, 169, 171, 172, 174, 175,
  177, 178, 180, 181, 183, 184, 186, 188,
  189, 191, 192, 194, 195, 197, 199, 200,
  202, 204, 205, 207, 208, 210, 212, 213,
  215, 217, 218, 220, 222, 224, 225, 227,
  229, 230, 232, 234, 236, 237, 239, 241,
  243, 244, 246, 248, 250, 251, 253, 255]

/-- Sine wave look-up table, `sine[180]`: 120 steps and 60 blanks. -/
def sine : List Nat := [
  0, 0, 1, 2, 3, 4, 6, 9,
  11, 14, 17, 21, 25, 29, 33, 37,
  42, 47, 53, 58, 64, 70, 76, 82,
  88, 95, 101, 108, 115, 121, 128, 134,
  140, 147, 154, 160, 167, 173, 179, 185,
  191, 197, 202, 208, 213, 218, 222, 226,
  231, 234, 238, 241, 244, 246, 249, 251,
  252, 253, 254, 255, 255, 255, 254, 253,
  252, 251, 249, 246, 244, 241, 238, 234,
  231, 226, 222, 218, 213, 208, 202, 197,
  191, 185, 179, 173, 167, 160, 154, 147,
  140, 134, 127, 121, 115, 108, 101, 95,
  88, 82, 76, 70, 64, 58, 53, 47,
  42, 37, 33, 29, 25, 21, 17, 14,
  11, 9, 6, 4, 3, 2, 1, 0,
  0, 0, 0, 0, 0, 0, 0, 0,
  0, 0, 0, 0, 0, 0, 0, 0,
  0, 0, 0, 0, 0, 0, 0, 0,
  0, 0, 0, 0, 0, 0, 0, 0,
  0, 0, 0, 0, 0, 0, 0, 0,
  0, 0, 0, 0, 0, 0, 0, 0,
  0, 0, 0, 0, 0, 0, 0, 0,
  0, 0, 0, 0]

/-- Blues-to-reds Brewer palette, red values, `brewer_r[20]`. -/
def brewer_r : List Nat := [
  0x00, 0x08, 0x08, 0x21, 0x42, 0x6b, 0x9e, 0xc6,
  0xde, 0xf7, 0xff, 0xff, 0xfe, 0xfc, 0xfc, 0xfb,
  0xef, 0xcb, 0xa5, 0x67]

/-- Blues-to-reds Brewer palette, green values, `brewer_g[20]`. -/
def brewer_g : List Nat := [
  0x00, 0x30, 0x51, 0x71, 0x92, 0xae, 0xca, 0xdb,
  0xeb, 0xfb, 0xff, 0xf5, 0xe0, 0xbb, 0x92, 0x6a,
  0x3b, 0x18, 0x0f, 0x00]

/-- Blues-to-reds Brewer palette, blue values, `brewer_b[20]`. -/
def brewer_b : List Nat := [
  0x00, 0x6b, 0x9c, 0xb5, 0xc6, 0xd6, 0xe1, 0xef,
  0xf7, 0xff, 0xff, 0xf0, 0xd2, 0xa1, 0x72, 0x4a,
  0x2c, 0x1d, 0x15, 0x0d]

/-- Blues-to-reds colour palette, red values, `cooler_r[20]`. -/
def cooler_r : List Nat := [
  0x01, 0x01, 0x01, 0x01, 0x2a, 0x2c, 0x46, 0x61,
  0x89, 0xa9, 0xff, 0xfc, 0xfb, 0xfa, 0xf9, 0xe3,
  0xc7, 0x9f, 0x77, 0x50]

/-- Blues-to-reds colour palette, green values, `cooler_g[20]`. -/
def cooler_g : List Nat := [
  0x2a, 0x3a, 0x49, 0x4f, 0x6f, 0x7d, 0x8f, 0xa5,
  0xc2, 0xd6, 0xff, 0x9c, 0x74, 0x4c, 0x24, 0x06,
  0x05, 0x04, 0x03, 0x02]

/-- Blues-to-reds colour palette, blue values, `cooler_b[20]`. -/
def cooler_b : List Nat := [
  0x4a, 0x63, 0x7c, 0x86, 0x97, 0xa0, 0xaf, 0xc2,
  0xd9, 0xe5, 0xff, 0xa2, 0x7d, 0x58, 0x32, 0x13,
  0x12, 0x0e, 0x0b, 0x07]

/-- Climate warming stripes, `stripes[64]`: temperature levels as palette
indices. -/
def stripes : List Nat := [
  17, 16, 19, 18, 16, 17, 19, 17,
  15, 13, 13, 12, 14, 13, 11, 13,
  13, 14, 11, 13, 12, 11, 9, 9,
  13, 11, 8, 10, 8, 7, 6, 9,
  10, 7, 9, 8, 6, 5, 6, 8,
  6, 8, 7, 6, 4, 6, 2, 3,
  2, 6, 3, 2, 3, 4, 2, 3,
  2, 1, 1, 4, 3, 4, 3, 4]

/-! ## Pattern generators that fill the pixel arrays -/

/-- Assignment `rPix[i] = v`. -/
def set_rPix (i : Int) (v : Nat) (s : State) : State :=
  { touch Arr.rPix i true s with rPix := store s.rPix i v }

/-- Assignment `gPix[i] = v`. -/
def set_gPix (i : Int) (v : Nat) (s : State) : State :=
  { touch Arr.gPix i true s with gPix := store s.gPix i v }

/-- Assignment `bPix[i] = v`. -/
def set_bPix (i : Int) (v : Nat) (s : State) : State :=
  { touch Arr.bPix i true s with bPix := store s.bPix i v }

/-- Value of `gamma[pal[stripes[leds]]]` for a palette table `pal`. -/
def stripe_value (pal : List Nat) (leds : Nat) : Nat :=
  look gamma (look pal (look stripes leds))

/-- The three table reads of `gamma[pal[stripes[leds]]]`, innermost first. -/
def stripe_touch (a : Arr) (pal : List Nat) (leds : Nat) (s : State) : State :=
  let s := touch Arr.stripes leds false s
  let s := touch a (look stripes leds) false s
  touch Arr.gamma (look pal (look stripes leds)) false s

/-- The loop of `warmingStripes`: `for(leds = 0; leds != 64; leds ++)`, run
from the current value of the global `leds`; the first argument bounds the
number of iterations. -/
def warmingStripes_loop : Nat → State → State
  | 0, s => s
  | fuel + 1, s =>
    if s.leds = 64 then s
    else
      let s := set_rPix s.leds (stripe_value cooler_r s.leds)
        (stripe_touch Arr.cooler_r cooler_r s.leds s)
      let s := set_gPix s.leds (stripe_value cooler_g s.leds)
        (stripe_touch Arr.cooler_g cooler_g s.leds s)
      let s := set_bPix s.leds (stripe_value cooler_b s.leds)
        (stripe_touch Arr.cooler_b cooler_b s.leds s)
      warmingStripes_loop fuel { s with leds := (s.leds + 1) % 256 }

/-- Build climate warming stripes in the pixel array: `warmingStripes()`.
An `unsigned char` counter started at 0 reaches 64 within 256 steps.  The
passes with `leds` from 60 to 63 store outside the 60-element arrays, so in C
the call has no defined result; the access log records those stores, and
nothing is stated below about the variables after the call. -/
def warmingStripes (s : State) : State :=
  warmingStripes_loop 256 { s with leds := 0 }

/-- The loop of `blob`: `for(leds = 7; leds != 24; leds ++)`, run from the
current value of the global `leds`. -/
def blob_loop : Nat → State → State
  | 0, s => s
  | fuel + 1, s =>
    if s.leds = 24 then s
    else
      let s := set_rPix s.leds 0 s
      let s := set_gPix s.leds 0 s
      let s := set_bPix s.leds 0 s
      blob_loop fuel { s with leds := (s.leds + 1) % 256 }

/-- The 21 assignments that open `blob`: the seven pixels of the blob, tail
first. -/
def blob_shape (s : State) : State :=
  let s := set_bPix 0 1 (set_gPix 0 0 (set_rPix 0 1 s))
  let s := set_bPix 1 3 (set_gPix 1 0 (set_rPix 1 2 s))
  let s := set_bPix 2 12 (set_gPix 2 0 (set_rPix 2 8 s))
  let s := set_bPix 3 32 (set_gPix 3 0 (set_rPix 3 24 s))
  let s := set_bPix 4 120 (set_gPix 4 0 (set_rPix 4 90 s))
  let s := set_bPix 5 255 (set_gPix 5 0 (set_rPix 5 230 s))
  set_bPix 6 120 (set_gPix 6 0 (set_rPix 6 90 s))

/-- Build the purple ion blob in the pixel array: `blob()`. -/
def blob (s : State) : State :=
  { blob_loop 256 { blob_shape s with leds := 7 } with wVal := 0 }

/-! ## Pixel fillers -/

/-- Fill the strip with the active colour: `np_fill(leds)`.  The parameter
`leds` is the loop counter of `for(leds; leds != 0; leds --)`. -/
def np_fill : Nat → State → State
  | 0, s => s
  | leds + 1, s =>
    let s := np_shift s.gVal s
    let s := np_shift s.rVal s
    let s := np_shift s.bVal s
    let s := np_shift s.wVal s
    np_fill leds s

/-- Fill the strip with the gamma-adjusted active colour:
`np_gamma_fill(leds)`. -/
def np_gamma_fill : Nat → State → State
  | 0, s => s
  | leds + 1, s =>
    let s := np_shift (look gamma s.gVal) (touch Arr.gamma s.gVal false s)
    let s := np_shift (look gamma s.rVal) (touch Arr.gamma s.rVal false s)
    let s := np_shift (look gamma s.bVal) (touch Arr.gamma s.bVal false s)
    let s := np_shift (look gamma s.wVal) (touch Arr.gamma s.wVal false s)
    np_gamma_fill leds s

/-- The loop of `np_off`: `for(leds = neoLEDs; leds != 0; leds --)` on the
global counter `leds`, entered with the counter equal to the first argument. -/
def np_off_loop : Nat → State → State
  | 0, s => s
  | leds + 1, s =>
    let s := np_shift 0 s
    let s := np_shift 0 s
    let s := np_shift 0 s
    let s := np_shift 0 s
    np_off_loop leds { s with leds := leds }

/-- Blank all pixels of the strip, except one: `np_off()`. -/
def np_off (s : State) : State :=
  let s := np_off_loop neoLEDs { s with leds := neoLEDs }
  let s := delay_us 200 s
  let s := np_shift 32 s
  let s := np_shift 0 s
  let s := np_shift 0 s
  let s := np_shift 0 s
  delay_us 200 s

/-- One pass of the loop body of `np_crossfade`; `r`, `g`, `b`, `w` are the
local copies of the starting colour. -/
def np_crossfade_step (r g b : Nat) (w : Int) (s : State) : State :=
  let s := { s with rVal := toU8 ((s.rVal : Int) - ((r >>> 4 : Nat) : Int) + ((s.rVal2 >>> 4 : Nat) : Int)) }
  let s := { s with gVal := toU8 ((s.gVal : Int) - ((g >>> 4 : Nat) : Int) + ((s.gVal2 >>> 4 : Nat) : Int)) }
  let s := { s with bVal := toU8 ((s.bVal : Int) - ((b >>> 4 : Nat) : Int) + ((s.bVal2 >>> 4 : Nat) : Int)) }
  let s := { s with wVal := toU8 ((s.wVal : Int) - (w >>> 4) + ((s.wVal2 >>> 4 : Nat) : Int)) }
  let s := np_fill neoLEDs s
  delay_ms neoDel s

/-- The loop of `np_crossfade`: `for(steps = 16; steps != 0; steps--)`,
entered with the local counter `steps` equal to the first argument: the loop
body runs `steps` times. -/
def np_crossfade_loop (steps r g b : Nat) (w : Int) (s : State) : State :=
  (np_crossfade_step r g b w)^[steps] s

/-- The end of `np_crossfade`, after the loop: load the ending colour into the
active colour, fill the strip with it and wait. -/
def np_crossfade_finish (s : State) : State :=
  let s := { s with rVal := s.rVal2 }
  let s := { s with gVal := s.gVal2 }
  let s := { s with bVal := s.bVal2 }
  let s := { s with wVal := s.wVal2 }
  let s := np_fill neoLEDs s
  delay_ms neoDel s

/-- Cross-fade from the starting colour to the ending colour in 16 steps:
`np_crossfade(leds)`.  The parameter is not used by the C function.  The locals
`r`, `g`, `b` (`unsigned char`) and `w` (`signed char`) copy the starting
colour before the loop. -/
def np_crossfade (_leds : Nat) (s : State) : State :=
  np_crossfade_finish (np_crossfade_loop 16 s.rVal s.gVal s.bVal (toS8 s.wVal) s)

/-- The loop of `np_fill_array`: `for(leds; leds != 0; leds--)` on the
parameter `leds`. -/
def np_fill_array_loop : Nat → State → State
  | 0, s => s
  | leds + 1, s =>
    let s := np_shift (look s.gPix s.pixIndex) (touch Arr.gPix s.pixIndex false s)
    let s := np_shift (look s.rPix s.pixIndex) (touch Arr.rPix s.pixIndex false s)
    let s := np_shift (look s.bPix s.pixIndex) (touch Arr.bPix s.pixIndex false s)
    let s := np_shift s.wVal s
    let s := { s with pixIndex := toS8 (s.pixIndex + 1) }
    let s := if s.pixIndex = (s.pixLEDs : Int) then { s with pixIndex := 0 } else s
    np_fill_array_loop leds s

/-- Fill and repeat the pixel arrays into `leds` LEDs, then move the cursor by
`offset`: `np_fill_array(leds, offset)`. -/
def np_fill_array (leds : Nat) (offset : Int) (s : State) : State :=
  let s := if (s.pixLEDs : Int) ≤ s.pixIndex then { s with pixIndex := 0 } else s
  let tempIndex := s.pixIndex
  let s := np_fill_array_loop leds s
  let s := { s with pixIndex := toS8 (tempIndex - offset) }
  let s := if (s.pixLEDs : Int) ≤ s.pixIndex
    then { s with pixIndex := toS8 (s.pixIndex - (s.pixLEDs : Int)) } else s
  let s := if s.pixIndex < 0
    then { s with pixIndex := toS8 (s.pixIndex + (s.pixLEDs : Int) - 1) } else s
  s

/-! ## Buttons and the mode state machine -/

/-- What the environment supplies during one pass of a mode loop: the levels
of the five active-low pushbutton pins (0 means pressed), the value left in the
return register when `read_button` ends without a `return` statement, and the
results of the three calls of `rand()`. -/
structure Input where
  SW1 : Nat
  SW2 : Nat
  SW3 : Nat
  SW4 : Nat
  SW5 : Nat
  junk : Nat
  rand1 : Int
  rand2 : Int
  rand3 : Int
  deriving DecidableEq, Repr

/-- The branch of `read_button` taken when SW2 is pressed: next mode, wrap to
off mode, and set the key repeat delay. -/
def mode_advance (s : State) : State :=
  let s := { s with mode := (s.mode + 1) % 256 }
  let s := if s.mode = 6 then np_off { s with mode := OFF_MODE } else s
  if s.mode = RANDOM_MODE then { s with buttonDelay := 1 }
  else { s with buttonDelay := 25 }

/-- Read buttons and change mode: `read_button()`.  The result `none` stands
for `RESET()`, which restarts the device and never returns to the caller.  On
the SW2 path the C function ends without a `return` statement, so the value the
caller receives is whatever the environment supplies as `junk`. -/
def read_button (i : Input) (s : State) : Option (Nat × State) :=
  if i.SW1 = 0 then none
  else if i.SW2 = 0 then some (i.junk % 256, mode_advance s)
  else if i.SW3 = 0 then some (RBUTTON, s)
  else if i.SW4 = 0 then some (GBUTTON, s)
  else if i.SW5 = 0 then some (BBUTTON, s)
  else some (NOBUTTON, s)

/-- The global variables as the C start-up code leaves them before `main`. -/
def initState : State :=
  { rPix := List.replicate neoLEDs 0
    gPix := List.replicate neoLEDs 0
    bPix := List.replicate neoLEDs 0
    pixIndex := 0
    pixLEDs := neoLEDs
    rVal := 64
    gVal := 32
    bVal := 128
    rVal2 := 0
    gVal2 := 0
    bVal2 := 0
    wVal := 0
    wVal2 := 0
    ri := 0
    gi := 0
    bi := 0
    leds := 0
    bits := 0
    mode := OFF_MODE
    button := 0
    buttonDelay := 0
    trace := []
    acc := [] }

/-- The three assignments `ri = 60; gi = 0; bi = 120;` of `main`. -/
def set_phases (s : State) : State :=
  let s := { s with ri := 60 }
  let s := { s with gi := 0 }
  { s with bi := 120 }

/-- The assignment `pixLEDs = v`. -/
def set_pixLEDs (v : Nat) (s : State) : State :=
  { s with pixLEDs := v }

/-- The part of `main` before `while(1)`.  The board set-up calls
`OSC_config()` and `UBMP4_config()` touch none of the modelled variables. -/
def main_init (s : State) : State :=
  set_pixLEDs 24 (blob (set_phases (np_off (delay_us 200 (H1OUT false s)))))

/-- State at the first test of `while(mode == OFF_MODE)` after power-on. -/
def powerOn : State := main_init initState

/-- State after `RESET()`: the program starts again from the initial values of
its variables; the ghost logs keep their history. -/
def reboot (s : State) : State :=
  main_init { initState with trace := s.trace, acc := s.acc }

/-- The assignment `button = b`. -/
def set_button (b : Nat) (s : State) : State :=
  { s with button := b }

/-- The statement `buttonDelay --` on an `unsigned char`. -/
def dec_buttonDelay (s : State) : State :=
  { s with buttonDelay := (s.buttonDelay + 255) % 256 }

/-- The button polling that ends the body of each of the six mode loops:
`if(buttonDelay == 0) { button = read_button(); ... } else { buttonDelay --; }`,
where `after` stands for the statements that follow `button = read_button();`
inside the braces (none in the off, warming stripes and random mode loops).
The result `none` means that `read_button` ran `RESET()`. -/
def poll_then (after : State → State) (i : Input) (s : State) : Option State :=
  if s.buttonDelay = 0 then
    match read_button i s with
    | none => none
    | some (b, s) => some (after (set_button b s))
  else some (dec_buttonDelay s)

/-- The button polling of the off, warming stripes and random mode loops. -/
def poll (i : Input) (s : State) : Option State :=
  poll_then (fun s => s) i s

/-- One pass of the body of `while(mode == OFF_MODE)`. -/
def off_pass (i : Input) (s : State) : Option State :=
  poll i (delay_ms neoDel s)

/-- The statement pair `x ++; if(x == 180) x = 0;` on an `unsigned char`. -/
def next180 (x : Nat) : Nat :=
  let x := (x + 1) % 256
  if x = 180 then 0 else x

/-- The body of the pixel loop of rainbow mode: send one pixel from the sine
table at the running indices `gVal`, `rVal`, `bVal` and advance each index,
wrapping at 180. -/
def rainbow_pixel (s : State) : State :=
  let s := np_shift (look sine s.gVal) (touch Arr.sine s.gVal false s)
  let s := { s with gVal := next180 s.gVal }
  let s := np_shift (look sine s.rVal) (touch Arr.sine s.rVal false s)
  let s := { s with rVal := next180 s.rVal }
  let s := np_shift (look sine s.bVal) (touch Arr.sine s.bVal false s)
  let s := { s with bVal := next180 s.bVal }
  np_shift 0 s

/-- The pixel loop of rainbow mode: `for(leds = neoLEDs; leds != 0; leds --)`
on the global counter `leds`, entered with the counter equal to the first
argument. -/
def rainbow_loop : Nat → State → State
  | 0, s => s
  | leds + 1, s => rainbow_loop leds { rainbow_pixel s with leds := leds }

/-- The three assignments `rVal = ri; gVal = gi; bVal = bi;` that open the
rainbow mode loop body. -/
def rainbow_load (s : State) : State :=
  let s := { s with rVal := s.ri }
  let s := { s with gVal := s.gi }
  { s with bVal := s.bi }

/-- The assignment `leds = v`. -/
def set_leds (v : Nat) (s : State) : State :=
  { s with leds := v }

/-- The advance of the three phase counters after the pixel loop of rainbow
mode: `ri ++; if(ri == 180) ri = 0;` and the same for `gi` and `bi`. -/
def rainbow_advance (s : State) : State :=
  let s := { s with ri := next180 s.ri }
  let s := { s with gi := next180 s.gi }
  { s with bi := next180 s.bi }

/-- The frame of rainbow mode: load the running indices from the phase
counters, send 60 pixels, advance the three phase counters, wait. -/
def rainbow_frame (s : State) : State :=
  delay_ms neoDel (rainbow_advance (rainbow_loop neoLEDs (set_leds neoLEDs (rainbow_load s))))

/-- The statement after `button = read_button();` in the rainbow mode loop:
`if(mode != RAINBOW_MODE) { blob(); pixLEDs = 24; }`. -/
def rainbow_exit (s : State) : State :=
  if s.mode ≠ RAINBOW_MODE then set_pixLEDs 24 (blob s) else s

/-- One pass of the body of `while(mode == RAINBOW_MODE)`. -/
def rainbow_pass (i : Input) (s : State) : Option State :=
  poll_then rainbow_exit i (rainbow_frame s)

/-- The assignment `pixIndex = v`. -/
def set_pixIndex (v : Int) (s : State) : State :=
  { s with pixIndex := v }

/-- The statement after `button = read_button();` in the ion gun mode loop:
`if(mode != IONGUN_MODE) { warmingStripes(); pixLEDs = 60; pixIndex = 0; }`. -/
def iongun_exit (s : State) : State :=
  if s.mode ≠ IONGUN_MODE then set_pixIndex 0 (set_pixLEDs 60 (warmingStripes s)) else s

/-- One pass of the body of `while(mode == IONGUN_MODE)`. -/
def iongun_pass (i : Input) (s : State) : Option State :=
  poll_then iongun_exit i (delay_ms neoDel (np_fill_array neoLEDs 1 s))

/-- One pass of the body of `while(mode == WARMINGSTRIPES_MODE)`. -/
def stripes_pass (i : Input) (s : State) : Option State :=
  poll i (delay_ms neoDel (np_fill_array neoLEDs 0 s))

/-- The three assignments `rVal2 = rand() >> 8;` and so on that open the
random mode loop body. -/
def random_target (i : Input) (s : State) : State :=
  let s := { s with rVal2 := toU8 (i.rand1 >>> 8) }
  let s := { s with gVal2 := toU8 (i.rand2 >>> 8) }
  { s with bVal2 := toU8 (i.rand3 >>> 8) }

/-- One pass of the body of `while(mode == RANDOM_MODE)`. -/
def random_pass (i : Input) (s : State) : Option State :=
  poll i (delay_ms 1000 (np_crossfade neoLEDs (random_target i s)))

/-- The statements after `button = read_button();` in the colour mode loop:
SW3, SW4 and SW5 bump the red, green and blue value. -/
def colour_bump (s : State) : State :=
  if s.button = RBUTTON then { s with rVal := (s.rVal + 1) % 256 }
  else if s.button = GBUTTON then { s with gVal := (s.gVal + 1) % 256 }
  else if s.button = BBUTTON then { s with bVal := (s.bVal + 1) % 256 }
  else s

/-- One pass of the body of `while(mode == COLOUR_MODE)`. -/
def colour_pass (i : Input) (s : State) : Option State :=
  poll_then colour_bump i (delay_ms neoDel (np_gamma_fill neoLEDs s))

/-- One pass of the body of the mode loop that `main` is in.  The six
`while(mode == ...)` loops follow one another inside `while(1)`, so the loop
whose body runs next is the one for the current value of `mode`; for a value
outside 0..5 no loop body runs. -/
def pass (i : Input) (s : State) : Option State :=
  if s.mode = OFF_MODE then off_pass i s
  else if s.mode = RAINBOW_MODE then rainbow_pass i s
  else if s.mode = IONGUN_MODE then iongun_pass i s
  else if s.mode = WARMINGSTRIPES_MODE then stripes_pass i s
  else if s.mode = RANDOM_MODE then random_pass i s
  else if s.mode = COLOUR_MODE then colour_pass i s
  else some s

/-- One tick of the main loop: one pass of the active mode loop, or the
restart of the program when the pass ran `RESET()`. -/
def tick (i : Input) (s : State) : State :=
  match pass i s with
  | some s => s
  | none => reboot s

/-- State of the main loop after the ticks driven by `inputs`, from power-on. -/
def run (inputs : List Input) : State :=
  inputs.foldl (fun s i => tick i s) powerOn

/-! ## Auxiliary functions used to state the properties -/

/-- The cursor arithmetic at the end of `np_fill_array`, as a function of the
array size `pixLEDs`, the saved start index `tempIndex` and `offset`. -/
def cursor_after (pixLEDs : Nat) (tempIndex offset : Int) : Int :=
  let pixIndex := toS8 (tempIndex - offset)
  let pixIndex := if (pixLEDs : Int) ≤ pixIndex then toS8 (pixIndex - (pixLEDs : Int)) else pixIndex
  if pixIndex < 0 then toS8 (pixIndex + (pixLEDs : Int) - 1) else pixIndex

/-- The mode that `read_button` selects after mode `m`: `mode ++` on an
`unsigned char`, then 0 if the result is 6. -/
def next_mode (m : Nat) : Nat :=
  if (m + 1) % 256 = 6 then 0 else (m + 1) % 256

/-- The cursor after one call of `np_fill_array` with the given `offset`, as a
function of the array size and of the cursor before the call. -/
def cursor_step (pixLEDs : Nat) (offset pixIndex : Int) : Int :=
  cursor_after pixLEDs (if (pixLEDs : Int) ≤ pixIndex then 0 else pixIndex) offset

/-- One channel update of the loop body of `np_crossfade`:
`cur = cur - (start >> 4) + (target >> 4)` on `unsigned char` values. -/
def fade_step (start target cur : Nat) : Nat :=
  toU8 ((cur : Int) - ((start >>> 4 : Nat) : Int) + ((target >>> 4 : Nat) : Int))

/-- The cursor, the array size and the mode of `s2` are those of `s`. -/
def SameCur (s s2 : State) : Prop :=
  s2.pixIndex = s.pixIndex ∧ s2.pixLEDs = s.pixLEDs ∧ s2.mode = s.mode

/-- Every logged access to the sine table has its index inside the table. -/
def SineOK (l : List Access) : Prop :=
  ∀ a ∈ l, a.arr = Arr.sine → 0 ≤ a.idx ∧ a.idx < 180

/-- The invariant of the main loop on the rainbow phase counters and on the
reads of the sine table made so far. -/
def PhaseInv (s : State) : Prop :=
  s.ri < 180 ∧ s.gi < 180 ∧ s.bi < 180 ∧ SineOK s.acc

/-- The phase counters of `s2` are those of `s`, and `s2` has logged no read
outside the sine table unless `s` had. -/
def SamePhase (s s2 : State) : Prop :=
  s2.ri = s.ri ∧ s2.gi = s.gi ∧ s2.bi = s.bi ∧ (SineOK s.acc → SineOK s2.acc)

/-- The running indices of the rainbow pixel loop are inside the sine table,
and so is every read of the sine table logged so far. -/
def RunningOK (s : State) : Prop :=
  s.gVal < 180 ∧ s.rVal < 180 ∧ s.bVal < 180 ∧ SineOK s.acc

/-- Test that each entry of a table is at most the entry after it. -/
def nondecreasing : List Nat → Bool
  | a :: b :: rest => decide (a ≤ b) && nondecreasing (b :: rest)
  | _ => true

/-- Declared number of elements of each array. -/
def arr_size : Arr → Nat
  | Arr.rPix => neoLEDs
  | Arr.gPix => neoLEDs
  | Arr.bPix => neoLEDs
  | Arr.gamma => 256
  | Arr.sine => 180
  | Arr.cooler_r => 20
  | Arr.cooler_g => 20
  | Arr.cooler_b => 20
  | Arr.stripes => 64

/-- The array accesses of one pass of the loop of `warmingStripes` with the
counter `leds` equal to `k`, in program order. -/
def stripes_accesses (k : Nat) : List Access :=
  [⟨Arr.stripes, k, false⟩, ⟨Arr.cooler_r, look stripes k, false⟩,
   ⟨Arr.gamma, look cooler_r (look stripes k), false⟩, ⟨Arr.rPix, k, true⟩,
   ⟨Arr.stripes, k, false⟩, ⟨Arr.cooler_g, look stripes k, false⟩,
   ⟨Arr.gamma, look cooler_g (look stripes k), false⟩, ⟨Arr.gPix, k, true⟩,
   ⟨Arr.stripes, k, false⟩, ⟨Arr.cooler_b, look stripes k, false⟩,
   ⟨Arr.gamma, look cooler_b (look stripes k), false⟩, ⟨Arr.bPix, k, true⟩]

/-- The three pixel arrays of `s2` are those of `s`. -/
def SamePix (s s2 : State) : Prop :=
  s2.rPix = s.rPix ∧ s2.gPix = s.gPix ∧ s2.bPix = s.bPix

/-- Value of a red, green or blue channel after `k` passes of the loop of
`np_crossfade`, for the value `start` at the call and the target `target`. -/
def fade_value (start target k : Nat) : Nat :=
  (fade_step start target)^[k] start

/-- The part of the body of the active mode loop that comes before the button
polling: the frame the mode shows and its delay. -/
def mode_frame (i : Input) (s : State) : State :=
  if s.mode = OFF_MODE then delay_ms neoDel s
  else if s.mode = RAINBOW_MODE then rainbow_frame s
  else if s.mode = IONGUN_MODE then delay_ms neoDel (np_fill_array neoLEDs 1 s)
  else if s.mode = WARMINGSTRIPES_MODE then delay_ms neoDel (np_fill_array neoLEDs 0 s)
  else if s.mode = RANDOM_MODE then delay_ms 1000 (np_crossfade neoLEDs (random_target i s))
  else if s.mode = COLOUR_MODE then delay_ms neoDel (np_gamma_fill neoLEDs s)
  else s

/-- The statements that follow `button = read_button();` in the loop of mode
`m`. -/
def mode_exit (m : Nat) : State → State :=
  if m = RAINBOW_MODE then rainbow_exit
  else if m = IONGUN_MODE then iongun_exit
  else if m = COLOUR_MODE then colour_bump
  else fun s => s

/-- The mode, the key repeat counter and the last button value of `s2` are
those of `s`. -/
def SameKey (s s2 : State) : Prop :=
  s2.mode = s.mode ∧ s2.buttonDelay = s.buttonDelay ∧ s2.button = s.button

/-- Every logged access has its index inside the array it goes to. -/
def AccOK (l : List Access) : Prop :=
  ∀ a ∈ l, 0 ≤ a.idx ∧ a.idx < (arr_size a.arr : Int)

/-- Every logged store has its index inside the array it goes to. -/
def StoresOK (l : List Access) : Prop :=
  ∀ a ∈ l, a.write = true → 0 ≤ a.idx ∧ a.idx < (arr_size a.arr : Int)

/-- The access log of `s2` is the log of `s` with further accesses appended. -/
def AccGrows (s s2 : State) : Prop :=
  ∃ l, s2.acc = s.acc ++ l

/-- The invariant of the main loop on the cursor: the cursor is inside the
array size, the array size is 24 or 60, and outside ion gun mode the cursor is
at 0.  It does not constrain the mode. -/
def CursorOK (s : State) : Prop :=
  0 ≤ s.pixIndex ∧ s.pixIndex < (s.pixLEDs : Int)
  ∧ (s.pixLEDs = 24 ∨ s.pixLEDs = 60)
  ∧ (s.mode ≠ IONGUN_MODE → s.pixIndex = 0)

/-- The eight colour variables hold byte values. -/
def Bytes (s : State) : Prop :=
  s.rVal < 256 ∧ s.gVal < 256 ∧ s.bVal < 256 ∧ s.wVal < 256
  ∧ s.rVal2 < 256 ∧ s.gVal2 < 256 ∧ s.bVal2 < 256 ∧ s.wVal2 < 256

/-- The part of the invariant of the main loop that does not speak of the
cursor: phase counters inside the sine table, byte-valued colours, and every
access so far inside its array. -/
def Rest (s : State) : Prop :=
  PhaseInv s ∧ Bytes s ∧ AccOK s.acc

/-- The start index `np_fill_array` uses: the cursor, or 0 when the cursor is
not below the array size. -/
def start_index (s : State) : Int :=
  if (s.pixLEDs : Int) ≤ s.pixIndex then 0 else s.pixIndex

/-! ## Wire format used to state the properties -/

/-- The pin writes of one bit pulse as the protocol describes it: the pulse
starts with a write of 1 and ends with a write of 0, and a 0 bit has one more,
earlier, write of 0. -/
def pulse (bit : Bool) : List Ev :=
  if bit then [Ev.pin true, Ev.pin false]
  else [Ev.pin true, Ev.pin false, Ev.pin false]

/-- The pin writes of one byte on the wire: eight pulses, pulse `i` carrying
bit `7 - i` of the byte (most significant bit first). -/
def wire (col : Nat) : List Ev :=
  (List.range 8).flatMap (fun i => pulse (col.testBit (7 - i)))

/-- The pin writes of one pixel on the wire: its bytes in the given order. -/
def wire_bytes (bytes : List Nat) : List Ev :=
  bytes.flatMap wire

/-- Read bytes back from pin writes: each pulse shifts one bit into `acc`. -/
def unwire : Nat → List Ev → Nat
  | acc, Ev.pin true :: Ev.pin false :: Ev.pin false :: rest => unwire (2 * acc) rest
  | acc, Ev.pin true :: Ev.pin false :: rest => unwire (2 * acc + 1) rest
  | acc, _ => acc

/-- The pin writes made by `np_shift_loop bits col`, as a list. -/
def shift_events : Nat → Nat → List Ev
  | 0, _ => []
  | bits + 1, col =>
    (if col &&& 0b10000000 = 0 then [Ev.pin true, Ev.pin false, Ev.pin false]
      else [Ev.pin true, Ev.pin false]) ++ shift_events bits ((col <<< 1) % 256)

/-- The events of one frame of a flat fill followed by the frame delay: 60
pixels of the bytes g, r, b, w, then `__delay_ms(neoDel)`. -/
def frame (g r b w : Nat) : List Ev :=
  (List.replicate neoLEDs (wire_bytes [g, r, b, w])).flatten ++ [Ev.delay_ms neoDel]

/-- The frame that shows the active colour of a state. -/
def frame_of (s : State) : List Ev :=
  frame s.gVal s.rVal s.bVal s.wVal

/-! ## The bit transmitter -/

theorem np_shift_loop_eq (bits col : Nat) (s : State) :
    np_shift_loop bits col s =
      { s with bits := if bits = 0 then s.bits else 0,
               trace := s.trace ++ shift_events bits col } := by
  induction bits generalizing col s with
  | zero => simp [np_shift_loop, shift_events]
  | succ n ih =>
    rw [np_shift_loop]
    simp only [ih, H1OUT, shift_events]
    split <;> simp

set_option maxRecDepth 1000000 in
theorem shift_events_eq_wire : ∀ col : Fin 256, shift_events 8 col.val = wire col.val := by
  decide

set_option maxRecDepth 1000000 in
theorem unwire_wire : ∀ col : Fin 256, unwire 0 (wire col.val) = col.val := by
  decide

theorem wire_mod (col : Nat) : wire (col % 256) = wire col := by
  unfold wire
  apply List.flatMap_congr
  intro i hi
  have h8 : i < 8 := List.mem_range.mp hi
  have : (256 : Nat) = 2 ^ 8 := by norm_num
  rw [this, Nat.testBit_mod_two_pow]
  have : 7 - i < 8 := by omega
  simp [this]

theorem np_shift_eq (col : Nat) (s : State) :
    np_shift col s = { s with bits := 0, trace := s.trace ++ wire col } := by
  have h := shift_events_eq_wire ⟨col % 256, Nat.mod_lt _ (by norm_num)⟩
  simp only at h
  rw [np_shift, np_shift_loop_eq, h, wire_mod]
  simp

/-- C1: for every byte `col`, `np_shift(col)` appends to the pin trace exactly
eight pulses, most significant bit first; every pulse starts with a write of 1
and ends with a write of 0, and pulse `i` has the extra early write of 0 exactly
when bit `7 - i` of `col` is 0.  Two different bytes never give the same
trace. -/
theorem np_shift_emits_eight_pulses_msb_first (col : Nat) (s : State) (hcol : col < 256) :
    (np_shift col s).trace = s.trace ++ (List.range 8).flatMap (fun i =>
        if col.testBit (7 - i) then [Ev.pin true, Ev.pin false]
        else [Ev.pin true, Ev.pin false, Ev.pin false])
    ∧ (∀ col2, col2 < 256 → (np_shift col2 s).trace = (np_shift col s).trace → col2 = col) := by
  constructor
  · rw [np_shift_eq]
    simp [wire, pulse]
  · intro col2 h2 heq
    rw [np_shift_eq, np_shift_eq] at heq
    have hw : wire col2 = wire col := List.append_cancel_left heq
    have h1 := unwire_wire ⟨col, hcol⟩
    have h2 := unwire_wire ⟨col2, h2⟩
    simp only at h1 h2
    rw [← h1, ← h2, hw]

/-- C1 at the byte 0xA5 sent from the start-up state. -/
theorem np_shift_emits_eight_pulses_msb_first_witness :
    (np_shift 0xA5 initState).trace = initState.trace ++ (List.range 8).flatMap (fun i =>
        if (0xA5 : Nat).testBit (7 - i) then [Ev.pin true, Ev.pin false]
        else [Ev.pin true, Ev.pin false, Ev.pin false])
    ∧ (∀ col2, col2 < 256 →
        (np_shift col2 initState).trace = (np_shift 0xA5 initState).trace → col2 = 0xA5) :=
  np_shift_emits_eight_pulses_msb_first 0xA5 initState (by decide)

/-! ## Flat fills -/

theorem np_fill_eq (leds : Nat) (s : State) :
    np_fill leds s =
      { s with bits := if leds = 0 then s.bits else 0,
               trace := s.trace ++
                 (List.replicate leds (wire_bytes [s.gVal, s.rVal, s.bVal, s.wVal])).flatten } := by
  induction leds generalizing s with
  | zero => simp [np_fill]
  | succ n ih =>
    rw [np_fill]
    simp only [np_shift_eq, ih]
    simp [List.replicate_succ, wire_bytes, List.append_assoc]

theorem np_gamma_fill_eq (leds : Nat) (s : State) :
    np_gamma_fill leds s =
      { s with bits := if leds = 0 then s.bits else 0,
               trace := s.trace ++
                 (List.replicate leds (wire_bytes [look gamma s.gVal, look gamma s.rVal,
                    look gamma s.bVal, look gamma s.wVal])).flatten,
               acc := s.acc ++
                 (List.replicate leds [(⟨Arr.gamma, s.gVal, false⟩ : Access),
                    ⟨Arr.gamma, s.rVal, false⟩, ⟨Arr.gamma, s.bVal, false⟩,
                    ⟨Arr.gamma, s.wVal, false⟩]).flatten } := by
  induction leds generalizing s with
  | zero => simp [np_gamma_fill]
  | succ n ih =>
    rw [np_gamma_fill]
    simp only [np_shift_eq, ih, touch]
    simp [List.replicate_succ, wire_bytes, List.append_assoc]

theorem wire_bytes_replicate (n : Nat) (l : List Nat) :
    wire_bytes (List.replicate n l).flatten = (List.replicate n (wire_bytes l)).flatten := by
  induction n with
  | zero => simp [wire_bytes]
  | succ n ih =>
    simp only [List.replicate_succ, List.flatten_cons]
    rw [← ih]
    simp [wire_bytes]

theorem look_nat (xs : List Nat) (i : Nat) : look xs (i : Int) = xs[i]! := by
  simp [look, List.getD_eq_getElem?_getD, getElem!_def]
  cases h : xs[i]? <;> simp

/-- C6: flat fills send the channels in green, red, blue, white order.  For
every count (in C a byte, 0..255) and every active colour, `np_fill(N)` appends to the pin trace
exactly N repetitions of the bytes gVal, rVal, bVal, wVal, and
`np_gamma_fill(N)` exactly N repetitions of gamma[gVal], gamma[rVal],
gamma[bVal], gamma[wVal]; neither changes the active colour or the target
colour. -/
theorem flat_fills_send_green_red_blue_white (N : Nat) (s : State) :
    (np_fill N s).trace = s.trace ++
        wire_bytes (List.replicate N [s.gVal, s.rVal, s.bVal, s.wVal]).flatten
    ∧ (np_gamma_fill N s).trace = s.trace ++
        wire_bytes (List.replicate N [gamma[s.gVal]!, gamma[s.rVal]!, gamma[s.bVal]!,
          gamma[s.wVal]!]).flatten
    ∧ ((np_fill N s).rVal = s.rVal ∧ (np_fill N s).gVal = s.gVal
        ∧ (np_fill N s).bVal = s.bVal ∧ (np_fill N s).wVal = s.wVal
        ∧ (np_fill N s).rVal2 = s.rVal2 ∧ (np_fill N s).gVal2 = s.gVal2
        ∧ (np_fill N s).bVal2 = s.bVal2 ∧ (np_fill N s).wVal2 = s.wVal2)
    ∧ ((np_gamma_fill N s).rVal = s.rVal ∧ (np_gamma_fill N s).gVal = s.gVal
        ∧ (np_gamma_fill N s).bVal = s.bVal ∧ (np_gamma_fill N s).wVal = s.wVal
        ∧ (np_gamma_fill N s).rVal2 = s.rVal2 ∧ (np_gamma_fill N s).gVal2 = s.gVal2
        ∧ (np_gamma_fill N s).bVal2 = s.bVal2 ∧ (np_gamma_fill N s).wVal2 = s.wVal2) := by
  refine ⟨?_, ?_, ?_, ?_⟩
  · rw [np_fill_eq, wire_bytes_replicate]
  · rw [np_gamma_fill_eq, wire_bytes_replicate]
    simp only [look_nat]
  · simp [np_fill_eq]
  · simp [np_gamma_fill_eq]

/-! ## Buffer fill -/

theorem np_fill_array_loop_frame (leds : Nat) (s : State) :
    ∃ b p t a, np_fill_array_loop leds s =
      { s with bits := b, pixIndex := p, trace := t, acc := a } := by
  induction leds generalizing s with
  | zero => exact ⟨s.bits, s.pixIndex, s.trace, s.acc, rfl⟩
  | succ n ih =>
    rw [np_fill_array_loop]
    simp only [np_shift_eq, touch]
    split
    · obtain ⟨b, p, t, a, h⟩ := ih _
      exact ⟨b, p, t, a, by rw [h]⟩
    · obtain ⟨b, p, t, a, h⟩ := ih _
      exact ⟨b, p, t, a, by rw [h]⟩

theorem np_fill_array_frame (leds : Nat) (offset : Int) (s : State) :
    ∃ b t a, np_fill_array leds offset s =
      { s with bits := b, pixIndex := cursor_after s.pixLEDs (start_index s) offset,
               trace := t, acc := a } := by
  unfold np_fill_array
  by_cases h : (s.pixLEDs : Int) ≤ s.pixIndex
  · obtain ⟨b, p, t, a, hl⟩ := np_fill_array_loop_frame leds { s with pixIndex := 0 }
    refine ⟨b, t, a, ?_⟩
    simp only [h, if_true, hl, cursor_after, start_index]
    split <;> split <;> simp_all
  · obtain ⟨b, p, t, a, hl⟩ := np_fill_array_loop_frame leds s
    refine ⟨b, t, a, ?_⟩
    simp only [h, if_false, hl, cursor_after, start_index]
    split <;> split <;> simp_all

theorem wire_bytes_append (xs ys : List Nat) :
    wire_bytes (xs ++ ys) = wire_bytes xs ++ wire_bytes ys := by
  simp [wire_bytes]

theorem wire_bytes_four (a b c d : Nat) :
    wire_bytes [a, b, c, d] = wire a ++ (wire b ++ (wire c ++ wire d)) := by
  simp [wire_bytes]

theorem np_fill_array_loop_trace (leds : Nat) (s : State) (n p : Nat)
    (hL : s.pixLEDs = n) (hp : s.pixIndex = (p : Int)) (hpn : p < n) (hn : n ≤ 127) :
    (np_fill_array_loop leds s).trace = s.trace ++ wire_bytes ((List.range leds).flatMap
      (fun k => [s.gPix[(p + k) % n]!, s.rPix[(p + k) % n]!, s.bPix[(p + k) % n]!, s.wVal])) := by
  induction leds generalizing s p with
  | zero => simp [np_fill_array_loop, wire_bytes]
  | succ c ih =>
    rw [np_fill_array_loop]
    simp only [np_shift_eq, touch]
    have h1 : toS8 (s.pixIndex + 1) = ((p + 1 : Nat) : Int) := by
      rw [hp]; unfold toS8; omega
    have hmod : ∀ k, ((p + 1) % n + k) % n = (p + (k + 1)) % n := by
      intro k
      rw [Nat.add_mod, Nat.mod_mod, ← Nat.add_mod]
      congr 1
      omega
    have hhead : p % n = p := Nat.mod_eq_of_lt hpn
    rw [List.range_succ_eq_map, List.flatMap_cons, List.flatMap_map, wire_bytes_append,
      wire_bytes_four]
    simp only [h1, hL]
    split
    · rename_i heq
      have hpe : p + 1 = n := by exact_mod_cast heq
      rw [ih _ 0 rfl rfl (by omega)]
      have hz : ∀ k, (0 + k) % n = (p + (k + 1)) % n := by
        intro k
        have := hmod k
        rw [hpe, Nat.mod_self] at this
        exact this
      simp only [hz, hp, look_nat, Nat.add_zero, hhead, Nat.succ_eq_add_one, Function.comp_def,
        List.append_assoc]
    · rename_i hne
      have hpe : p + 1 < n := by
        have : p + 1 ≠ n := fun h => hne (by exact_mod_cast h)
        omega
      rw [ih _ (p + 1) rfl rfl hpe]
      have hz : ∀ k, (p + 1 + k) % n = (p + (k + 1)) % n := by
        intro k
        congr 1
        omega
      simp only [hz, hp, look_nat, Nat.add_zero, hhead, Nat.succ_eq_add_one, Function.comp_def,
        List.append_assoc]

theorem np_fill_array_trace_loop (leds : Nat) (offset : Int) (s : State) :
    (np_fill_array leds offset s).trace =
      (np_fill_array_loop leds { s with pixIndex := start_index s }).trace := by
  unfold np_fill_array start_index
  by_cases h : (s.pixLEDs : Int) ≤ s.pixIndex
  · simp only [h, if_true]
    split <;> split <;> rfl
  · simp only [h, if_false]
    split <;> split <;> rfl

theorem np_fill_array_trace (leds : Nat) (offset : Int) (s : State) (n p : Nat)
    (hL : s.pixLEDs = n) (hp : start_index s = (p : Int)) (hpn : p < n) (hn : n ≤ 127) :
    (np_fill_array leds offset s).trace = s.trace ++ wire_bytes ((List.range leds).flatMap
      (fun k => [s.gPix[(p + k) % n]!, s.rPix[(p + k) % n]!, s.bPix[(p + k) % n]!, s.wVal])) := by
  rw [np_fill_array_trace_loop,
    np_fill_array_loop_trace leds { s with pixIndex := start_index s } n p hL hp hpn hn]

theorem toS8_small (x : Int) (h1 : -128 ≤ x) (h2 : x ≤ 127) : toS8 x = x := by
  unfold toS8; omega

theorem cursor_after_zero (n : Nat) (p : Int) (h0 : 0 ≤ p) (hpn : p < n) (hn : n ≤ 127) :
    cursor_after n p 0 = p := by
  unfold cursor_after
  simp only [sub_zero]
  rw [toS8_small p (by omega) (by omega)]
  simp only [not_le.mpr hpn, if_false, not_lt.mpr h0]

/-- C2: for every logical length n with 1 ≤ n ≤ 60 and every count c,
`np_fill_array(c, offset)` started with the cursor at `start` (0 ≤ start < n; a
cursor value at or above n counts as start 0) appends to the pin trace exactly
c pixels, pixel k being the bytes gPix[(start+k) mod n], rPix[(start+k) mod n],
bPix[(start+k) mod n], wVal in that order, and leaves the three pixel arrays as
they were. -/
theorem np_fill_array_sends_c_pixels_from_cursor (c : Nat) (offset : Int) (s : State)
    (n start : Nat) (hn1 : 1 ≤ n) (hn : n ≤ 60) (hL : s.pixLEDs = n)
    (hstart : (s.pixIndex = (start : Int) ∧ start < n) ∨ ((n : Int) ≤ s.pixIndex ∧ start = 0)) :
    (np_fill_array c offset s).trace = s.trace ++ wire_bytes ((List.range c).flatMap
      (fun k => [s.gPix[(start + k) % n]!, s.rPix[(start + k) % n]!,
                 s.bPix[(start + k) % n]!, s.wVal]))
    ∧ (np_fill_array c offset s).rPix = s.rPix
    ∧ (np_fill_array c offset s).gPix = s.gPix
    ∧ (np_fill_array c offset s).bPix = s.bPix := by
  have hsi : start_index s = (start : Int) ∧ start < n := by
    unfold start_index
    rcases hstart with ⟨h1, h2⟩ | ⟨h1, h2⟩
    · have : ¬ (s.pixLEDs : Int) ≤ s.pixIndex := by rw [hL, h1]; omega
      rw [if_neg this]
      exact ⟨h1, h2⟩
    · have : (s.pixLEDs : Int) ≤ s.pixIndex := by rw [hL]; exact h1
      simp only [this, if_true, h2]
      exact ⟨rfl, by omega⟩
  refine ⟨np_fill_array_trace c offset s n start hL hsi.1 hsi.2 (by omega), ?_⟩
  obtain ⟨b, t, a, h⟩ := np_fill_array_frame c offset s
  rw [h]
  exact ⟨rfl, rfl, rfl⟩

/-- C2 on a 24-pixel array with the cursor on the last slot, two pixels sent:
the second pixel comes from slot 0. -/
theorem np_fill_array_sends_c_pixels_from_cursor_witness :
    (np_fill_array 2 1 { initState with pixLEDs := 24, pixIndex := 23 }).trace =
      wire_bytes ((List.range 2).flatMap
        (fun k => [initState.gPix[(23 + k) % 24]!, initState.rPix[(23 + k) % 24]!,
                   initState.bPix[(23 + k) % 24]!, 0]))
    ∧ (np_fill_array 2 1 { initState with pixLEDs := 24, pixIndex := 23 }).rPix = initState.rPix
    ∧ (np_fill_array 2 1 { initState with pixLEDs := 24, pixIndex := 23 }).gPix = initState.gPix
    ∧ (np_fill_array 2 1 { initState with pixLEDs := 24, pixIndex := 23 }).bPix = initState.bPix :=
  np_fill_array_sends_c_pixels_from_cursor 2 1 { initState with pixLEDs := 24, pixIndex := 23 }
    24 23 (by decide) (by decide) rfl (Or.inl ⟨rfl, by decide⟩)

/-- C5: static display.  For every buffer contents, logical length n with
1 ≤ n ≤ 60, cursor in [0, n) and count, two successive calls
`np_fill_array(count, 0)` append the same byte sequence to the pin trace, and
the cursor after each call equals the cursor before it. -/
theorem np_fill_array_offset_zero_is_static (count : Nat) (s : State) (n : Nat)
    (hn1 : 1 ≤ n) (hn : n ≤ 60) (hL : s.pixLEDs = n)
    (h0 : 0 ≤ s.pixIndex) (hlt : s.pixIndex < (n : Int)) :
    ∃ bytes : List Nat,
      (np_fill_array count 0 s).trace = s.trace ++ wire_bytes bytes
      ∧ (np_fill_array count 0 (np_fill_array count 0 s)).trace =
          (np_fill_array count 0 s).trace ++ wire_bytes bytes
      ∧ (np_fill_array count 0 s).pixIndex = s.pixIndex
      ∧ (np_fill_array count 0 (np_fill_array count 0 s)).pixIndex =
          (np_fill_array count 0 s).pixIndex := by
  have hsi : start_index s = s.pixIndex := by
    unfold start_index
    rw [if_neg (by rw [hL]; omega)]
  have hnat : s.pixIndex = ((s.pixIndex.toNat : Nat) : Int) := (Int.toNat_of_nonneg h0).symm
  have hplt : s.pixIndex.toNat < n := by omega
  have hcur : cursor_after s.pixLEDs (start_index s) 0 = s.pixIndex := by
    rw [hsi, hL]
    exact cursor_after_zero n s.pixIndex h0 hlt (by omega)
  have htr : ∀ s2 : State, s2.pixLEDs = n → s2.pixIndex = s.pixIndex → s2.gPix = s.gPix →
      s2.rPix = s.rPix → s2.bPix = s.bPix → s2.wVal = s.wVal →
      (np_fill_array count 0 s2).trace = s2.trace ++ wire_bytes ((List.range count).flatMap
        (fun k => [s.gPix[(s.pixIndex.toNat + k) % n]!, s.rPix[(s.pixIndex.toNat + k) % n]!,
                   s.bPix[(s.pixIndex.toNat + k) % n]!, s.wVal])) := by
    intro s2 e1 e2 e3 e4 e5 e6
    have hsi2 : start_index s2 = ((s.pixIndex.toNat : Nat) : Int) := by
      unfold start_index
      rw [if_neg (by rw [e1, e2]; omega), e2]
      exact hnat
    rw [np_fill_array_trace count 0 s2 n s.pixIndex.toNat e1 hsi2 hplt (by omega), e3, e4, e5, e6]
  obtain ⟨b, t, a, h⟩ := np_fill_array_frame count 0 s
  have hp1 : (np_fill_array count 0 s).pixIndex = s.pixIndex := by
    rw [h]; exact hcur
  refine ⟨_, htr s hL rfl rfl rfl rfl rfl, ?_, hp1, ?_⟩
  · exact htr _ (by rw [h]; exact hL) hp1 (by rw [h]) (by rw [h]) (by rw [h]) (by rw [h])
  · obtain ⟨b2, t2, a2, h2⟩ := np_fill_array_frame count 0 (np_fill_array count 0 s)
    rw [h2]
    have e1 : (np_fill_array count 0 s).pixLEDs = n := by rw [h]; exact hL
    have hsi2 : start_index (np_fill_array count 0 s) = (np_fill_array count 0 s).pixIndex := by
      unfold start_index
      rw [if_neg (by rw [e1, hp1]; omega)]
    show cursor_after _ _ 0 = _
    rw [hsi2, e1, hp1]
    exact cursor_after_zero n s.pixIndex h0 hlt (by omega)

/-- C5 on the 60-pixel array with the cursor at 0, as in warming stripes mode. -/
theorem np_fill_array_offset_zero_is_static_witness :
    ∃ bytes : List Nat,
      (np_fill_array 60 0 initState).trace = initState.trace ++ wire_bytes bytes
      ∧ (np_fill_array 60 0 (np_fill_array 60 0 initState)).trace =
          (np_fill_array 60 0 initState).trace ++ wire_bytes bytes
      ∧ (np_fill_array 60 0 initState).pixIndex = initState.pixIndex
      ∧ (np_fill_array 60 0 (np_fill_array 60 0 initState)).pixIndex =
          (np_fill_array 60 0 initState).pixIndex :=
  np_fill_array_offset_zero_is_static 60 initState 60 (by decide) (by decide) rfl
    (by decide) (by decide)

/-! ## What each routine changes -/

theorem np_off_loop_eq (leds : Nat) (s : State) :
    np_off_loop leds s =
      { s with leds := if leds = 0 then s.leds else 0,
               bits := if leds = 0 then s.bits else 0,
               trace := s.trace ++ (List.replicate leds (wire_bytes [0, 0, 0, 0])).flatten } := by
  induction leds generalizing s with
  | zero => simp [np_off_loop]
  | succ n ih =>
    rw [np_off_loop]
    simp only [np_shift_eq, ih]
    cases n <;> simp [List.replicate_succ, wire_bytes_four, List.append_assoc]

theorem np_off_eq (s : State) :
    np_off s =
      { s with leds := 0, bits := 0,
               trace := s.trace ++ ((List.replicate 60 (wire_bytes [0, 0, 0, 0])).flatten ++
                 [Ev.delay_us 200] ++ wire_bytes [32, 0, 0, 0] ++ [Ev.delay_us 200]) } := by
  unfold np_off
  simp only [np_off_loop_eq, np_shift_eq, delay_us, neoLEDs, wire_bytes_four]
  simp only [List.append_assoc]
  rfl

theorem blob_loop_frame (fuel : Nat) (s : State) :
    ∃ r g b l a, blob_loop fuel s =
      { s with rPix := r, gPix := g, bPix := b, leds := l, acc := a } := by
  induction fuel generalizing s with
  | zero => exact ⟨_, _, _, _, _, rfl⟩
  | succ n ih =>
    rw [blob_loop]
    split
    · exact ⟨_, _, _, _, _, rfl⟩
    · simp only [set_rPix, set_gPix, set_bPix, touch]
      obtain ⟨r, g, b, l, a, h⟩ := ih _
      exact ⟨r, g, b, l, a, by rw [h]⟩

theorem blob_shape_frame (s : State) :
    ∃ r g b a, blob_shape s = { s with rPix := r, gPix := g, bPix := b, acc := a } :=
  ⟨_, _, _, _, rfl⟩

theorem blob_frame (s : State) :
    ∃ r g b l a, blob s =
      { s with rPix := r, gPix := g, bPix := b, leds := l, wVal := 0, acc := a } := by
  obtain ⟨r1, g1, b1, a1, h1⟩ := blob_shape_frame s
  obtain ⟨r, g, b, l, a, h⟩ := blob_loop_frame 256 { blob_shape s with leds := 7 }
  refine ⟨r, g, b, l, a, ?_⟩
  rw [blob, h, h1]

theorem main_init_frame (s : State) :
    ∃ r g b l a t, main_init s =
      { s with rPix := r, gPix := g, bPix := b, leds := l, bits := 0, wVal := 0,
               ri := 60, gi := 0, bi := 120, pixLEDs := 24, trace := t, acc := a } := by
  obtain ⟨r, g, b, l, a, h⟩ := blob_frame (set_phases (np_off (delay_us 200 (H1OUT false s))))
  rw [main_init, h, np_off_eq]
  exact ⟨r, g, b, l, a, _, rfl⟩

theorem np_crossfade_step_frame (r g b : Nat) (w : Int) (s : State) :
    ∃ r1 g1 b1 w1 t, np_crossfade_step r g b w s =
      { s with rVal := r1, gVal := g1, bVal := b1, wVal := w1, bits := 0, trace := t } := by
  unfold np_crossfade_step
  simp only [np_fill_eq, delay_ms, neoLEDs]
  exact ⟨_, _, _, _, _, rfl⟩

theorem np_crossfade_loop_frame (steps r g b : Nat) (w : Int) (s : State) :
    ∃ r1 g1 b1 w1 bt t, np_crossfade_loop steps r g b w s =
      { s with rVal := r1, gVal := g1, bVal := b1, wVal := w1, bits := bt, trace := t } := by
  induction steps generalizing s with
  | zero => exact ⟨_, _, _, _, _, _, rfl⟩
  | succ n ih =>
    rw [np_crossfade_loop, Function.iterate_succ_apply, ← np_crossfade_loop]
    obtain ⟨r0, g0, b0, w0, t0, h0⟩ := np_crossfade_step_frame r g b w s
    rw [h0]
    obtain ⟨r1, g1, b1, w1, bt, t, h⟩ := ih
      { s with rVal := r0, gVal := g0, bVal := b0, wVal := w0, bits := 0, trace := t0 }
    rw [h]
    exact ⟨_, _, _, _, _, _, rfl⟩

theorem np_crossfade_finish_eq (s : State) :
    np_crossfade_finish s =
      { s with rVal := s.rVal2, gVal := s.gVal2, bVal := s.bVal2, wVal := s.wVal2, bits := 0,
               trace := s.trace ++ ((List.replicate 60
                 (wire_bytes [s.gVal2, s.rVal2, s.bVal2, s.wVal2])).flatten ++
                 [Ev.delay_ms 16]) } := by
  unfold np_crossfade_finish
  simp only [np_fill_eq, delay_ms, neoLEDs, neoDel]
  simp only [List.append_assoc]
  rfl

theorem np_crossfade_frame (leds : Nat) (s : State) :
    ∃ t, np_crossfade leds s =
      { s with rVal := s.rVal2, gVal := s.gVal2, bVal := s.bVal2, wVal := s.wVal2,
               bits := 0, trace := t } := by
  obtain ⟨r1, g1, b1, w1, bt, t, h⟩ :=
    np_crossfade_loop_frame 16 s.rVal s.gVal s.bVal (toS8 s.wVal) s
  rw [np_crossfade, h, np_crossfade_finish_eq]
  exact ⟨_, rfl⟩

theorem rainbow_pixel_frame (s : State) :
    ∃ t a, rainbow_pixel s =
      { s with gVal := next180 s.gVal, rVal := next180 s.rVal, bVal := next180 s.bVal,
               bits := 0, trace := t, acc := a } := by
  unfold rainbow_pixel
  simp only [np_shift_eq, touch]
  exact ⟨_, _, rfl⟩

theorem rainbow_loop_frame (leds : Nat) (s : State) :
    ∃ r g b l bt t a, rainbow_loop leds s =
      { s with rVal := r, gVal := g, bVal := b, leds := l, bits := bt, trace := t, acc := a } := by
  induction leds generalizing s with
  | zero => exact ⟨_, _, _, _, _, _, _, rfl⟩
  | succ n ih =>
    rw [rainbow_loop]
    obtain ⟨t0, a0, h0⟩ := rainbow_pixel_frame s
    rw [h0]
    obtain ⟨r, g, b, l, bt, t, a, h⟩ := ih
      { s with gVal := next180 s.gVal, rVal := next180 s.rVal, bVal := next180 s.bVal,
               leds := n, bits := 0, trace := t0, acc := a0 }
    exact ⟨r, g, b, l, bt, t, a, by rw [h]⟩

theorem rainbow_frame_frame (s : State) :
    ∃ r g b l bt t a, rainbow_frame s =
      { s with rVal := r, gVal := g, bVal := b, leds := l, bits := bt,
               ri := next180 s.ri, gi := next180 s.gi, bi := next180 s.bi,
               trace := t, acc := a } := by
  obtain ⟨r, g, b, l, bt, t, a, h⟩ := rainbow_loop_frame neoLEDs (set_leds neoLEDs (rainbow_load s))
  rw [rainbow_frame, h]
  exact ⟨_, _, _, _, _, _, _, rfl⟩

theorem mode_advance_frame (s : State) :
    ∃ l bt t, mode_advance s =
      { s with mode := next_mode s.mode,
               buttonDelay := if next_mode s.mode = 4 then 1 else 25,
               leds := l, bits := bt, trace := t } := by
  unfold mode_advance next_mode
  simp only [np_off_eq, OFF_MODE, RANDOM_MODE]
  by_cases h : (s.mode + 1) % 256 = 6
  · simp only [h, if_true]
    exact ⟨_, _, _, rfl⟩
  · simp only [h, if_false]
    split <;> exact ⟨_, _, _, rfl⟩

/-! ## The cursor after a buffer fill -/

theorem np_fill_array_pixIndex (leds : Nat) (offset : Int) (s : State) :
    (np_fill_array leds offset s).pixIndex = cursor_step s.pixLEDs offset s.pixIndex := by
  obtain ⟨b, t, a, h⟩ := np_fill_array_frame leds offset s
  rw [h]
  rfl

theorem np_fill_array_pixLEDs (leds : Nat) (offset : Int) (s : State) :
    (np_fill_array leds offset s).pixLEDs = s.pixLEDs := by
  obtain ⟨b, t, a, h⟩ := np_fill_array_frame leds offset s
  rw [h]

theorem np_fill_array_iterate (leds : Nat) (offset : Int) (k : Nat) (s : State) :
    ((np_fill_array leds offset)^[k] s).pixLEDs = s.pixLEDs
    ∧ ((np_fill_array leds offset)^[k] s).pixIndex =
        (cursor_step s.pixLEDs offset)^[k] s.pixIndex := by
  induction k generalizing s with
  | zero => exact ⟨rfl, rfl⟩
  | succ n ih =>
    rw [Function.iterate_succ_apply, Function.iterate_succ_apply]
    obtain ⟨h1, h2⟩ := ih (np_fill_array leds offset s)
    rw [h1, h2, np_fill_array_pixLEDs, np_fill_array_pixIndex]
    exact ⟨rfl, rfl⟩

theorem powerOn_cursor : powerOn.pixIndex = 0 ∧ powerOn.pixLEDs = 24 := by
  obtain ⟨r, g, b, l, a, t, h⟩ := main_init_frame initState
  rw [powerOn, h]
  exact ⟨rfl, rfl⟩

/-- C3, the code at the values `main` sets before its loop (array size 24,
cursor 0): the call `np_fill_array(60, 1)` of ion gun mode leaves the cursor at
22, while (0 - 1) mod 24, wrapped by adding 24, is 23. -/
theorem np_fill_array_negative_wrap_lands_one_short :
    powerOn.pixLEDs = 24 ∧ powerOn.pixIndex = 0
    ∧ (np_fill_array neoLEDs 1 powerOn).pixIndex = 22
    ∧ (powerOn.pixIndex - 1) % (powerOn.pixLEDs : Int) = 23 := by
  obtain ⟨h1, h2⟩ := powerOn_cursor
  refine ⟨h2, h1, ?_, ?_⟩
  · rw [np_fill_array_pixIndex, h1, h2]
    decide
  · rw [h1, h2]
    decide

set_option maxRecDepth 100000 in
theorem cursor_step_24_iterate :
    (cursor_step 24 1)^[24] 0 = 22 ∧ (cursor_step 24 1)^[23] 0 = 0 := by
  decide

/-- C4, the code at N = 24 and cursor 0, as in ion gun mode: after 24
successive calls `np_fill_array(60, +1)` the cursor is 22, not 0 again; it is
back at 0 after 23 calls. -/
theorem np_fill_array_24_scrolls_do_not_close :
    powerOn.pixLEDs = 24 ∧ powerOn.pixIndex = 0
    ∧ ((np_fill_array neoLEDs 1)^[24] powerOn).pixIndex = 22
    ∧ ((np_fill_array neoLEDs 1)^[23] powerOn).pixIndex = 0 := by
  obtain ⟨h1, h2⟩ := powerOn_cursor
  refine ⟨h2, h1, ?_, ?_⟩
  · rw [(np_fill_array_iterate neoLEDs 1 24 powerOn).2, h1, h2]
    exact cursor_step_24_iterate.1
  · rw [(np_fill_array_iterate neoLEDs 1 23 powerOn).2, h1, h2]
    exact cursor_step_24_iterate.2

/-! ## Mode cycle -/

theorem mode_advance_mode (s : State) : (mode_advance s).mode = next_mode s.mode := by
  obtain ⟨l, bt, t, h⟩ := mode_advance_frame s
  rw [h]

theorem mode_advance_iterate_mode (k : Nat) (s : State) :
    (mode_advance^[k] s).mode = next_mode^[k] s.mode := by
  induction k generalizing s with
  | zero => rfl
  | succ n ih =>
    rw [Function.iterate_succ_apply, Function.iterate_succ_apply, ih, mode_advance_mode]

theorem next_mode_le (m : Nat) (h : m ≤ 5) : next_mode m = (m + 1) % 6 ∧ next_mode m ≤ 5 := by
  unfold next_mode
  interval_cases m <;> decide

theorem next_mode_six (m : Nat) (h : m ≤ 5) : next_mode^[6] m = m := by
  interval_cases m <;> decide

/-- C7: mode cycle.  A press of SW2 with the reset button SW1 not pressed makes
`read_button` take its mode branch, in every state.  From every mode m in 0..5
(Off, Rainbow, IonGun, WarmingStripes, Random, ColourPick) that branch sets the
mode to (m + 1) mod 6, so the mode stays in 0..5; six presses return to the
starting mode, and one press from Off enters Rainbow. -/
theorem mode_press_advances_cyclically (i : Input) (s : State)
    (h1 : i.SW1 ≠ 0) (h2 : i.SW2 = 0) (hm : s.mode ≤ 5) :
    (∀ s2 : State, read_button i s2 = some (i.junk % 256, mode_advance s2))
    ∧ (mode_advance s).mode = (s.mode + 1) % 6
    ∧ (mode_advance s).mode ≤ 5
    ∧ (mode_advance^[6] s).mode = s.mode
    ∧ (s.mode = OFF_MODE → (mode_advance s).mode = RAINBOW_MODE) := by
  refine ⟨?_, ?_, ?_, ?_, ?_⟩
  · intro s2
    unfold read_button
    rw [if_neg h1, if_pos h2]
  · rw [mode_advance_mode]
    exact (next_mode_le s.mode hm).1
  · rw [mode_advance_mode]
    exact (next_mode_le s.mode hm).2
  · rw [mode_advance_iterate_mode]
    exact next_mode_six s.mode hm
  · intro h0
    rw [mode_advance_mode, h0]
    rfl

/-- C7 at the start-up state (mode Off) with only SW2 pressed. -/
theorem mode_press_advances_cyclically_witness :
    (∀ s2 : State,
        read_button ⟨1, 0, 1, 1, 1, 0, 0, 0, 0⟩ s2 = some (0 % 256, mode_advance s2))
    ∧ (mode_advance initState).mode = (initState.mode + 1) % 6
    ∧ (mode_advance initState).mode ≤ 5
    ∧ (mode_advance^[6] initState).mode = initState.mode
    ∧ (initState.mode = OFF_MODE → (mode_advance initState).mode = RAINBOW_MODE) :=
  mode_press_advances_cyclically ⟨1, 0, 1, 1, 1, 0, 0, 0, 0⟩ initState
    (by decide) rfl (by decide)

/-! ## Cross-fade -/

theorem np_crossfade_step_channels (r g b : Nat) (w : Int) (s : State) :
    (np_crossfade_step r g b w s).rVal = fade_step r s.rVal2 s.rVal
    ∧ (np_crossfade_step r g b w s).gVal = fade_step g s.gVal2 s.gVal
    ∧ (np_crossfade_step r g b w s).bVal = fade_step b s.bVal2 s.bVal
    ∧ (np_crossfade_step r g b w s).rVal2 = s.rVal2
    ∧ (np_crossfade_step r g b w s).gVal2 = s.gVal2
    ∧ (np_crossfade_step r g b w s).bVal2 = s.bVal2 := by
  unfold np_crossfade_step
  simp only [np_fill_eq, delay_ms, neoLEDs]
  and_intros <;> first | rfl | trivial

theorem np_crossfade_loop_channels (steps r g b : Nat) (w : Int) (s : State) :
    (np_crossfade_loop steps r g b w s).rVal = (fade_step r s.rVal2)^[steps] s.rVal
    ∧ (np_crossfade_loop steps r g b w s).gVal = (fade_step g s.gVal2)^[steps] s.gVal
    ∧ (np_crossfade_loop steps r g b w s).bVal = (fade_step b s.bVal2)^[steps] s.bVal
    ∧ (np_crossfade_loop steps r g b w s).rVal2 = s.rVal2
    ∧ (np_crossfade_loop steps r g b w s).gVal2 = s.gVal2
    ∧ (np_crossfade_loop steps r g b w s).bVal2 = s.bVal2 := by
  induction steps generalizing s with
  | zero => exact ⟨rfl, rfl, rfl, rfl, rfl, rfl⟩
  | succ n ih =>
    rw [np_crossfade_loop, Function.iterate_succ_apply, ← np_crossfade_loop]
    obtain ⟨h1, h2, h3, h4, h5, h6⟩ := ih (np_crossfade_step r g b w s)
    obtain ⟨e1, e2, e3, e4, e5, e6⟩ := np_crossfade_step_channels r g b w s
    rw [h1, h2, h3, h4, h5, h6, e1, e2, e3, e4, e5, e6]
    simp only [Function.iterate_succ_apply]
    and_intros <;> first | rfl | trivial

theorem fade_64_32_128 (k : Nat) (hk : k ≤ 16) :
    (fade_step 64 0)^[k] 64 = 64 - 4 * k
    ∧ (fade_step 32 0)^[k] 32 = 32 - 2 * k
    ∧ (fade_step 128 0)^[k] 128 = 128 - 8 * k := by
  interval_cases k <;> decide

/-- C10: the cross-fade test case.  With active colour (rVal, gVal, bVal) =
(64, 32, 128) and target (rVal2, gVal2, bVal2) = (0, 0, 0), the state after k
passes of the loop of `np_crossfade` has (rVal, gVal, bVal) =
(64 - 4k, 32 - 2k, 128 - 8k) for every k ≤ 16: the sixteenth pass reaches
exactly (0, 0, 0), and from each pass to the next no channel gets farther from
its target. -/
theorem crossfade_64_32_128_reaches_black (s : State)
    (hr : s.rVal = 64) (hg : s.gVal = 32) (hb : s.bVal = 128)
    (hr2 : s.rVal2 = 0) (hg2 : s.gVal2 = 0) (hb2 : s.bVal2 = 0) :
    ((np_crossfade_loop 16 s.rVal s.gVal s.bVal (toS8 s.wVal) s).rVal = 0
      ∧ (np_crossfade_loop 16 s.rVal s.gVal s.bVal (toS8 s.wVal) s).gVal = 0
      ∧ (np_crossfade_loop 16 s.rVal s.gVal s.bVal (toS8 s.wVal) s).bVal = 0)
    ∧ ∀ k, k < 16 →
        Nat.dist (np_crossfade_loop (k + 1) s.rVal s.gVal s.bVal (toS8 s.wVal) s).rVal s.rVal2
          ≤ Nat.dist (np_crossfade_loop k s.rVal s.gVal s.bVal (toS8 s.wVal) s).rVal s.rVal2
        ∧ Nat.dist (np_crossfade_loop (k + 1) s.rVal s.gVal s.bVal (toS8 s.wVal) s).gVal s.gVal2
          ≤ Nat.dist (np_crossfade_loop k s.rVal s.gVal s.bVal (toS8 s.wVal) s).gVal s.gVal2
        ∧ Nat.dist (np_crossfade_loop (k + 1) s.rVal s.gVal s.bVal (toS8 s.wVal) s).bVal s.bVal2
          ≤ Nat.dist (np_crossfade_loop k s.rVal s.gVal s.bVal (toS8 s.wVal) s).bVal s.bVal2 := by
  have key : ∀ k, k ≤ 16 →
      (np_crossfade_loop k s.rVal s.gVal s.bVal (toS8 s.wVal) s).rVal = 64 - 4 * k
      ∧ (np_crossfade_loop k s.rVal s.gVal s.bVal (toS8 s.wVal) s).gVal = 32 - 2 * k
      ∧ (np_crossfade_loop k s.rVal s.gVal s.bVal (toS8 s.wVal) s).bVal = 128 - 8 * k := by
    intro k hk
    obtain ⟨h1, h2, h3, _, _, _⟩ :=
      np_crossfade_loop_channels k s.rVal s.gVal s.bVal (toS8 s.wVal) s
    rw [h1, h2, h3, hr, hg, hb, hr2, hg2, hb2]
    exact fade_64_32_128 k hk
  refine ⟨?_, ?_⟩
  · obtain ⟨h1, h2, h3⟩ := key 16 (le_refl 16)
    exact ⟨h1, h2, h3⟩
  · intro k hk
    obtain ⟨a1, a2, a3⟩ := key k (by omega)
    obtain ⟨b1, b2, b3⟩ := key (k + 1) (by omega)
    rw [a1, a2, a3, b1, b2, b3, hr2, hg2, hb2]
    simp only [Nat.dist_zero_right]
    omega

/-- C10 at the start-up state, whose colour variables have exactly the values
of the test case. -/
theorem crossfade_64_32_128_reaches_black_witness :
    ((np_crossfade_loop 16 initState.rVal initState.gVal initState.bVal
        (toS8 initState.wVal) initState).rVal = 0
      ∧ (np_crossfade_loop 16 initState.rVal initState.gVal initState.bVal
        (toS8 initState.wVal) initState).gVal = 0
      ∧ (np_crossfade_loop 16 initState.rVal initState.gVal initState.bVal
        (toS8 initState.wVal) initState).bVal = 0) :=
  (crossfade_64_32_128_reaches_black initState rfl rfl rfl rfl rfl rfl).1

/-! ## The main loop: cursor, array size and mode -/

theorem read_button_some (i : Input) (s : State) (b : Nat) (s2 : State)
    (h : read_button i s = some (b, s2)) : s2 = s ∨ s2 = mode_advance s := by
  unfold read_button at h
  split_ifs at h
  · exact Or.inr (congrArg Prod.snd (Option.some.inj h)).symm
  all_goals exact Or.inl (congrArg Prod.snd (Option.some.inj h)).symm

theorem poll_then_some (after : State → State) (i : Input) (s s2 : State)
    (h : poll_then after i s = some s2) :
    (∃ b, s2 = after (set_button b s))
    ∨ (∃ b, s2 = after (set_button b (mode_advance s)))
    ∨ s2 = dec_buttonDelay s := by
  unfold poll_then at h
  split_ifs at h
  · cases hrb : read_button i s with
    | none => rw [hrb] at h; exact absurd h (by simp)
    | some p =>
      obtain ⟨b, s3⟩ := p
      rw [hrb] at h
      have e : s2 = after (set_button b s3) := (Option.some.inj h).symm
      rcases read_button_some i s b s3 hrb with e3 | e3
      · exact Or.inl ⟨b, by rw [e, e3]⟩
      · exact Or.inr (Or.inl ⟨b, by rw [e, e3]⟩)
  · exact Or.inr (Or.inr (Option.some.inj h).symm)

theorem sameCur_refl (s : State) : SameCur s s := ⟨rfl, rfl, rfl⟩

theorem sameCur_trans {s s1 s2 : State} (h1 : SameCur s s1) (h2 : SameCur s1 s2) :
    SameCur s s2 :=
  ⟨h2.1.trans h1.1, h2.2.1.trans h1.2.1, h2.2.2.trans h1.2.2⟩

theorem sameCur_delay_ms (n : Nat) (s : State) : SameCur s (delay_ms n s) := ⟨rfl, rfl, rfl⟩

theorem sameCur_button (b : Nat) (s : State) : SameCur s (set_button b s) :=
  ⟨rfl, rfl, rfl⟩

theorem sameCur_buttonDelay (s : State) : SameCur s (dec_buttonDelay s) :=
  ⟨rfl, rfl, rfl⟩

theorem sameCur_random_target (i : Input) (s : State) : SameCur s (random_target i s) :=
  ⟨rfl, rfl, rfl⟩

theorem sameCur_colour_bump (s : State) : SameCur s (colour_bump s) := by
  unfold colour_bump
  split_ifs <;> exact ⟨rfl, rfl, rfl⟩

theorem sameCur_blob (s : State) : SameCur s (blob s) := by
  obtain ⟨r, g, b, l, a, h⟩ := blob_frame s
  rw [h]; exact ⟨rfl, rfl, rfl⟩

theorem sameCur_np_crossfade (leds : Nat) (s : State) : SameCur s (np_crossfade leds s) := by
  obtain ⟨t, h⟩ := np_crossfade_frame leds s
  rw [h]; exact ⟨rfl, rfl, rfl⟩

theorem sameCur_np_gamma_fill (leds : Nat) (s : State) : SameCur s (np_gamma_fill leds s) := by
  rw [np_gamma_fill_eq]; exact ⟨rfl, rfl, rfl⟩

theorem sameCur_rainbow_frame (s : State) : SameCur s (rainbow_frame s) := by
  obtain ⟨r, g, b, l, bt, t, a, h⟩ := rainbow_frame_frame s
  rw [h]; exact ⟨rfl, rfl, rfl⟩

theorem mode_advance_cur (s : State) :
    (mode_advance s).pixIndex = s.pixIndex ∧ (mode_advance s).pixLEDs = s.pixLEDs
    ∧ (mode_advance s).mode = next_mode s.mode := by
  obtain ⟨l, bt, t, e⟩ := mode_advance_frame s
  rw [e]; exact ⟨rfl, rfl, rfl⟩

theorem set_pixLEDs_cur (v : Nat) (s : State) :
    (set_pixLEDs v s).pixIndex = s.pixIndex ∧ (set_pixLEDs v s).pixLEDs = v
    ∧ (set_pixLEDs v s).mode = s.mode := ⟨rfl, rfl, rfl⟩

theorem set_pixIndex_cur (v : Int) (s : State) :
    (set_pixIndex v s).pixIndex = v ∧ (set_pixIndex v s).pixLEDs = s.pixLEDs
    ∧ (set_pixIndex v s).mode = s.mode := ⟨rfl, rfl, rfl⟩

theorem cursor_step_zero (n : Nat) (p : Int) (h0 : 0 ≤ p) (hpn : p < n) (hn : n ≤ 127) :
    cursor_step n 0 p = p := by
  unfold cursor_step
  rw [if_neg (by omega)]
  exact cursor_after_zero n p h0 hpn hn

theorem np_fill_array_mode (leds : Nat) (offset : Int) (s : State) :
    (np_fill_array leds offset s).mode = s.mode := by
  obtain ⟨b, t, a, h⟩ := np_fill_array_frame leds offset s
  rw [h]

theorem main_init_cur (s : State) :
    (main_init s).pixIndex = s.pixIndex ∧ (main_init s).pixLEDs = 24
    ∧ (main_init s).mode = s.mode := by
  obtain ⟨r, g, b, l, a, t, h⟩ := main_init_frame s
  rw [h]; exact ⟨rfl, rfl, rfl⟩

/-! ## The main loop: rainbow phases and reads of the sine table -/

theorem sineOK_append {l l2 : List Access} (h : SineOK l) (h2 : SineOK l2) :
    SineOK (l ++ l2) := by
  intro a ha
  rcases List.mem_append.mp ha with h3 | h3
  · exact h a h3
  · exact h2 a h3

theorem sineOK_cons_other {arr : Arr} {idx : Int} {w : Bool} {l : List Access}
    (ha : arr ≠ Arr.sine) (h : SineOK l) : SineOK ((⟨arr, idx, w⟩ : Access) :: l) := by
  intro x hx
  rcases List.mem_cons.mp hx with h3 | h3
  · rw [h3]; intro h4; exact absurd h4 ha
  · exact h x h3

theorem sineOK_cons_sine {i : Nat} {w : Bool} {l : List Access} (hi : i < 180)
    (h : SineOK l) : SineOK ((⟨Arr.sine, (i : Int), w⟩ : Access) :: l) := by
  intro x hx
  rcases List.mem_cons.mp hx with h3 | h3
  · rw [h3]; intro _
    refine ⟨Int.natCast_nonneg i, ?_⟩
    show (i : Int) < 180
    exact_mod_cast hi
  · exact h x h3

theorem sineOK_nil : SineOK [] := fun _ h => absurd h (List.not_mem_nil _)

theorem samePhase_refl (s : State) : SamePhase s s := ⟨rfl, rfl, rfl, fun h => h⟩

theorem samePhase_trans {s s1 s2 : State} (h1 : SamePhase s s1) (h2 : SamePhase s1 s2) :
    SamePhase s s2 :=
  ⟨h2.1.trans h1.1, h2.2.1.trans h1.2.1, h2.2.2.1.trans h1.2.2.1,
    fun h => h2.2.2.2 (h1.2.2.2 h)⟩

theorem phaseInv_same {s s2 : State} (h : PhaseInv s) (e : SamePhase s s2) : PhaseInv s2 := by
  obtain ⟨e1, e2, e3, e4⟩ := e
  obtain ⟨h1, h2, h3, h4⟩ := h
  unfold PhaseInv
  rw [e1, e2, e3]
  exact ⟨h1, h2, h3, e4 h4⟩

theorem samePhase_delay_ms (n : Nat) (s : State) : SamePhase s (delay_ms n s) :=
  ⟨rfl, rfl, rfl, fun h => h⟩

theorem samePhase_button (b : Nat) (s : State) : SamePhase s (set_button b s) :=
  ⟨rfl, rfl, rfl, fun h => h⟩

theorem samePhase_buttonDelay (s : State) : SamePhase s (dec_buttonDelay s) :=
  ⟨rfl, rfl, rfl, fun h => h⟩

theorem samePhase_set_pixLEDs (v : Nat) (s : State) : SamePhase s (set_pixLEDs v s) :=
  ⟨rfl, rfl, rfl, fun h => h⟩

theorem samePhase_set_pixIndex (v : Int) (s : State) : SamePhase s (set_pixIndex v s) :=
  ⟨rfl, rfl, rfl, fun h => h⟩

theorem samePhase_random_target (i : Input) (s : State) : SamePhase s (random_target i s) :=
  ⟨rfl, rfl, rfl, fun h => h⟩

theorem samePhase_colour_bump (s : State) : SamePhase s (colour_bump s) := by
  unfold colour_bump
  split_ifs <;> exact ⟨rfl, rfl, rfl, fun h => h⟩

theorem samePhase_np_crossfade (leds : Nat) (s : State) :
    SamePhase s (np_crossfade leds s) := by
  obtain ⟨t, h⟩ := np_crossfade_frame leds s
  rw [h]; exact ⟨rfl, rfl, rfl, fun h => h⟩

theorem samePhase_mode_advance (s : State) : SamePhase s (mode_advance s) := by
  obtain ⟨l, bt, t, h⟩ := mode_advance_frame s
  rw [h]; exact ⟨rfl, rfl, rfl, fun h => h⟩

theorem samePhase_np_gamma_fill (leds : Nat) (s : State) :
    SamePhase s (np_gamma_fill leds s) := by
  rw [np_gamma_fill_eq]
  refine ⟨rfl, rfl, rfl, fun h => sineOK_append h ?_⟩
  intro a ha
  obtain ⟨l, hl, hal⟩ := List.mem_flatten.mp ha
  rw [List.eq_of_mem_replicate hl] at hal
  simp only [List.mem_cons, List.mem_singleton, List.not_mem_nil, or_false] at hal
  rcases hal with h3 | h3 | h3 | h3 <;>
    (rw [h3]; intro h4; exact absurd h4 (show Arr.gamma ≠ Arr.sine by decide))

theorem sineOK_set_rPix (i : Int) (v : Nat) (s : State) (h : SineOK s.acc) :
    SineOK (set_rPix i v s).acc :=
  sineOK_append h (sineOK_cons_other (by decide) sineOK_nil)

theorem sineOK_set_gPix (i : Int) (v : Nat) (s : State) (h : SineOK s.acc) :
    SineOK (set_gPix i v s).acc :=
  sineOK_append h (sineOK_cons_other (by decide) sineOK_nil)

theorem sineOK_set_bPix (i : Int) (v : Nat) (s : State) (h : SineOK s.acc) :
    SineOK (set_bPix i v s).acc :=
  sineOK_append h (sineOK_cons_other (by decide) sineOK_nil)

theorem sineOK_touch (a : Arr) (i : Int) (w : Bool) (s : State) (ha : a ≠ Arr.sine)
    (h : SineOK s.acc) : SineOK (touch a i w s).acc :=
  sineOK_append h (sineOK_cons_other ha sineOK_nil)

theorem sineOK_set_pixel (i : Int) (vr vg vb : Nat) (s : State) (h : SineOK s.acc) :
    SineOK (set_bPix i vb (set_gPix i vg (set_rPix i vr s))).acc :=
  sineOK_set_bPix _ _ _ (sineOK_set_gPix _ _ _ (sineOK_set_rPix _ _ _ h))

theorem sineOK_blob_shape (s : State) (h : SineOK s.acc) : SineOK (blob_shape s).acc := by
  unfold blob_shape
  exact sineOK_set_pixel _ _ _ _ _ (sineOK_set_pixel _ _ _ _ _ (sineOK_set_pixel _ _ _ _ _
    (sineOK_set_pixel _ _ _ _ _ (sineOK_set_pixel _ _ _ _ _ (sineOK_set_pixel _ _ _ _ _
    (sineOK_set_pixel _ _ _ _ _ h))))))

theorem sineOK_with_leds (v : Nat) (s : State) (h : SineOK s.acc) :
    SineOK ({ s with leds := v } : State).acc := h

theorem sineOK_blob_loop (fuel : Nat) (s : State) (h : SineOK s.acc) :
    SineOK (blob_loop fuel s).acc := by
  induction fuel generalizing s with
  | zero => exact h
  | succ n ih =>
    rw [blob_loop]
    split
    · exact h
    · refine ih _ (sineOK_with_leds _ _ ?_)
      exact sineOK_set_bPix _ _ _ (sineOK_set_gPix _ _ _ (sineOK_set_rPix _ _ _ h))

theorem sineOK_with_wVal (v : Nat) (s : State) (h : SineOK s.acc) :
    SineOK ({ s with wVal := v } : State).acc := h

theorem sineOK_blob (s : State) (h : SineOK s.acc) : SineOK (blob s).acc := by
  rw [blob]
  exact sineOK_with_wVal 0 _ (sineOK_blob_loop 256 _ (sineOK_with_leds 7 _
    (sineOK_blob_shape s h)))

theorem samePhase_blob (s : State) : SamePhase s (blob s) := by
  refine ⟨?_, ?_, ?_, sineOK_blob s⟩ <;>
    (obtain ⟨r, g, b, l, a, h⟩ := blob_frame s; rw [h])

theorem sineOK_np_fill_array_loop (leds : Nat) (s : State) (h : SineOK s.acc) :
    SineOK (np_fill_array_loop leds s).acc := by
  induction leds generalizing s with
  | zero => exact h
  | succ n ih =>
    rw [np_fill_array_loop]
    simp only [np_shift_eq, touch]
    have h2 : SineOK (s.acc ++ [(⟨Arr.gPix, s.pixIndex, false⟩ : Access)] ++
        [(⟨Arr.rPix, s.pixIndex, false⟩ : Access)] ++
        [(⟨Arr.bPix, s.pixIndex, false⟩ : Access)]) :=
      sineOK_append (sineOK_append (sineOK_append h
        (sineOK_cons_other (by decide) sineOK_nil))
        (sineOK_cons_other (by decide) sineOK_nil))
        (sineOK_cons_other (by decide) sineOK_nil)
    split
    · exact ih _ h2
    · exact ih _ h2

theorem np_fill_array_acc_loop (leds : Nat) (offset : Int) (s : State) :
    (np_fill_array leds offset s).acc =
      (np_fill_array_loop leds { s with pixIndex := start_index s }).acc := by
  unfold np_fill_array start_index
  by_cases h : (s.pixLEDs : Int) ≤ s.pixIndex
  · simp only [h, if_true]
    split <;> split <;> rfl
  · simp only [h, if_false]
    split <;> split <;> rfl

theorem samePhase_np_fill_array (leds : Nat) (offset : Int) (s : State) :
    SamePhase s (np_fill_array leds offset s) := by
  refine ⟨?_, ?_, ?_, ?_⟩
  · obtain ⟨b, t, a, h⟩ := np_fill_array_frame leds offset s; rw [h]
  · obtain ⟨b, t, a, h⟩ := np_fill_array_frame leds offset s; rw [h]
  · obtain ⟨b, t, a, h⟩ := np_fill_array_frame leds offset s; rw [h]
  · intro h
    rw [np_fill_array_acc_loop]
    exact sineOK_np_fill_array_loop leds _ h

theorem next180_lt (x : Nat) (h : x < 180) : next180 x < 180 := by
  unfold next180
  simp only
  split_ifs <;> omega

theorem rainbow_pixel_acc (s : State) :
    (rainbow_pixel s).acc = s.acc ++ [⟨Arr.sine, (s.gVal : Int), false⟩]
      ++ [⟨Arr.sine, (s.rVal : Int), false⟩] ++ [⟨Arr.sine, (s.bVal : Int), false⟩] := by
  unfold rainbow_pixel
  simp only [np_shift_eq, touch]

theorem rainbow_pixel_vals (s : State) :
    (rainbow_pixel s).gVal = next180 s.gVal ∧ (rainbow_pixel s).rVal = next180 s.rVal
    ∧ (rainbow_pixel s).bVal = next180 s.bVal := by
  obtain ⟨t, a, h⟩ := rainbow_pixel_frame s
  rw [h]; exact ⟨rfl, rfl, rfl⟩

theorem runningOK_pixel {s : State} (h : RunningOK s) : RunningOK (rainbow_pixel s) := by
  obtain ⟨hg, hr, hb, ha⟩ := h
  obtain ⟨e1, e2, e3⟩ := rainbow_pixel_vals s
  unfold RunningOK
  rw [e1, e2, e3, rainbow_pixel_acc]
  refine ⟨next180_lt _ hg, next180_lt _ hr, next180_lt _ hb, ?_⟩
  exact sineOK_append (sineOK_append (sineOK_append ha (sineOK_cons_sine hg sineOK_nil))
    (sineOK_cons_sine hr sineOK_nil)) (sineOK_cons_sine hb sineOK_nil)

theorem runningOK_set_leds (v : Nat) {s : State} (h : RunningOK s) :
    RunningOK (set_leds v s) := h

theorem runningOK_with_leds (v : Nat) {s : State} (h : RunningOK s) :
    RunningOK { s with leds := v } := h

theorem runningOK_loop (leds : Nat) {s : State} (h : RunningOK s) :
    RunningOK (rainbow_loop leds s) := by
  induction leds generalizing s with
  | zero => exact h
  | succ n ih =>
    rw [rainbow_loop]
    exact ih (runningOK_with_leds n (runningOK_pixel h))

theorem runningOK_load {s : State} (h : PhaseInv s) : RunningOK (rainbow_load s) :=
  ⟨h.2.1, h.1, h.2.2.1, h.2.2.2⟩

theorem delay_ms_acc (n : Nat) (s : State) : (delay_ms n s).acc = s.acc := rfl

theorem rainbow_advance_acc (s : State) : (rainbow_advance s).acc = s.acc := rfl

theorem phaseInv_rainbow_frame {s : State} (h : PhaseInv s) : PhaseInv (rainbow_frame s) := by
  have hl : RunningOK (rainbow_loop neoLEDs (set_leds neoLEDs (rainbow_load s))) :=
    runningOK_loop neoLEDs (runningOK_set_leds neoLEDs (runningOK_load h))
  have hacc : (rainbow_frame s).acc =
      (rainbow_loop neoLEDs (set_leds neoLEDs (rainbow_load s))).acc := by
    rw [rainbow_frame, delay_ms_acc, rainbow_advance_acc]
  obtain ⟨r, g, b, l, bt, t, a, hf⟩ := rainbow_frame_frame s
  have e1 : (rainbow_frame s).ri = next180 s.ri := by rw [hf]
  have e2 : (rainbow_frame s).gi = next180 s.gi := by rw [hf]
  have e3 : (rainbow_frame s).bi = next180 s.bi := by rw [hf]
  unfold PhaseInv
  rw [e1, e2, e3, hacc]
  exact ⟨next180_lt _ h.1, next180_lt _ h.2.1, next180_lt _ h.2.2.1, hl.2.2.2⟩

theorem sineOK_np_off (s : State) (h : SineOK s.acc) : SineOK (np_off s).acc := by
  rw [np_off_eq]; exact h

theorem samePhase_np_off (s : State) : SamePhase s (np_off s) := by
  rw [np_off_eq]; exact ⟨rfl, rfl, rfl, fun h => h⟩

theorem phaseInv_set_phases (s : State) (h : SineOK s.acc) : PhaseInv (set_phases s) :=
  ⟨show 60 < 180 by decide, show 0 < 180 by decide, show 120 < 180 by decide, h⟩

theorem phaseInv_main_init (s : State) (h : SineOK s.acc) : PhaseInv (main_init s) := by
  rw [main_init]
  have h1 : SineOK (delay_us 200 (H1OUT false s)).acc := h
  have h2 := phaseInv_set_phases _ (sineOK_np_off _ h1)
  exact phaseInv_same (phaseInv_same h2 (samePhase_blob _)) (samePhase_set_pixLEDs 24 _)

theorem phaseInv_reboot (s : State) (h : PhaseInv s) : PhaseInv (reboot s) :=
  phaseInv_main_init _ h.2.2.2

theorem phaseInv_powerOn : PhaseInv powerOn :=
  phaseInv_main_init _ sineOK_nil

theorem samePhase_rainbow_exit (s : State) : SamePhase s (rainbow_exit s) := by
  unfold rainbow_exit
  split_ifs
  · exact samePhase_trans (samePhase_blob s) (samePhase_set_pixLEDs 24 _)
  · exact samePhase_refl s

theorem with_leds_acc (v : Nat) (s : State) : ({ s with leds := v } : State).acc = s.acc := rfl

theorem set_leds_acc (v : Nat) (s : State) : (set_leds v s).acc = s.acc := rfl

theorem rainbow_load_acc (s : State) : (rainbow_load s).acc = s.acc := rfl

theorem rainbow_loop_reads (leds : Nat) (s : State) :
    ∃ l, (rainbow_loop leds s).acc = s.acc ++ l ∧ l.length = 3 * leds
      ∧ ∀ a ∈ l, a.arr = Arr.sine ∧ a.write = false := by
  induction leds generalizing s with
  | zero => exact ⟨[], (List.append_nil _).symm, rfl, fun _ h => absurd h (List.not_mem_nil _)⟩
  | succ n ih =>
    rw [rainbow_loop]
    obtain ⟨l, e, hl, hs⟩ := ih { rainbow_pixel s with leds := n }
    rw [with_leds_acc, rainbow_pixel_acc] at e
    refine ⟨[⟨Arr.sine, (s.gVal : Int), false⟩, ⟨Arr.sine, (s.rVal : Int), false⟩,
      ⟨Arr.sine, (s.bVal : Int), false⟩] ++ l, ?_, ?_, ?_⟩
    · rw [e]; simp only [List.append_assoc, List.singleton_append, List.cons_append,
        List.nil_append]
    · rw [List.length_append, hl]; simp only [List.length_cons, List.length_nil]; omega
    · intro a ha
      rcases List.mem_append.mp ha with h3 | h3
      · simp only [List.mem_cons, List.mem_singleton, List.not_mem_nil, or_false] at h3
        rcases h3 with h4 | h4 | h4 <;> rw [h4] <;> exact ⟨rfl, rfl⟩
      · exact hs a h3

theorem rainbow_frame_reads (s : State) :
    ∃ l, (rainbow_frame s).acc = s.acc ++ l ∧ l.length = 180
      ∧ ∀ a ∈ l, a.arr = Arr.sine ∧ a.write = false := by
  obtain ⟨l, e, hl, hs⟩ := rainbow_loop_reads neoLEDs (set_leds neoLEDs (rainbow_load s))
  rw [set_leds_acc, rainbow_load_acc] at e
  refine ⟨l, ?_, hl, hs⟩
  rw [rainbow_frame, delay_ms_acc, rainbow_advance_acc, e]

/-! ## The constant tables -/

theorem nondecreasing_chain (xs : List Nat) (h : nondecreasing xs = true) :
    List.Chain' (fun a b : Nat => a ≤ b) xs := by
  induction xs with
  | nil => exact List.chain'_nil
  | cons a rest ih =>
    cases rest with
    | nil => exact List.chain'_singleton a
    | cons b rest2 =>
      rw [nondecreasing, Bool.and_eq_true, decide_eq_true_eq] at h
      exact List.chain'_cons.mpr ⟨h.1, ih h.2⟩

set_option maxRecDepth 1000000 in
theorem gamma_nondecreasing : nondecreasing gamma = true := by decide

theorem gamma_chain : List.Chain' (fun a b : Nat => a ≤ b) gamma :=
  nondecreasing_chain gamma gamma_nondecreasing

set_option maxRecDepth 1000000 in
theorem gamma_bytes : ∀ v ∈ gamma, v ≤ 255 := by decide

set_option maxRecDepth 1000000 in
theorem gamma_length : gamma.length = 256 := by decide

theorem gamma_pairwise : List.Pairwise (fun a b : Nat => a ≤ b) gamma :=
  List.chain'_iff_pairwise.mp gamma_chain

theorem look_eq_getElem (xs : List Nat) (i : Nat) (h : i < xs.length) :
    look xs (i : Int) = xs[i] := by
  simp [look, List.getD_eq_getElem?_getD, h]

theorem gamma_mono (i j : Nat) (hij : i ≤ j) (hj : j < 256) :
    look gamma (i : Int) ≤ look gamma (j : Int) := by
  have hjl : j < gamma.length := by rw [gamma_length]; exact hj
  have hil : i < gamma.length := lt_of_le_of_lt hij hjl
  rw [look_eq_getElem gamma i hil, look_eq_getElem gamma j hjl]
  rcases Nat.lt_or_eq_of_le hij with h | h
  · exact List.pairwise_iff_getElem.mp gamma_pairwise i j hil hjl h
  · subst h; exact le_refl _

/-- C11: the gamma table has exactly 256 entries, each a byte value in 0..255,
and it is monotonic non-decreasing: gamma[i] ≤ gamma[j] for all i ≤ j in
0..255, with gamma[0] = 0 and gamma[255] = 255. -/
theorem gamma_table_is_monotone_bytes :
    gamma.length = 256
    ∧ (∀ v ∈ gamma, v ≤ 255)
    ∧ (∀ i j : Nat, i ≤ j → j < 256 → look gamma (i : Int) ≤ look gamma (j : Int))
    ∧ look gamma 0 = 0 ∧ look gamma 255 = 255 :=
  ⟨gamma_length, gamma_bytes, gamma_mono, by decide, by decide⟩

/-! ## Warming stripes -/

theorem store_length (xs : List Nat) (i : Int) (v : Nat) :
    (store xs i v).length = xs.length := by
  unfold store
  split <;> simp

theorem look_store (xs : List Nat) (i j : Nat) (v : Nat) :
    look (store xs (i : Int) v) (j : Int) =
      if j = i ∧ i < xs.length then v else look xs (j : Int) := by
  simp only [look, store, Int.natCast_nonneg, if_true, Int.toNat_ofNat,
    List.getD_eq_getElem?_getD, List.getElem?_set]
  by_cases h : i = j
  · subst h
    by_cases h2 : i < xs.length
    · simp [h2]
    · simp [h2, List.getElem?_eq_none (not_lt.mp h2)]
  · have h3 : ¬ j = i := fun e => h e.symm
    simp [h, h3]

theorem warmingStripes_loop_step (fuel : Nat) (s : State) (h : s.leds ≠ 64) :
    warmingStripes_loop (fuel + 1) s = warmingStripes_loop fuel
      { s with rPix := store s.rPix s.leds (stripe_value cooler_r s.leds),
               gPix := store s.gPix s.leds (stripe_value cooler_g s.leds),
               bPix := store s.bPix s.leds (stripe_value cooler_b s.leds),
               leds := (s.leds + 1) % 256,
               acc := s.acc ++ stripes_accesses s.leds } := by
  rw [warmingStripes_loop, if_neg h]
  simp only [set_rPix, set_gPix, set_bPix, stripe_touch, touch, stripes_accesses,
    List.append_assoc, List.singleton_append, List.cons_append, List.nil_append]

theorem warmingStripes_loop_done (fuel : Nat) (s : State) (h : s.leds = 64) :
    warmingStripes_loop fuel s = s := by
  cases fuel with
  | zero => rfl
  | succ n => rw [warmingStripes_loop, if_pos h]

theorem warmingStripes_loop_acc (n : Nat) :
    ∀ (fuel : Nat) (s : State), s.leds + n = 64 → n ≤ fuel →
      (warmingStripes_loop fuel s).acc =
        s.acc ++ (List.range' s.leds n).flatMap stripes_accesses := by
  induction n with
  | zero =>
    intro fuel s h _
    rw [warmingStripes_loop_done fuel s (by omega)]
    simp
  | succ n ih =>
    intro fuel s h hf
    obtain ⟨f, rfl⟩ : ∃ f, fuel = f + 1 := ⟨fuel - 1, by omega⟩
    have hl : (s.leds + 1) % 256 = s.leds + 1 := by omega
    rw [warmingStripes_loop_step f s (by omega), hl]
    have h1 := ih f
      { s with rPix := store s.rPix s.leds (stripe_value cooler_r s.leds),
               gPix := store s.gPix s.leds (stripe_value cooler_g s.leds),
               bPix := store s.bPix s.leds (stripe_value cooler_b s.leds),
               leds := s.leds + 1,
               acc := s.acc ++ stripes_accesses s.leds }
      (by show s.leds + 1 + n = 64; omega) (by omega)
    rw [h1, List.range'_succ, List.flatMap_cons, List.append_assoc]

theorem warmingStripes_acc (s : State) :
    (warmingStripes s).acc = s.acc ++ (List.range' 0 64).flatMap stripes_accesses := by
  rw [warmingStripes]
  exact warmingStripes_loop_acc 64 256 { s with leds := 0 } rfl (by decide)

theorem look_lt (xs : List Nat) (n : Nat) (i : Int) (hn : 0 < n) (h : ∀ v ∈ xs, v < n) :
    look xs i < n := by
  unfold look
  split
  · rw [List.getD_eq_getElem?_getD]
    cases hx : xs[i.toNat]? with
    | none => exact hn
    | some v => exact h v (List.getElem?_mem hx)
  · exact hn

theorem stripes_lt_20 : ∀ v ∈ stripes, v < 20 := by decide

theorem palettes_lt_256 :
    ∀ v ∈ cooler_r ++ cooler_g ++ cooler_b ++ brewer_r ++ brewer_g ++ brewer_b, v < 256 := by
  decide

theorem cooler_lt_256 (pal : List Nat)
    (hp : pal = cooler_r ∨ pal = cooler_g ∨ pal = cooler_b) (i : Int) : look pal i < 256 := by
  apply look_lt pal 256 i (by decide)
  intro v hv
  apply palettes_lt_256 v
  rcases hp with h | h | h <;> subst h <;> simp [hv]

theorem stripes_accesses_reads_ok (k : Nat) (hk : k < 64) :
    ∀ a ∈ stripes_accesses k, a.write = false →
      0 ≤ a.idx ∧ a.idx < (arr_size a.arr : Int) := by
  have h20 : look stripes (k : Int) < 20 := look_lt stripes 20 k (by decide) stripes_lt_20
  have hr := cooler_lt_256 cooler_r (Or.inl rfl) (look stripes (k : Int))
  have hg := cooler_lt_256 cooler_g (Or.inr (Or.inl rfl)) (look stripes (k : Int))
  have hb := cooler_lt_256 cooler_b (Or.inr (Or.inr rfl)) (look stripes (k : Int))
  intro a ha hw
  simp only [stripes_accesses, List.mem_cons, List.mem_singleton, List.not_mem_nil,
    or_false] at ha
  rcases ha with h | h | h | h | h | h | h | h | h | h | h | h <;> subst h <;>
    first
    | exact Bool.noConfusion hw
    | (simp only [arr_size]; omega)

set_option maxRecDepth 1000000 in
theorem stripes_accesses_length :
    ((List.range' 0 64).flatMap stripes_accesses).length = 768 := by decide

theorem warmingStripes_reads_ok (s : State) :
    ∃ l, (warmingStripes s).acc = s.acc ++ l ∧ l.length = 768
      ∧ ∀ a ∈ l, a.write = false → 0 ≤ a.idx ∧ a.idx < (arr_size a.arr : Int) := by
  refine ⟨(List.range' 0 64).flatMap stripes_accesses, warmingStripes_acc s, ?_, ?_⟩
  · exact stripes_accesses_length
  · intro a ha
    obtain ⟨k, hk, hak⟩ := List.mem_flatMap.mp ha
    have hk64 : k < 64 := by
      have := (List.mem_range'_1.mp hk).2
      omega
    exact stripes_accesses_reads_ok k hk64 a hak

/-- C13: every entry of the palette-index table `stripes` is below 20, the size
of each palette table, every entry of the palette tables `cooler_r/g/b` and
`brewer_r/g/b` is below 256, the size of `gamma`, and every table read that
`warmingStripes` makes (its 768 accesses hold three stores and nine reads for
each of the 64 passes of its loop) has its index inside the array it reads. -/
theorem stripes_entries_index_the_palettes (s : State) :
    (stripes.length = 64 ∧ ∀ v ∈ stripes, v < 20)
    ∧ (cooler_r.length = 20 ∧ cooler_g.length = 20 ∧ cooler_b.length = 20
        ∧ brewer_r.length = 20 ∧ brewer_g.length = 20 ∧ brewer_b.length = 20)
    ∧ (gamma.length = 256
        ∧ ∀ v ∈ cooler_r ++ cooler_g ++ cooler_b ++ brewer_r ++ brewer_g ++ brewer_b, v < 256)
    ∧ ∃ l, (warmingStripes s).acc = s.acc ++ l ∧ l.length = 768
        ∧ ∀ a ∈ l, a.write = false → 0 ≤ a.idx ∧ a.idx < (arr_size a.arr : Int) :=
  ⟨⟨by decide, stripes_lt_20⟩, ⟨rfl, rfl, rfl, rfl, rfl, rfl⟩,
    ⟨gamma_length, palettes_lt_256⟩, warmingStripes_reads_ok s⟩

theorem warmingStripes_store_logged (s : State) (k : Nat) (hk : k < 64) :
    (⟨Arr.rPix, (k : Int), true⟩ : Access) ∈ (warmingStripes s).acc
    ∧ (⟨Arr.gPix, (k : Int), true⟩ : Access) ∈ (warmingStripes s).acc
    ∧ (⟨Arr.bPix, (k : Int), true⟩ : Access) ∈ (warmingStripes s).acc := by
  rw [warmingStripes_acc s]
  have hk2 : k ∈ List.range' 0 64 := List.mem_range'_1.mpr ⟨Nat.zero_le k, by omega⟩
  refine ⟨?_, ?_, ?_⟩ <;>
    (apply List.mem_append_right
     apply List.mem_flatMap.mpr
     refine ⟨k, hk2, ?_⟩
     simp [stripes_accesses])

/-- C14: `warmingStripes` stores past the end of the pixel arrays.  The arrays
have 60 elements, and for every prior state the routine stores into `rPix`,
`gPix` and `bPix` at the indices 60, 61, 62 and 63, because its loop runs to 64
instead of `neoLEDs`. -/
theorem warmingStripes_stores_past_the_arrays (s : State) :
    (arr_size Arr.rPix = 60 ∧ arr_size Arr.gPix = 60 ∧ arr_size Arr.bPix = 60)
    ∧ ∀ k ∈ [60, 61, 62, 63],
        (⟨Arr.rPix, ((k : Nat) : Int), true⟩ : Access) ∈ (warmingStripes s).acc
        ∧ (⟨Arr.gPix, ((k : Nat) : Int), true⟩ : Access) ∈ (warmingStripes s).acc
        ∧ (⟨Arr.bPix, ((k : Nat) : Int), true⟩ : Access) ∈ (warmingStripes s).acc := by
  refine ⟨⟨rfl, rfl, rfl⟩, ?_⟩
  intro k hk
  apply warmingStripes_store_logged s k
  simp only [List.mem_cons, List.mem_singleton, List.not_mem_nil, or_false] at hk
  omega

/-! ## The ion blob -/

theorem look_getElem? (xs : List Nat) (i : Nat) : look xs (i : Int) = (xs[i]?).getD 0 := by
  simp [look, List.getD_eq_getElem?_getD]

theorem list_eq_of_look (xs ys : List Nat) (hl : xs.length = ys.length)
    (h : ∀ i : Nat, i < xs.length → look xs (i : Int) = look ys (i : Int)) : xs = ys := by
  apply List.ext_getElem hl
  intro i h1 h2
  have e := h i h1
  rwa [look_eq_getElem xs i h1, look_eq_getElem ys i h2] at e

theorem blob_loop_step (fuel : Nat) (s : State) (h : s.leds ≠ 24) :
    blob_loop (fuel + 1) s = blob_loop fuel
      { s with rPix := store s.rPix s.leds 0, gPix := store s.gPix s.leds 0,
               bPix := store s.bPix s.leds 0, leds := (s.leds + 1) % 256,
               acc := s.acc ++ [⟨Arr.rPix, s.leds, true⟩, ⟨Arr.gPix, s.leds, true⟩,
                 ⟨Arr.bPix, s.leds, true⟩] } := by
  rw [blob_loop, if_neg h]
  simp only [set_rPix, set_gPix, set_bPix, touch,
    List.append_assoc, List.singleton_append, List.cons_append, List.nil_append]

theorem blob_loop_done (fuel : Nat) (s : State) (h : s.leds = 24) :
    blob_loop fuel s = s := by
  cases fuel with
  | zero => rfl
  | succ n => rw [blob_loop, if_pos h]

theorem blob_loop_spec (n : Nat) :
    ∀ (fuel : Nat) (s : State), s.leds + n = 24 → n ≤ fuel →
      (blob_loop fuel s).rPix.length = s.rPix.length
      ∧ (blob_loop fuel s).gPix.length = s.gPix.length
      ∧ (blob_loop fuel s).bPix.length = s.bPix.length
      ∧ (∀ i : Nat, look (blob_loop fuel s).rPix i =
          if s.leds ≤ i ∧ i < 24 ∧ i < s.rPix.length then 0 else look s.rPix i)
      ∧ (∀ i : Nat, look (blob_loop fuel s).gPix i =
          if s.leds ≤ i ∧ i < 24 ∧ i < s.gPix.length then 0 else look s.gPix i)
      ∧ (∀ i : Nat, look (blob_loop fuel s).bPix i =
          if s.leds ≤ i ∧ i < 24 ∧ i < s.bPix.length then 0 else look s.bPix i) := by
  induction n with
  | zero =>
    intro fuel s h _
    rw [blob_loop_done fuel s (by omega)]
    refine ⟨rfl, rfl, rfl, ?_, ?_, ?_⟩ <;>
      (intro i; rw [if_neg]; omega)
  | succ n ih =>
    intro fuel s h hf
    obtain ⟨f, rfl⟩ : ∃ f, fuel = f + 1 := ⟨fuel - 1, by omega⟩
    have hl : (s.leds + 1) % 256 = s.leds + 1 := by omega
    rw [blob_loop_step f s (by omega), hl]
    obtain ⟨h2, h3, h4, h5, h6, h7⟩ := ih f
      { s with rPix := store s.rPix s.leds 0, gPix := store s.gPix s.leds 0,
               bPix := store s.bPix s.leds 0, leds := s.leds + 1,
               acc := s.acc ++ [⟨Arr.rPix, s.leds, true⟩, ⟨Arr.gPix, s.leds, true⟩,
                 ⟨Arr.bPix, s.leds, true⟩] }
      (by show s.leds + 1 + n = 24; omega) (by omega)
    simp only [store_length, look_store] at h2 h3 h4 h5 h6 h7
    refine ⟨h2, h3, h4, ?_, ?_, ?_⟩
    · intro i; rw [h5 i]; split_ifs <;> first | rfl | omega
    · intro i; rw [h6 i]; split_ifs <;> first | rfl | omega
    · intro i; rw [h7 i]; split_ifs <;> first | rfl | omega

theorem blob_shape_pix (s : State) :
    (blob_shape s).rPix = store (store (store (store (store (store (store s.rPix
        0 1) 1 2) 2 8) 3 24) 4 90) 5 230) 6 90
    ∧ (blob_shape s).gPix = store (store (store (store (store (store (store s.gPix
        0 0) 1 0) 2 0) 3 0) 4 0) 5 0) 6 0
    ∧ (blob_shape s).bPix = store (store (store (store (store (store (store s.bPix
        0 1) 1 3) 2 12) 3 32) 4 120) 5 255) 6 120 :=
  ⟨rfl, rfl, rfl⟩

theorem with_wVal_pix (v : Nat) (s : State) :
    ({ s with wVal := v } : State).rPix = s.rPix
    ∧ ({ s with wVal := v } : State).gPix = s.gPix
    ∧ ({ s with wVal := v } : State).bPix = s.bPix := ⟨rfl, rfl, rfl⟩

theorem with_leds_pix (v : Nat) (s : State) :
    ({ s with leds := v } : State).rPix = s.rPix
    ∧ ({ s with leds := v } : State).gPix = s.gPix
    ∧ ({ s with leds := v } : State).bPix = s.bPix
    ∧ ({ s with leds := v } : State).leds = v := ⟨rfl, rfl, rfl, rfl⟩

theorem blob_pix (s : State) :
    (blob s).rPix.length = s.rPix.length
    ∧ (blob s).gPix.length = s.gPix.length
    ∧ (blob s).bPix.length = s.bPix.length
    ∧ (∀ i : Nat, look (blob s).rPix i =
        if 7 ≤ i ∧ i < 24 ∧ i < s.rPix.length then 0 else look (blob_shape s).rPix i)
    ∧ (∀ i : Nat, look (blob s).gPix i =
        if 7 ≤ i ∧ i < 24 ∧ i < s.gPix.length then 0 else look (blob_shape s).gPix i)
    ∧ (∀ i : Nat, look (blob s).bPix i =
        if 7 ≤ i ∧ i < 24 ∧ i < s.bPix.length then 0 else look (blob_shape s).bPix i) := by
  obtain ⟨e1, e2, e3⟩ := blob_shape_pix s
  have l1 : (blob_shape s).rPix.length = s.rPix.length := by rw [e1]; simp only [store_length]
  have l2 : (blob_shape s).gPix.length = s.gPix.length := by rw [e2]; simp only [store_length]
  have l3 : (blob_shape s).bPix.length = s.bPix.length := by rw [e3]; simp only [store_length]
  obtain ⟨w1, w2, w3⟩ := with_wVal_pix 0 (blob_loop 256 { blob_shape s with leds := 7 })
  obtain ⟨d1, d2, d3, d4⟩ := with_leds_pix 7 (blob_shape s)
  have H := blob_loop_spec 17 256 { blob_shape s with leds := 7 } (by rw [d4]) (by decide)
  rw [d1, d2, d3, d4, l1, l2, l3] at H
  rw [blob, w1, w2, w3]
  exact H

theorem look_blob_layout (A xs : List Nat) (i : Nat) (hA : A.length = 7) :
    look (A ++ List.replicate 17 0 ++ xs.drop 24) (i : Int) =
      if i < 7 then look A (i : Int) else if i < 24 then 0 else look xs (i : Int) := by
  simp only [look_getElem?]
  by_cases h7 : i < 7
  · rw [if_pos h7, List.append_assoc, List.getElem?_append_left (by omega)]
  · rw [if_neg h7]
    by_cases h24 : i < 24
    · rw [if_pos h24, List.getElem?_append_left (by simp; omega),
        List.getElem?_append_right (by omega), List.getElem?_replicate]
      split <;> rfl
    · rw [if_neg h24, List.getElem?_append_right (by simp; omega), List.getElem?_drop]
      simp only [List.length_append, List.length_replicate, hA]
      congr 2
      omega

theorem blob_layout (xs ys : List Nat) (A : List Nat) (v0 v1 v2 v3 v4 v5 v6 : Nat)
    (hx : xs.length = 60) (hy : ys.length = 60) (hA : A = [v0, v1, v2, v3, v4, v5, v6])
    (h : ∀ i : Nat, look ys (i : Int) =
      if 7 ≤ i ∧ i < 24 ∧ i < xs.length then 0
      else look (store (store (store (store (store (store (store xs
        0 v0) 1 v1) 2 v2) 3 v3) 4 v4) 5 v5) 6 v6) (i : Int)) :
    ys = A ++ List.replicate 17 0 ++ xs.drop 24 := by
  apply list_eq_of_look
  · simp [hx, hy, hA]
  · intro i hi
    rw [hy] at hi
    rw [h i, look_blob_layout A xs i (by rw [hA]; rfl), hA]
    have c0 := look_store xs 0 i v0
    have c1 := look_store (store xs 0 v0) 1 i v1
    have c2 := look_store (store (store xs 0 v0) 1 v1) 2 i v2
    have c3 := look_store (store (store (store xs 0 v0) 1 v1) 2 v2) 3 i v3
    have c4 := look_store (store (store (store (store xs 0 v0) 1 v1) 2 v2) 3 v3) 4 i v4
    have c5 := look_store (store (store (store (store (store xs 0 v0) 1 v1) 2 v2) 3 v3) 4 v4)
      5 i v5
    have c6 := look_store (store (store (store (store (store (store xs 0 v0) 1 v1) 2 v2) 3 v3)
      4 v4) 5 v5) 6 i v6
    simp only [store_length, hx, Nat.cast_ofNat, Nat.cast_zero, Nat.cast_one] at c0 c1 c2 c3 c4 c5 c6
    rw [c6, c5, c4, c3, c2, c1, c0]
    by_cases h7 : i < 7
    · rw [if_neg (by omega), if_pos h7]
      interval_cases i <;> simp [look]
    · rw [if_neg h7]
      by_cases h24 : i < 24
      · rw [if_pos ⟨by omega, h24, by omega⟩, if_pos h24]
      · rw [if_neg (by omega), if_neg h24]
        rw [if_neg (by omega), if_neg (by omega), if_neg (by omega), if_neg (by omega),
          if_neg (by omega), if_neg (by omega), if_neg (by omega)]

theorem blob_arrays (s : State) (hr : s.rPix.length = 60) (hg : s.gPix.length = 60)
    (hb : s.bPix.length = 60) :
    (blob s).rPix = [1, 2, 8, 24, 90, 230, 90] ++ List.replicate 17 0 ++ s.rPix.drop 24
    ∧ (blob s).gPix = [0, 0, 0, 0, 0, 0, 0] ++ List.replicate 17 0 ++ s.gPix.drop 24
    ∧ (blob s).bPix = [1, 3, 12, 32, 120, 255, 120] ++ List.replicate 17 0 ++ s.bPix.drop 24 := by
  obtain ⟨l1, l2, l3, p1, p2, p3⟩ := blob_pix s
  obtain ⟨e1, e2, e3⟩ := blob_shape_pix s
  rw [e1] at p1
  rw [e2] at p2
  rw [e3] at p3
  exact ⟨blob_layout s.rPix _ _ 1 2 8 24 90 230 90 hr (l1.trans hr) rfl p1,
    blob_layout s.gPix _ _ 0 0 0 0 0 0 0 hg (l2.trans hg) rfl p2,
    blob_layout s.bPix _ _ 1 3 12 32 120 255 120 hb (l3.trans hb) rfl p3⟩

/-! ## Leaving a mode on a mode press -/

theorem samePix_refl (s : State) : SamePix s s := ⟨rfl, rfl, rfl⟩

theorem samePix_trans {s s1 s2 : State} (h1 : SamePix s s1) (h2 : SamePix s1 s2) :
    SamePix s s2 :=
  ⟨h2.1.trans h1.1, h2.2.1.trans h1.2.1, h2.2.2.trans h1.2.2⟩

theorem samePix_button (b : Nat) (s : State) : SamePix s (set_button b s) := ⟨rfl, rfl, rfl⟩

theorem samePix_mode_advance (s : State) : SamePix s (mode_advance s) := by
  obtain ⟨l, bt, t, h⟩ := mode_advance_frame s
  rw [h]; exact ⟨rfl, rfl, rfl⟩

theorem samePix_rainbow_frame (s : State) : SamePix s (rainbow_frame s) := by
  obtain ⟨r, g, b, l, bt, t, a, h⟩ := rainbow_frame_frame s
  rw [h]; exact ⟨rfl, rfl, rfl⟩

theorem rainbow_frame_buttonDelay (s : State) :
    (rainbow_frame s).buttonDelay = s.buttonDelay := by
  obtain ⟨r, g, b, l, bt, t, a, h⟩ := rainbow_frame_frame s
  rw [h]

theorem poll_then_press (after : State → State) (i : Input) (s : State)
    (h0 : s.buttonDelay = 0) (h1 : i.SW1 ≠ 0) (h2 : i.SW2 = 0) :
    poll_then after i s = some (after (set_button (i.junk % 256) (mode_advance s))) := by
  unfold poll_then read_button
  rw [if_pos h0, if_neg h1, if_pos h2]

theorem poll_then_wait (after : State → State) (i : Input) (s : State)
    (h : s.buttonDelay ≠ 0) : poll_then after i s = some (dec_buttonDelay s) := by
  unfold poll_then
  rw [if_neg h]

theorem tick_of_pass (i : Input) (s s2 : State) (h : pass i s = some s2) : tick i s = s2 := by
  unfold tick
  rw [h]

theorem tick_rainbow_press (i : Input) (s : State) (hm : s.mode = RAINBOW_MODE)
    (h0 : s.buttonDelay = 0) (h1 : i.SW1 ≠ 0) (h2 : i.SW2 = 0) :
    tick i s = set_pixLEDs 24 (blob (set_button (i.junk % 256)
      (mode_advance (rainbow_frame s)))) := by
  apply tick_of_pass
  have hd : (rainbow_frame s).buttonDelay = 0 := by rw [rainbow_frame_buttonDelay, h0]
  have hx : (set_button (i.junk % 256) (mode_advance (rainbow_frame s))).mode
      ≠ RAINBOW_MODE := by
    rw [(sameCur_button _ _).2.2, (mode_advance_cur _).2.2, (sameCur_rainbow_frame s).2.2, hm]
    decide
  unfold pass
  rw [if_neg (by rw [hm]; decide), if_pos hm]
  unfold rainbow_pass
  rw [poll_then_press _ _ _ hd h1 h2]
  unfold rainbow_exit
  rw [if_pos hx]

theorem blob_wVal (s : State) : (blob s).wVal = 0 := by
  obtain ⟨r, g, b, l, a, h⟩ := blob_frame s
  rw [h]

theorem set_pixLEDs_pix (v : Nat) (s : State) :
    (set_pixLEDs v s).rPix = s.rPix ∧ (set_pixLEDs v s).gPix = s.gPix
    ∧ (set_pixLEDs v s).bPix = s.bPix ∧ (set_pixLEDs v s).wVal = s.wVal :=
  ⟨rfl, rfl, rfl, rfl⟩

/-- C12: the ion gun shape.  For every prior content of the three 60-element
pixel arrays, after `blob()` the slots 0..6 hold the (r, g, b) values (1,0,1),
(2,0,3), (8,0,12), (24,0,32), (90,0,120), (230,0,255), (90,0,120), the slots
7..23 hold (0,0,0), the slots 24..59 are unchanged, and wVal = 0.  When a mode
press is processed in rainbow mode, the tick ends in ion gun mode with
pixLEDs = 24 and with the arrays in that shape. -/
theorem blob_builds_the_ion_shape (i : Input) (s : State)
    (hr : s.rPix.length = 60) (hg : s.gPix.length = 60) (hb : s.bPix.length = 60) :
    ((blob s).rPix = [1, 2, 8, 24, 90, 230, 90] ++ List.replicate 17 0 ++ s.rPix.drop 24
      ∧ (blob s).gPix = [0, 0, 0, 0, 0, 0, 0] ++ List.replicate 17 0 ++ s.gPix.drop 24
      ∧ (blob s).bPix = [1, 3, 12, 32, 120, 255, 120] ++ List.replicate 17 0 ++ s.bPix.drop 24
      ∧ (blob s).wVal = 0)
    ∧ (s.mode = RAINBOW_MODE → s.buttonDelay = 0 → i.SW1 ≠ 0 → i.SW2 = 0 →
        (tick i s).mode = IONGUN_MODE ∧ (tick i s).pixLEDs = 24
        ∧ (tick i s).rPix = [1, 2, 8, 24, 90, 230, 90] ++ List.replicate 17 0 ++ s.rPix.drop 24
        ∧ (tick i s).gPix = [0, 0, 0, 0, 0, 0, 0] ++ List.replicate 17 0 ++ s.gPix.drop 24
        ∧ (tick i s).bPix =
            [1, 3, 12, 32, 120, 255, 120] ++ List.replicate 17 0 ++ s.bPix.drop 24
        ∧ (tick i s).wVal = 0) := by
  obtain ⟨b1, b2, b3⟩ := blob_arrays s hr hg hb
  refine ⟨⟨b1, b2, b3, blob_wVal s⟩, ?_⟩
  intro hm h0 h1 h2
  have hp : SamePix s (set_button (i.junk % 256) (mode_advance (rainbow_frame s))) :=
    samePix_trans (samePix_trans (samePix_rainbow_frame s) (samePix_mode_advance _))
      (samePix_button _ _)
  obtain ⟨p1, p2, p3⟩ := hp
  obtain ⟨c1, c2, c3⟩ := blob_arrays (set_button (i.junk % 256) (mode_advance (rainbow_frame s)))
    (by rw [p1]; exact hr) (by rw [p2]; exact hg) (by rw [p3]; exact hb)
  rw [p1] at c1
  rw [p2] at c2
  rw [p3] at c3
  obtain ⟨q1, q2, q3, q4⟩ := set_pixLEDs_pix 24
    (blob (set_button (i.junk % 256) (mode_advance (rainbow_frame s))))
  obtain ⟨_, m2, m3⟩ := set_pixLEDs_cur 24
    (blob (set_button (i.junk % 256) (mode_advance (rainbow_frame s))))
  rw [tick_rainbow_press i s hm h0 h1 h2, q1, q2, q3, q4, m2, m3]
  refine ⟨?_, rfl, c1, c2, c3, blob_wVal _⟩
  rw [(sameCur_blob _).2.2, (sameCur_button _ _).2.2, (mode_advance_cur _).2.2,
    (sameCur_rainbow_frame s).2.2, hm]
  decide

/-- C12 from the start-up arrays, with SW2 pressed in rainbow mode: the tick
ends in ion gun mode with 24 pixels. -/
theorem blob_builds_the_ion_shape_witness :
    (blob initState).wVal = 0
    ∧ (tick ⟨1, 0, 1, 1, 1, 0, 0, 0, 0⟩ { initState with mode := RAINBOW_MODE }).mode
        = IONGUN_MODE
    ∧ (tick ⟨1, 0, 1, 1, 1, 0, 0, 0, 0⟩ { initState with mode := RAINBOW_MODE }).pixLEDs = 24 :=
  ⟨(blob_builds_the_ion_shape ⟨1, 0, 1, 1, 1, 0, 0, 0, 0⟩ initState rfl rfl rfl).1.2.2.2,
   ((blob_builds_the_ion_shape ⟨1, 0, 1, 1, 1, 0, 0, 0, 0⟩
      { initState with mode := RAINBOW_MODE } rfl rfl rfl).2 rfl rfl (by decide) rfl).1,
   ((blob_builds_the_ion_shape ⟨1, 0, 1, 1, 1, 0, 0, 0, 0⟩
      { initState with mode := RAINBOW_MODE } rfl rfl rfl).2 rfl rfl (by decide) rfl).2.1⟩

/-! ## Cross-fade: frames sent -/

theorem np_crossfade_step_trace (r g b : Nat) (w : Int) (s : State) :
    (np_crossfade_step r g b w s).trace =
      s.trace ++ frame_of (np_crossfade_step r g b w s) := by
  unfold np_crossfade_step frame_of frame
  simp only [np_fill_eq, delay_ms, List.append_assoc]

theorem np_crossfade_loop_succ (n r g b : Nat) (w : Int) (s : State) :
    np_crossfade_loop (n + 1) r g b w s =
      np_crossfade_step r g b w (np_crossfade_loop n r g b w s) := by
  rw [np_crossfade_loop, Function.iterate_succ_apply', ← np_crossfade_loop]

theorem np_crossfade_loop_trace (n r g b : Nat) (w : Int) (s : State) :
    (np_crossfade_loop n r g b w s).trace =
      s.trace ++ (List.range n).flatMap
        (fun k => frame_of (np_crossfade_loop (k + 1) r g b w s)) := by
  induction n with
  | zero =>
    rw [np_crossfade_loop]
    exact (List.append_nil _).symm
  | succ n ih =>
    rw [List.range_succ, List.flatMap_append, ← List.append_assoc, ← ih,
      List.flatMap_cons, List.flatMap_nil, List.append_nil, np_crossfade_loop_succ]
    exact np_crossfade_step_trace r g b w _

theorem np_crossfade_finish_trace (s : State) :
    (np_crossfade_finish s).trace = s.trace ++ frame s.gVal2 s.rVal2 s.bVal2 s.wVal2 := by
  rw [np_crossfade_finish_eq]
  rfl

theorem np_crossfade_loop_targets (steps r g b : Nat) (w : Int) (s : State) :
    (np_crossfade_loop steps r g b w s).rVal2 = s.rVal2
    ∧ (np_crossfade_loop steps r g b w s).gVal2 = s.gVal2
    ∧ (np_crossfade_loop steps r g b w s).bVal2 = s.bVal2
    ∧ (np_crossfade_loop steps r g b w s).wVal2 = s.wVal2 := by
  obtain ⟨r1, g1, b1, w1, bt, t, h⟩ := np_crossfade_loop_frame steps r g b w s
  rw [h]
  exact ⟨rfl, rfl, rfl, rfl⟩

theorem np_crossfade_colours (leds : Nat) (s : State) :
    ((np_crossfade leds s).rVal = s.rVal2 ∧ (np_crossfade leds s).gVal = s.gVal2
      ∧ (np_crossfade leds s).bVal = s.bVal2 ∧ (np_crossfade leds s).wVal = s.wVal2)
    ∧ ((np_crossfade leds s).rVal2 = s.rVal2 ∧ (np_crossfade leds s).gVal2 = s.gVal2
      ∧ (np_crossfade leds s).bVal2 = s.bVal2 ∧ (np_crossfade leds s).wVal2 = s.wVal2) := by
  obtain ⟨t, h⟩ := np_crossfade_frame leds s
  rw [h]
  exact ⟨⟨rfl, rfl, rfl, rfl⟩, ⟨rfl, rfl, rfl, rfl⟩⟩

/-- C16: for every starting colour and every target colour, when
`np_crossfade` returns the active colour equals the target colour on all four
channels, the target colour is unchanged, and the routine has sent 17 frames,
each followed by the frame delay: one for each of the 16 passes of its loop,
showing the active colour after that pass, and last a flat fill of the target
colour. -/
theorem np_crossfade_ends_on_the_target (leds : Nat) (s : State) :
    ((np_crossfade leds s).rVal = s.rVal2 ∧ (np_crossfade leds s).gVal = s.gVal2
      ∧ (np_crossfade leds s).bVal = s.bVal2 ∧ (np_crossfade leds s).wVal = s.wVal2)
    ∧ ((np_crossfade leds s).rVal2 = s.rVal2 ∧ (np_crossfade leds s).gVal2 = s.gVal2
      ∧ (np_crossfade leds s).bVal2 = s.bVal2 ∧ (np_crossfade leds s).wVal2 = s.wVal2)
    ∧ (np_crossfade leds s).trace =
        s.trace
        ++ (List.range 16).flatMap (fun k =>
              frame_of (np_crossfade_loop (k + 1) s.rVal s.gVal s.bVal (toS8 s.wVal) s))
        ++ frame s.gVal2 s.rVal2 s.bVal2 s.wVal2 := by
  obtain ⟨h1, h2⟩ := np_crossfade_colours leds s
  refine ⟨h1, h2, ?_⟩
  obtain ⟨e1, e2, e3, e4⟩ :=
    np_crossfade_loop_targets 16 s.rVal s.gVal s.bVal (toS8 s.wVal) s
  rw [np_crossfade, np_crossfade_finish_trace, np_crossfade_loop_trace, e1, e2, e3, e4]

/-! ## Cross-fade: the value of a channel after each pass -/

theorem fade_value_succ (s t k : Nat) :
    fade_value s t (k + 1) = fade_step s t (fade_value s t k) := by
  unfold fade_value
  rw [Function.iterate_succ_apply']

theorem fade_bounds (s t k : Nat) (hs : s < 256) (ht : t < 256) (hk : k ≤ 16) :
    0 ≤ (s : Int) + (k : Int) * (((t / 16 : Nat) : Int) - ((s / 16 : Nat) : Int))
    ∧ (s : Int) + (k : Int) * (((t / 16 : Nat) : Int) - ((s / 16 : Nat) : Int)) ≤ 255 := by
  have ha : ((s / 16 : Nat) : Int) * 16 ≤ s := by omega
  have ha2 : (s : Int) < ((s / 16 : Nat) : Int) * 16 + 16 := by omega
  have hb : ((t / 16 : Nat) : Int) ≤ 15 := by omega
  have hb0 : 0 ≤ ((t / 16 : Nat) : Int) := by omega
  have hk0 : 0 ≤ (k : Int) := by omega
  have hk16 : (k : Int) ≤ 16 := by omega
  rcases le_total ((s / 16 : Nat) : Int) ((t / 16 : Nat) : Int) with h | h
  · have p1 : 0 ≤ (k : Int) * (((t / 16 : Nat) : Int) - ((s / 16 : Nat) : Int)) :=
      mul_nonneg hk0 (by omega)
    have p2 : (k : Int) * (((t / 16 : Nat) : Int) - ((s / 16 : Nat) : Int))
        ≤ 16 * (((t / 16 : Nat) : Int) - ((s / 16 : Nat) : Int)) :=
      mul_le_mul_of_nonneg_right hk16 (by omega)
    constructor <;> omega
  · have p1 : (k : Int) * (((t / 16 : Nat) : Int) - ((s / 16 : Nat) : Int)) ≤ 0 :=
      mul_nonpos_of_nonneg_of_nonpos hk0 (by omega)
    have p2 : 16 * (((t / 16 : Nat) : Int) - ((s / 16 : Nat) : Int))
        ≤ (k : Int) * (((t / 16 : Nat) : Int) - ((s / 16 : Nat) : Int)) :=
      mul_le_mul_of_nonpos_right hk16 (by omega)
    constructor <;> omega

theorem fade_value_linear (s t k : Nat) (hs : s < 256) (ht : t < 256) (hk : k ≤ 16) :
    ((fade_value s t k : Nat) : Int) =
      (s : Int) + (k : Int) * (((t / 16 : Nat) : Int) - ((s / 16 : Nat) : Int)) := by
  induction k with
  | zero => simp [fade_value]
  | succ n ih =>
    have h1 := ih (by omega)
    obtain ⟨b1, b2⟩ := fade_bounds s t (n + 1) hs ht hk
    rw [fade_value_succ, fade_step, toU8, Nat.shiftRight_eq_div_pow, Nat.shiftRight_eq_div_pow,
      h1]
    have e : (s : Int) + (n : Int) * (((t / 16 : Nat) : Int) - ((s / 16 : Nat) : Int))
        - ((s / 2 ^ 4 : Nat) : Int) + ((t / 2 ^ 4 : Nat) : Int)
        = (s : Int) + ((n + 1 : Nat) : Int) * (((t / 16 : Nat) : Int) - ((s / 16 : Nat) : Int)) := by
      push_cast
      ring
    rw [e, Int.emod_eq_of_lt b1 (by omega), Int.toNat_of_nonneg b1]

theorem fade_value_step (s t k : Nat) (hs : s < 256) (ht : t < 256) (hk : k < 16) :
    ((fade_value s t (k + 1) : Nat) : Int) - ((fade_value s t k : Nat) : Int) =
      ((t / 16 : Nat) : Int) - ((s / 16 : Nat) : Int) := by
  rw [fade_value_linear s t (k + 1) hs ht (by omega), fade_value_linear s t k hs ht (by omega)]
  push_cast
  ring

theorem fade_value_le (s t k : Nat) (hs : s < 256) (ht : t < 256) (hk : k ≤ 16) :
    fade_value s t k ≤ 255 := by
  have h := fade_value_linear s t k hs ht hk
  have b := (fade_bounds s t k hs ht hk).2
  omega

theorem fade_value_last (s t : Nat) (hs : s < 256) (ht : t < 256) :
    fade_value s t 16 = s % 16 + 16 * (t / 16) := by
  have h := fade_value_linear s t 16 hs ht (le_refl 16)
  push_cast at h
  omega

theorem np_crossfade_loop_fade_value (k : Nat) (s : State) :
    (np_crossfade_loop k s.rVal s.gVal s.bVal (toS8 s.wVal) s).rVal
      = fade_value s.rVal s.rVal2 k
    ∧ (np_crossfade_loop k s.rVal s.gVal s.bVal (toS8 s.wVal) s).gVal
      = fade_value s.gVal s.gVal2 k
    ∧ (np_crossfade_loop k s.rVal s.gVal s.bVal (toS8 s.wVal) s).bVal
      = fade_value s.bVal s.bVal2 k := by
  obtain ⟨h1, h2, h3, _, _, _⟩ :=
    np_crossfade_loop_channels k s.rVal s.gVal s.bVal (toS8 s.wVal) s
  exact ⟨h1, h2, h3⟩

/-- C20: the cross-fade never wraps around in 8 bits.  The red, green and blue
values after k passes of the loop of `np_crossfade` are `fade_value` of the
channel's start and target.  For every start s and target t in 0..255 and every
k in 0..16 that value is exactly the integer s + k * (t / 16 - s / 16) and is at
most 255; it moves in one direction from pass to pass; after pass 16 it is
s mod 16 + 16 * (t / 16), less than 16 away from t. -/
theorem crossfade_steps_never_wrap (st : State) (s t k : Nat)
    (hs : s < 256) (ht : t < 256) (hk : k ≤ 16) :
    ((np_crossfade_loop k st.rVal st.gVal st.bVal (toS8 st.wVal) st).rVal
        = fade_value st.rVal st.rVal2 k
      ∧ (np_crossfade_loop k st.rVal st.gVal st.bVal (toS8 st.wVal) st).gVal
        = fade_value st.gVal st.gVal2 k
      ∧ (np_crossfade_loop k st.rVal st.gVal st.bVal (toS8 st.wVal) st).bVal
        = fade_value st.bVal st.bVal2 k)
    ∧ ((fade_value s t k : Nat) : Int) =
        (s : Int) + (k : Int) * (((t / 16 : Nat) : Int) - ((s / 16 : Nat) : Int))
    ∧ fade_value s t k ≤ 255
    ∧ (k < 16 →
        (s / 16 ≤ t / 16 → fade_value s t k ≤ fade_value s t (k + 1))
        ∧ (t / 16 ≤ s / 16 → fade_value s t (k + 1) ≤ fade_value s t k))
    ∧ fade_value s t 16 = s % 16 + 16 * (t / 16)
    ∧ Nat.dist (fade_value s t 16) t < 16 := by
  refine ⟨np_crossfade_loop_fade_value k st, fade_value_linear s t k hs ht hk,
    fade_value_le s t k hs ht hk, ?_, fade_value_last s t hs ht, ?_⟩
  · intro hk2
    have h := fade_value_step s t k hs ht hk2
    constructor <;> intro h2 <;> omega
  · rw [fade_value_last s t hs ht]
    unfold Nat.dist
    omega

/-- C20 on the red channel of the start-up colours, fading from 64 to the
target 200 (not a multiple of 16): after pass 16 the value is 192. -/
theorem crossfade_steps_never_wrap_witness :
    fade_value 64 200 16 = 64 % 16 + 16 * (200 / 16)
    ∧ Nat.dist (fade_value 64 200 16) 200 < 16 :=
  (crossfade_steps_never_wrap initState 64 200 16 (by decide) (by decide) (by decide)).2.2.2.2

/-! ## Cross-fade: equal steps -/

/-- C17, counterexample: the start-up colours have red 64 and red target 0.
The red value after the passes 1, 2, 15 and 16 of the loop of `np_crossfade` is
60, 56, 4 and 0: the second pass and the sixteenth move red by the same
amount, 4, and in the sixteenth pass that is not a sixteenth of the remaining
difference, which is 4. -/
theorem crossfade_is_not_exponential :
    initState.rVal = 64 ∧ initState.rVal2 = 0
    ∧ (np_crossfade_loop 1 initState.rVal initState.gVal initState.bVal
        (toS8 initState.wVal) initState).rVal = 60
    ∧ (np_crossfade_loop 2 initState.rVal initState.gVal initState.bVal
        (toS8 initState.wVal) initState).rVal = 56
    ∧ (np_crossfade_loop 15 initState.rVal initState.gVal initState.bVal
        (toS8 initState.wVal) initState).rVal = 4
    ∧ (np_crossfade_loop 16 initState.rVal initState.gVal initState.bVal
        (toS8 initState.wVal) initState).rVal = 0
    ∧ (np_crossfade_loop 1 initState.rVal initState.gVal initState.bVal
          (toS8 initState.wVal) initState).rVal
        - (np_crossfade_loop 2 initState.rVal initState.gVal initState.bVal
          (toS8 initState.wVal) initState).rVal
      = (np_crossfade_loop 15 initState.rVal initState.gVal initState.bVal
          (toS8 initState.wVal) initState).rVal
        - (np_crossfade_loop 16 initState.rVal initState.gVal initState.bVal
          (toS8 initState.wVal) initState).rVal
    ∧ (np_crossfade_loop 15 initState.rVal initState.gVal initState.bVal
          (toS8 initState.wVal) initState).rVal
        - (np_crossfade_loop 16 initState.rVal initState.gVal initState.bVal
          (toS8 initState.wVal) initState).rVal
      ≠ ((np_crossfade_loop 15 initState.rVal initState.gVal initState.bVal
          (toS8 initState.wVal) initState).rVal - initState.rVal2) / 16 := by
  have key : ∀ k, k ≤ 16 →
      (np_crossfade_loop k initState.rVal initState.gVal initState.bVal
        (toS8 initState.wVal) initState).rVal = 64 - 4 * k := by
    intro k hk
    rw [(np_crossfade_loop_channels k initState.rVal initState.gVal initState.bVal
      (toS8 initState.wVal) initState).1]
    exact (fade_64_32_128 k hk).1
  have h1 := key 1 (by decide)
  have h2 := key 2 (by decide)
  have h15 := key 15 (by decide)
  have h16 := key 16 (by decide)
  refine ⟨rfl, rfl, h1, h2, h15, h16, ?_, ?_⟩
  · rw [h1, h2, h15, h16]
  · rw [h15, h16]
    decide

/-- C17, as amended: the cross-fade is linear.  In each of the 16 passes of the
loop of `np_crossfade` the red, the green and the blue value each move by the
same amount, target / 16 - start / 16 with `start` the value at the call,
whatever the remaining difference. -/
theorem crossfade_moves_by_equal_steps (st : State) (k : Nat) (hk : k < 16)
    (hr : st.rVal < 256) (hg : st.gVal < 256) (hb : st.bVal < 256)
    (hr2 : st.rVal2 < 256) (hg2 : st.gVal2 < 256) (hb2 : st.bVal2 < 256) :
    (((np_crossfade_loop (k + 1) st.rVal st.gVal st.bVal (toS8 st.wVal) st).rVal : Int)
        - ((np_crossfade_loop k st.rVal st.gVal st.bVal (toS8 st.wVal) st).rVal : Int)
      = ((st.rVal2 / 16 : Nat) : Int) - ((st.rVal / 16 : Nat) : Int))
    ∧ (((np_crossfade_loop (k + 1) st.rVal st.gVal st.bVal (toS8 st.wVal) st).gVal : Int)
        - ((np_crossfade_loop k st.rVal st.gVal st.bVal (toS8 st.wVal) st).gVal : Int)
      = ((st.gVal2 / 16 : Nat) : Int) - ((st.gVal / 16 : Nat) : Int))
    ∧ (((np_crossfade_loop (k + 1) st.rVal st.gVal st.bVal (toS8 st.wVal) st).bVal : Int)
        - ((np_crossfade_loop k st.rVal st.gVal st.bVal (toS8 st.wVal) st).bVal : Int)
      = ((st.bVal2 / 16 : Nat) : Int) - ((st.bVal / 16 : Nat) : Int)) := by
  obtain ⟨a1, a2, a3⟩ := np_crossfade_loop_fade_value (k + 1) st
  obtain ⟨b1, b2, b3⟩ := np_crossfade_loop_fade_value k st
  rw [a1, a2, a3, b1, b2, b3]
  exact ⟨fade_value_step _ _ k hr hr2 hk, fade_value_step _ _ k hg hg2 hk,
    fade_value_step _ _ k hb hb2 hk⟩

/-- C17 as amended, on the start-up colours at the last pass: red moves from 4
to 0 by 0 / 16 - 64 / 16. -/
theorem crossfade_moves_by_equal_steps_witness :
    ((np_crossfade_loop (15 + 1) initState.rVal initState.gVal initState.bVal
        (toS8 initState.wVal) initState).rVal : Int)
      - ((np_crossfade_loop 15 initState.rVal initState.gVal initState.bVal
        (toS8 initState.wVal) initState).rVal : Int)
      = ((initState.rVal2 / 16 : Nat) : Int) - ((initState.rVal / 16 : Nat) : Int) :=
  (crossfade_moves_by_equal_steps initState 15 (by decide) (by decide) (by decide) (by decide)
    (by decide) (by decide) (by decide)).1

/-! ## Button polling -/

theorem pass_eq_poll (i : Input) (s : State) (hm : s.mode ≤ 5) :
    pass i s = poll_then (mode_exit s.mode) i (mode_frame i s) := by
  unfold pass mode_frame mode_exit
  split_ifs <;>
    first
    | rfl
    | (exfalso
       simp only [OFF_MODE, RAINBOW_MODE, IONGUN_MODE, WARMINGSTRIPES_MODE, RANDOM_MODE,
         COLOUR_MODE] at *
       omega)

theorem sameKey_refl (s : State) : SameKey s s := ⟨rfl, rfl, rfl⟩

theorem sameKey_trans {s s1 s2 : State} (h1 : SameKey s s1) (h2 : SameKey s1 s2) :
    SameKey s s2 :=
  ⟨h2.1.trans h1.1, h2.2.1.trans h1.2.1, h2.2.2.trans h1.2.2⟩

theorem sameKey_delay_ms (n : Nat) (s : State) : SameKey s (delay_ms n s) :=
  ⟨rfl, rfl, rfl⟩

theorem sameKey_set_pixLEDs (v : Nat) (s : State) : SameKey s (set_pixLEDs v s) :=
  ⟨rfl, rfl, rfl⟩

theorem sameKey_set_pixIndex (v : Int) (s : State) : SameKey s (set_pixIndex v s) :=
  ⟨rfl, rfl, rfl⟩

theorem sameKey_random_target (i : Input) (s : State) : SameKey s (random_target i s) :=
  ⟨rfl, rfl, rfl⟩

theorem sameKey_colour_bump (s : State) : SameKey s (colour_bump s) := by
  unfold colour_bump
  split_ifs <;> exact ⟨rfl, rfl, rfl⟩

theorem sameKey_blob (s : State) : SameKey s (blob s) := by
  obtain ⟨r, g, b, l, a, h⟩ := blob_frame s
  rw [h]; exact ⟨rfl, rfl, rfl⟩

theorem sameKey_np_crossfade (leds : Nat) (s : State) : SameKey s (np_crossfade leds s) := by
  obtain ⟨t, h⟩ := np_crossfade_frame leds s
  rw [h]; exact ⟨rfl, rfl, rfl⟩

theorem sameKey_np_gamma_fill (leds : Nat) (s : State) :
    SameKey s (np_gamma_fill leds s) := by
  rw [np_gamma_fill_eq]; exact ⟨rfl, rfl, rfl⟩

theorem sameKey_rainbow_frame (s : State) : SameKey s (rainbow_frame s) := by
  obtain ⟨r, g, b, l, bt, t, a, h⟩ := rainbow_frame_frame s
  rw [h]; exact ⟨rfl, rfl, rfl⟩

theorem sameKey_np_fill_array (leds : Nat) (offset : Int) (s : State) :
    SameKey s (np_fill_array leds offset s) := by
  obtain ⟨b, t, a, h⟩ := np_fill_array_frame leds offset s
  rw [h]; exact ⟨rfl, rfl, rfl⟩

theorem sameKey_rainbow_exit (s : State) : SameKey s (rainbow_exit s) := by
  unfold rainbow_exit
  split_ifs
  · exact sameKey_trans (sameKey_blob s) (sameKey_set_pixLEDs 24 _)
  · exact sameKey_refl s

theorem sameKey_mode_frame (i : Input) (s : State) : SameKey s (mode_frame i s) := by
  unfold mode_frame
  split_ifs
  · exact sameKey_delay_ms _ s
  · exact sameKey_rainbow_frame s
  · exact sameKey_trans (sameKey_np_fill_array _ _ s) (sameKey_delay_ms _ _)
  · exact sameKey_trans (sameKey_np_fill_array _ _ s) (sameKey_delay_ms _ _)
  · exact sameKey_trans (sameKey_trans (sameKey_random_target i s)
      (sameKey_np_crossfade _ _)) (sameKey_delay_ms _ _)
  · exact sameKey_trans (sameKey_np_gamma_fill _ s) (sameKey_delay_ms _ _)
  · exact sameKey_refl s

theorem mode_frame_congr (i i2 : Input) (s : State) (h1 : i2.rand1 = i.rand1)
    (h2 : i2.rand2 = i.rand2) (h3 : i2.rand3 = i.rand3) :
    mode_frame i2 s = mode_frame i s := by
  unfold mode_frame random_target
  rw [h1, h2, h3]

theorem dec_buttonDelay_key (s : State) :
    (dec_buttonDelay s).mode = s.mode
    ∧ (dec_buttonDelay s).buttonDelay = (s.buttonDelay + 255) % 256
    ∧ (dec_buttonDelay s).button = s.button := ⟨rfl, rfl, rfl⟩

theorem set_button_key (b : Nat) (s : State) :
    (set_button b s).mode = s.mode ∧ (set_button b s).buttonDelay = s.buttonDelay :=
  ⟨rfl, rfl⟩

theorem tick_wait (i : Input) (s : State) (hm : s.mode ≤ 5) (hd : s.buttonDelay ≠ 0) :
    tick i s = dec_buttonDelay (mode_frame i s) := by
  apply tick_of_pass
  rw [pass_eq_poll i s hm]
  apply poll_then_wait
  rw [(sameKey_mode_frame i s).2.1]
  exact hd

theorem tick_press (i : Input) (s : State) (hm : s.mode ≤ 5) (h0 : s.buttonDelay = 0)
    (h1 : i.SW1 ≠ 0) (h2 : i.SW2 = 0) :
    tick i s = mode_exit s.mode (set_button (i.junk % 256) (mode_advance (mode_frame i s))) := by
  apply tick_of_pass
  rw [pass_eq_poll i s hm]
  apply poll_then_press _ _ _ _ h1 h2
  rw [(sameKey_mode_frame i s).2.1]
  exact h0

theorem mode_advance_key (s : State) :
    (mode_advance s).mode = next_mode s.mode
    ∧ (mode_advance s).buttonDelay = if next_mode s.mode = RANDOM_MODE then 1 else 25 := by
  obtain ⟨l, bt, t, h⟩ := mode_advance_frame s
  rw [h]
  exact ⟨rfl, rfl⟩

theorem tick_wait_key (i : Input) (s : State) (hm : s.mode ≤ 5) (hd : s.buttonDelay ≠ 0)
    (hb : s.buttonDelay < 256) :
    (tick i s).mode = s.mode ∧ (tick i s).buttonDelay = s.buttonDelay - 1
    ∧ (tick i s).button = s.button := by
  obtain ⟨k1, k2, k3⟩ := sameKey_mode_frame i s
  obtain ⟨d1, d2, d3⟩ := dec_buttonDelay_key (mode_frame i s)
  rw [tick_wait i s hm hd, d1, d2, d3, k1, k2, k3]
  exact ⟨rfl, by omega, rfl⟩

theorem ticks_wait (inputs : List Input) :
    ∀ s : State, s.mode ≤ 5 → s.buttonDelay < 256 → inputs.length ≤ s.buttonDelay →
      (inputs.foldl (fun s i => tick i s) s).mode = s.mode
      ∧ (inputs.foldl (fun s i => tick i s) s).buttonDelay = s.buttonDelay - inputs.length := by
  induction inputs with
  | nil => intro s _ _ _; exact ⟨rfl, rfl⟩
  | cons i rest ih =>
    intro s hm hb hl
    rw [List.length_cons] at hl
    obtain ⟨k1, k2, _⟩ := tick_wait_key i s hm (by omega) hb
    obtain ⟨e1, e2⟩ := ih (tick i s) (by rw [k1]; exact hm) (by rw [k2]; omega)
      (by rw [k2]; omega)
    rw [List.foldl_cons, e1, e2, k1, k2, List.length_cons]
    exact ⟨rfl, by omega⟩

theorem next_mode_mod (m : Nat) (h : m ≤ 5) : next_mode m = (m + 1) % 6 := by
  interval_cases m <;> decide

/-! ## The cursor on a one-pixel array -/

theorem np_fill_array_loop_acc_grows (leds : Nat) (s : State) :
    ∃ l, (np_fill_array_loop leds s).acc = s.acc ++ l := by
  induction leds generalizing s with
  | zero => exact ⟨[], (List.append_nil _).symm⟩
  | succ n ih =>
    rw [np_fill_array_loop]
    simp only [np_shift_eq, touch]
    split
    · obtain ⟨l, h⟩ := ih _
      rw [h]
      exact ⟨[⟨Arr.gPix, s.pixIndex, false⟩, ⟨Arr.rPix, s.pixIndex, false⟩,
        ⟨Arr.bPix, s.pixIndex, false⟩] ++ l, by simp⟩
    · obtain ⟨l, h⟩ := ih _
      rw [h]
      exact ⟨[⟨Arr.gPix, s.pixIndex, false⟩, ⟨Arr.rPix, s.pixIndex, false⟩,
        ⟨Arr.bPix, s.pixIndex, false⟩] ++ l, by simp⟩

theorem np_fill_array_loop_first_read (leds : Nat) (s : State) (h : 0 < leds) :
    (⟨Arr.gPix, s.pixIndex, false⟩ : Access) ∈ (np_fill_array_loop leds s).acc := by
  obtain ⟨n, rfl⟩ : ∃ n, leds = n + 1 := ⟨leds - 1, by omega⟩
  rw [np_fill_array_loop]
  simp only [np_shift_eq, touch]
  split
  · obtain ⟨l, e⟩ := np_fill_array_loop_acc_grows n _
    rw [e]
    simp
  · obtain ⟨l, e⟩ := np_fill_array_loop_acc_grows n _
    rw [e]
    simp

theorem np_fill_array_first_read (leds : Nat) (offset : Int) (s : State) (h : 0 < leds) :
    (⟨Arr.gPix, start_index s, false⟩ : Access) ∈ (np_fill_array leds offset s).acc := by
  rw [np_fill_array_acc_loop]
  exact np_fill_array_loop_first_read leds { s with pixIndex := start_index s } h

theorem cursor_step_in_range (n : Nat) (p d : Int) (hn : 2 ≤ n) (hn2 : n ≤ 60)
    (h0 : 0 ≤ p) (hp : p < n) (hd : d = -1 ∨ d = 0 ∨ d = 1) :
    0 ≤ cursor_step n d p ∧ cursor_step n d p < n := by
  simp only [cursor_step, cursor_after, toS8]
  rcases hd with h | h | h <;> subst h <;> split_ifs <;> omega

/-- C19 on a one-pixel array.  With pixLEDs = 1 and the cursor at 0, in range,
the call `np_fill_array(60, 1)` leaves the cursor at -1, because the wrap of a
negative cursor adds pixLEDs - 1, and the next call reads `gPix[-1]`.  For every
array size from 2 to 60 the cursor stays in range under the offsets -1, 0, 1. -/
theorem np_fill_array_one_pixel_cursor_leaves_range :
    ({ initState with pixLEDs := 1 } : State).pixLEDs = 1
    ∧ ({ initState with pixLEDs := 1 } : State).pixIndex = 0
    ∧ (np_fill_array neoLEDs 1 { initState with pixLEDs := 1 }).pixIndex = -1
    ∧ (⟨Arr.gPix, -1, false⟩ : Access) ∈
        (np_fill_array neoLEDs 1 (np_fill_array neoLEDs 1 { initState with pixLEDs := 1 })).acc
    ∧ ∀ (n : Nat) (p d : Int), 2 ≤ n → n ≤ 60 → 0 ≤ p → p < n → d = -1 ∨ d = 0 ∨ d = 1 →
        0 ≤ cursor_step n d p ∧ cursor_step n d p < n := by
  have h1 : (np_fill_array neoLEDs 1 { initState with pixLEDs := 1 }).pixIndex = -1 := by
    rw [np_fill_array_pixIndex]
    decide
  have h2 : (np_fill_array neoLEDs 1 { initState with pixLEDs := 1 }).pixLEDs = 1 := by
    rw [np_fill_array_pixLEDs]
  have h3 : start_index (np_fill_array neoLEDs 1 { initState with pixLEDs := 1 }) = -1 := by
    unfold start_index
    rw [h1, h2]
    decide
  refine ⟨rfl, rfl, h1, ?_, cursor_step_in_range⟩
  have h4 := np_fill_array_first_read neoLEDs 1
    (np_fill_array neoLEDs 1 { initState with pixLEDs := 1 }) (by decide)
  rw [h3] at h4
  exact h4

/-! ## Runs of the main loop without a store outside an array

The only store outside an array that the program can make is one of the twelve
of `warmingStripes`.  On a run that has made none, every read is inside its
array too, so the run is one the C program defines. -/

theorem accOK_nil : AccOK [] := fun _ h => absurd h (List.not_mem_nil _)

theorem accOK_append {l l2 : List Access} (h : AccOK l) (h2 : AccOK l2) : AccOK (l ++ l2) := by
  intro a ha
  rcases List.mem_append.mp ha with h3 | h3
  · exact h a h3
  · exact h2 a h3

theorem accOK_left {l l2 : List Access} (h : AccOK (l ++ l2)) : AccOK l :=
  fun a ha => h a (List.mem_append_left l2 ha)

theorem storesOK_left {l l2 : List Access} (h : StoresOK (l ++ l2)) : StoresOK l :=
  fun a ha => h a (List.mem_append_left l2 ha)

theorem sineOK_of_accOK {l : List Access} (h : AccOK l) : SineOK l := by
  intro a ha hs
  have h2 := h a ha
  rw [hs] at h2
  exact h2

theorem accOK_one (arr : Arr) (i : Int) (w : Bool) (h0 : 0 ≤ i)
    (h1 : i < (arr_size arr : Int)) : AccOK [(⟨arr, i, w⟩ : Access)] := by
  intro a ha
  rw [List.mem_singleton.mp ha]
  exact ⟨h0, h1⟩

theorem accGrows_refl (s : State) : AccGrows s s := ⟨[], (List.append_nil _).symm⟩

theorem accGrows_of_eq {s s2 : State} (h : s2.acc = s.acc) : AccGrows s s2 :=
  ⟨[], by rw [h, List.append_nil]⟩

theorem accGrows_trans {s s1 s2 : State} (h1 : AccGrows s s1) (h2 : AccGrows s1 s2) :
    AccGrows s s2 := by
  obtain ⟨l1, e1⟩ := h1
  obtain ⟨l2, e2⟩ := h2
  exact ⟨l1 ++ l2, by rw [e2, e1, List.append_assoc]⟩

theorem storesOK_of_grows {s s2 : State} (h : AccGrows s s2) (h2 : StoresOK s2.acc) :
    StoresOK s.acc := by
  obtain ⟨l, e⟩ := h
  rw [e] at h2
  exact storesOK_left h2

theorem accOK_of_grows {s s2 : State} (h : AccGrows s s2) (h2 : AccOK s2.acc) :
    AccOK s.acc := by
  obtain ⟨l, e⟩ := h
  rw [e] at h2
  exact accOK_left h2

/-! ### How the routines extend the access log -/

theorem accGrows_delay_ms (n : Nat) (s : State) : AccGrows s (delay_ms n s) :=
  accGrows_of_eq rfl

theorem accGrows_button (b : Nat) (s : State) : AccGrows s (set_button b s) :=
  accGrows_of_eq rfl

theorem accGrows_buttonDelay (s : State) : AccGrows s (dec_buttonDelay s) :=
  accGrows_of_eq rfl

theorem accGrows_set_pixLEDs (v : Nat) (s : State) : AccGrows s (set_pixLEDs v s) :=
  accGrows_of_eq rfl

theorem accGrows_set_pixIndex (v : Int) (s : State) : AccGrows s (set_pixIndex v s) :=
  accGrows_of_eq rfl

theorem accGrows_random_target (i : Input) (s : State) : AccGrows s (random_target i s) :=
  accGrows_of_eq rfl

theorem colour_bump_acc (s : State) : (colour_bump s).acc = s.acc := by
  unfold colour_bump
  split_ifs <;> rfl

theorem mode_advance_acc (s : State) : (mode_advance s).acc = s.acc := by
  obtain ⟨l, bt, t, h⟩ := mode_advance_frame s
  rw [h]

theorem np_crossfade_acc (leds : Nat) (s : State) : (np_crossfade leds s).acc = s.acc := by
  obtain ⟨t, h⟩ := np_crossfade_frame leds s
  rw [h]

theorem np_gamma_fill_acc (leds : Nat) (s : State) :
    (np_gamma_fill leds s).acc = s.acc ++
      (List.replicate leds [(⟨Arr.gamma, s.gVal, false⟩ : Access),
        ⟨Arr.gamma, s.rVal, false⟩, ⟨Arr.gamma, s.bVal, false⟩,
        ⟨Arr.gamma, s.wVal, false⟩]).flatten := by
  rw [np_gamma_fill_eq]

theorem accGrows_np_fill_array (leds : Nat) (offset : Int) (s : State) :
    AccGrows s (np_fill_array leds offset s) := by
  obtain ⟨l, h⟩ := np_fill_array_loop_acc_grows leds { s with pixIndex := start_index s }
  exact ⟨l, by rw [np_fill_array_acc_loop, h]⟩

theorem accGrows_rainbow_frame (s : State) : AccGrows s (rainbow_frame s) := by
  obtain ⟨l, h, _, _⟩ := rainbow_frame_reads s
  exact ⟨l, h⟩

theorem accGrows_mode_frame (i : Input) (s : State) : AccGrows s (mode_frame i s) := by
  unfold mode_frame
  split_ifs
  · exact accGrows_delay_ms _ s
  · exact accGrows_rainbow_frame s
  · exact accGrows_trans (accGrows_np_fill_array _ _ s) (accGrows_delay_ms _ _)
  · exact accGrows_trans (accGrows_np_fill_array _ _ s) (accGrows_delay_ms _ _)
  · exact accGrows_trans (accGrows_trans (accGrows_random_target i s)
      (accGrows_of_eq (np_crossfade_acc _ _))) (accGrows_delay_ms _ _)
  · exact accGrows_trans ⟨_, np_gamma_fill_acc _ s⟩ (accGrows_delay_ms _ _)
  · exact accGrows_refl s

theorem accOK_set_rPix (i : Nat) (v : Nat) (s : State) (hi : i < 60) (h : AccOK s.acc) :
    AccOK (set_rPix i v s).acc :=
  accOK_append h (accOK_one Arr.rPix i true (Int.natCast_nonneg i) (by
    show (i : Int) < ((60 : Nat) : Int)
    exact_mod_cast hi))

theorem accOK_set_gPix (i : Nat) (v : Nat) (s : State) (hi : i < 60) (h : AccOK s.acc) :
    AccOK (set_gPix i v s).acc :=
  accOK_append h (accOK_one Arr.gPix i true (Int.natCast_nonneg i) (by
    show (i : Int) < ((60 : Nat) : Int)
    exact_mod_cast hi))

theorem accOK_set_bPix (i : Nat) (v : Nat) (s : State) (hi : i < 60) (h : AccOK s.acc) :
    AccOK (set_bPix i v s).acc :=
  accOK_append h (accOK_one Arr.bPix i true (Int.natCast_nonneg i) (by
    show (i : Int) < ((60 : Nat) : Int)
    exact_mod_cast hi))

theorem accOK_set_pixel (i : Nat) (vr vg vb : Nat) (s : State) (hi : i < 60)
    (h : AccOK s.acc) : AccOK (set_bPix i vb (set_gPix i vg (set_rPix i vr s))).acc :=
  accOK_set_bPix i _ _ hi (accOK_set_gPix i _ _ hi (accOK_set_rPix i _ _ hi h))

theorem accOK_blob_shape (s : State) (h : AccOK s.acc) : AccOK (blob_shape s).acc := by
  unfold blob_shape
  exact accOK_set_pixel 6 _ _ _ _ (by decide) (accOK_set_pixel 5 _ _ _ _ (by decide)
    (accOK_set_pixel 4 _ _ _ _ (by decide) (accOK_set_pixel 3 _ _ _ _ (by decide)
    (accOK_set_pixel 2 _ _ _ _ (by decide) (accOK_set_pixel 1 _ _ _ _ (by decide)
    (accOK_set_pixel 0 _ _ _ _ (by decide) h))))))

theorem accOK_blob_loop (fuel : Nat) (s : State) (hl : s.leds ≤ 24) (h : AccOK s.acc) :
    AccOK (blob_loop fuel s).acc := by
  induction fuel generalizing s with
  | zero => exact h
  | succ n ih =>
    by_cases he : s.leds = 24
    · rw [blob_loop_done _ s he]; exact h
    · rw [blob_loop_step n s he]
      have hi : s.leds < 60 := by omega
      refine ih _ (by show (s.leds + 1) % 256 ≤ 24; omega) ?_
      refine accOK_append h ?_
      intro a ha
      simp only [List.mem_cons, List.mem_singleton, List.not_mem_nil, or_false] at ha
      rcases ha with e | e | e <;> rw [e] <;>
        exact ⟨Int.natCast_nonneg _, by show (s.leds : Int) < ((60 : Nat) : Int); exact_mod_cast hi⟩

theorem accOK_with_leds (v : Nat) (s : State) (h : AccOK s.acc) :
    AccOK ({ s with leds := v } : State).acc := h

theorem accOK_with_wVal (v : Nat) (s : State) (h : AccOK s.acc) :
    AccOK ({ s with wVal := v } : State).acc := h

theorem accOK_blob (s : State) (h : AccOK s.acc) : AccOK (blob s).acc := by
  rw [blob]
  exact accOK_with_wVal 0 _ (accOK_blob_loop 256 _ (le_of_eq (with_leds_pix 7 _).2.2.2 |>.trans
    (by decide)) (accOK_with_leds 7 _ (accOK_blob_shape s h)))

theorem accGrows_blob_loop (fuel : Nat) (s : State) : AccGrows s (blob_loop fuel s) := by
  induction fuel generalizing s with
  | zero => exact accGrows_refl s
  | succ n ih =>
    by_cases he : s.leds = 24
    · rw [blob_loop_done _ s he]; exact accGrows_refl s
    · rw [blob_loop_step n s he]
      exact accGrows_trans ⟨_, rfl⟩ (ih _)

theorem accGrows_set_pixel (i : Int) (vr vg vb : Nat) (s : State) :
    AccGrows s (set_bPix i vb (set_gPix i vg (set_rPix i vr s))) :=
  ⟨[⟨Arr.rPix, i, true⟩, ⟨Arr.gPix, i, true⟩, ⟨Arr.bPix, i, true⟩], by
    simp [set_rPix, set_gPix, set_bPix, touch]⟩

theorem accGrows_blob_shape (s : State) : AccGrows s (blob_shape s) := by
  unfold blob_shape
  exact accGrows_trans (accGrows_trans (accGrows_trans (accGrows_trans (accGrows_trans
    (accGrows_trans (accGrows_set_pixel 0 _ _ _ s) (accGrows_set_pixel 1 _ _ _ _))
    (accGrows_set_pixel 2 _ _ _ _)) (accGrows_set_pixel 3 _ _ _ _))
    (accGrows_set_pixel 4 _ _ _ _)) (accGrows_set_pixel 5 _ _ _ _))
    (accGrows_set_pixel 6 _ _ _ _)

theorem accGrows_with_leds (v : Nat) (s : State) : AccGrows s ({ s with leds := v } : State) :=
  accGrows_of_eq rfl

theorem accGrows_with_wVal (v : Nat) (s : State) : AccGrows s ({ s with wVal := v } : State) :=
  accGrows_of_eq rfl

theorem accGrows_blob (s : State) : AccGrows s (blob s) := by
  rw [blob]
  exact accGrows_trans (accGrows_trans (accGrows_trans (accGrows_blob_shape s)
    (accGrows_with_leds 7 _)) (accGrows_blob_loop 256 _)) (accGrows_with_wVal 0 _)

theorem accGrows_warmingStripes (s : State) : AccGrows s (warmingStripes s) :=
  ⟨_, warmingStripes_acc s⟩

theorem np_off_acc (s : State) : (np_off s).acc = s.acc := by
  rw [np_off_eq]

theorem set_phases_acc (s : State) : (set_phases s).acc = s.acc := rfl

theorem accGrows_main_init (s : State) : AccGrows s (main_init s) := by
  rw [main_init]
  have h1 : AccGrows s (delay_us 200 (H1OUT false s)) := accGrows_of_eq rfl
  exact accGrows_trans (accGrows_trans (accGrows_trans (accGrows_trans h1
    (accGrows_of_eq (np_off_acc _))) (accGrows_of_eq (set_phases_acc _)))
    (accGrows_blob _)) (accGrows_set_pixLEDs 24 _)

theorem accGrows_reboot (s : State) : AccGrows s (reboot s) := by
  obtain ⟨l, h⟩ := accGrows_main_init { initState with trace := s.trace, acc := s.acc }
  exact ⟨l, h⟩

theorem set_pixLEDs_acc (v : Nat) (s : State) : (set_pixLEDs v s).acc = s.acc := rfl

theorem set_pixIndex_acc (v : Int) (s : State) : (set_pixIndex v s).acc = s.acc := rfl

theorem accOK_main_init (s : State) (h : AccOK s.acc) : AccOK (main_init s).acc := by
  rw [main_init, set_pixLEDs_acc]
  have h1 : AccOK (delay_us 200 (H1OUT false s)).acc := h
  have h2 : AccOK (set_phases (np_off (delay_us 200 (H1OUT false s)))).acc := by
    rw [set_phases_acc, np_off_acc]; exact h1
  exact accOK_blob _ h2

/-! ### The forms a tick can take -/

theorem tick_other (i : Input) (s : State) (hm : ¬ s.mode ≤ 5) : tick i s = s := by
  unfold tick pass
  split_ifs <;>
    first
    | rfl
    | (exfalso
       simp only [OFF_MODE, RAINBOW_MODE, IONGUN_MODE, WARMINGSTRIPES_MODE, RANDOM_MODE,
         COLOUR_MODE] at *
       omega)

theorem tick_cases (i : Input) (s : State) (hm : s.mode ≤ 5) :
    tick i s = reboot s
    ∨ tick i s = dec_buttonDelay (mode_frame i s)
    ∨ (∃ b, tick i s = mode_exit s.mode (set_button b (mode_frame i s)))
    ∨ (∃ b, tick i s = mode_exit s.mode (set_button b (mode_advance (mode_frame i s)))) := by
  cases hp : pass i s with
  | none =>
    left
    unfold tick
    rw [hp]
  | some s2 =>
    have e : tick i s = s2 := tick_of_pass i s s2 hp
    rw [pass_eq_poll i s hm] at hp
    rcases poll_then_some _ i _ s2 hp with ⟨b, h⟩ | ⟨b, h⟩ | h
    · exact Or.inr (Or.inr (Or.inl ⟨b, e.trans h⟩))
    · exact Or.inr (Or.inr (Or.inr ⟨b, e.trans h⟩))
    · exact Or.inr (Or.inl (e.trans h))

theorem mode_exit_cases (m : Nat) (y : State) :
    mode_exit m y = y
    ∨ mode_exit m y = colour_bump y
    ∨ (m = RAINBOW_MODE ∧ y.mode ≠ RAINBOW_MODE ∧ mode_exit m y = set_pixLEDs 24 (blob y))
    ∨ (m = IONGUN_MODE ∧ y.mode ≠ IONGUN_MODE
        ∧ mode_exit m y = set_pixIndex 0 (set_pixLEDs 60 (warmingStripes y))) := by
  unfold mode_exit
  split_ifs with h1 h2 h3
  · by_cases hy : y.mode ≠ RAINBOW_MODE
    · exact Or.inr (Or.inr (Or.inl ⟨h1, hy, by unfold rainbow_exit; rw [if_pos hy]⟩))
    · exact Or.inl (by unfold rainbow_exit; rw [if_neg hy])
  · by_cases hy : y.mode ≠ IONGUN_MODE
    · exact Or.inr (Or.inr (Or.inr ⟨h2, hy, by unfold iongun_exit; rw [if_pos hy]⟩))
    · exact Or.inl (by unfold iongun_exit; rw [if_neg hy])
  · exact Or.inr (Or.inl rfl)
  · exact Or.inl rfl

theorem mode_exit_iongun (y : State) (hy : y.mode ≠ IONGUN_MODE) :
    mode_exit IONGUN_MODE y = set_pixIndex 0 (set_pixLEDs 60 (warmingStripes y)) := by
  unfold mode_exit iongun_exit
  rw [if_neg (by decide), if_pos rfl, if_pos hy]

theorem stray_store (y : State) :
    ¬ StoresOK (set_pixIndex 0 (set_pixLEDs 60 (warmingStripes y))).acc := by
  intro h
  rw [set_pixIndex_acc, set_pixLEDs_acc] at h
  have h2 := h _ (warmingStripes_store_logged y 60 (by decide)).1 rfl
  exact absurd h2.2 (by decide)

theorem accGrows_mode_exit (m : Nat) (y : State) : AccGrows y (mode_exit m y) := by
  rcases mode_exit_cases m y with c | c | ⟨_, _, c⟩ | ⟨_, _, c⟩ <;> rw [c]
  · exact accGrows_refl y
  · exact accGrows_of_eq (colour_bump_acc y)
  · exact accGrows_trans (accGrows_blob y) (accGrows_set_pixLEDs 24 _)
  · exact accGrows_trans (accGrows_trans (accGrows_warmingStripes y)
      (accGrows_set_pixLEDs 60 _)) (accGrows_set_pixIndex 0 _)

theorem accGrows_tick (i : Input) (s : State) : AccGrows s (tick i s) := by
  by_cases hm : s.mode ≤ 5
  · have hX := accGrows_mode_frame i s
    rcases tick_cases i s hm with e | e | ⟨b, e⟩ | ⟨b, e⟩ <;> rw [e]
    · exact accGrows_reboot s
    · exact accGrows_trans hX (accGrows_buttonDelay _)
    · exact accGrows_trans (accGrows_trans hX (accGrows_button b _)) (accGrows_mode_exit _ _)
    · exact accGrows_trans (accGrows_trans (accGrows_trans hX
        (accGrows_of_eq (mode_advance_acc _))) (accGrows_button b _)) (accGrows_mode_exit _ _)
  · rw [tick_other i s hm]
    exact accGrows_refl s

theorem accGrows_foldl (inputs : List Input) (s : State) :
    AccGrows s (inputs.foldl (fun s i => tick i s) s) := by
  induction inputs generalizing s with
  | nil => exact accGrows_refl s
  | cons i rest ih => exact accGrows_trans (accGrows_tick i s) (ih _)

/-! ### The cursor -/

theorem cursorOK_same {s s2 : State} (h : CursorOK s) (e : SameCur s s2) : CursorOK s2 := by
  obtain ⟨h1, h2, h3⟩ := e
  unfold CursorOK at *
  rw [h1, h2, h3]
  exact h

theorem cursorOK_main_init (s : State) (h0 : s.pixIndex = 0) : CursorOK (main_init s) := by
  obtain ⟨e1, e2, e3⟩ := main_init_cur s
  unfold CursorOK
  rw [e1, e2, h0]
  exact ⟨le_refl 0, by decide, Or.inl rfl, fun _ => rfl⟩

theorem cursorOK_reboot (s : State) : CursorOK (reboot s) :=
  cursorOK_main_init _ rfl

theorem cursorOK_powerOn : CursorOK powerOn :=
  cursorOK_main_init _ rfl

theorem cursorOK_fill_scroll (s : State) (h : CursorOK s) (hm : s.mode = IONGUN_MODE) :
    CursorOK (np_fill_array neoLEDs 1 s) := by
  obtain ⟨h0, h1, h2, h3⟩ := h
  have hn : 2 ≤ s.pixLEDs ∧ s.pixLEDs ≤ 60 := by omega
  unfold CursorOK
  rw [np_fill_array_pixIndex, np_fill_array_pixLEDs, np_fill_array_mode]
  obtain ⟨r0, r1⟩ := cursor_step_in_range s.pixLEDs s.pixIndex 1 hn.1 hn.2 h0 h1
    (Or.inr (Or.inr rfl))
  exact ⟨r0, r1, h2, fun hne => absurd hm hne⟩

theorem cursorOK_fill_static (s : State) (h : CursorOK s) :
    CursorOK (np_fill_array neoLEDs 0 s) := by
  obtain ⟨h0, h1, h2, h3⟩ := h
  unfold CursorOK
  rw [np_fill_array_pixIndex, np_fill_array_pixLEDs, np_fill_array_mode,
    cursor_step_zero s.pixLEDs s.pixIndex h0 h1 (by omega)]
  exact ⟨h0, h1, h2, h3⟩

theorem cursorOK_mode_frame (i : Input) (s : State) (h : CursorOK s) :
    CursorOK (mode_frame i s) := by
  unfold mode_frame
  split_ifs with m0 m1 m2 m3 m4 m5
  · exact cursorOK_same h (sameCur_delay_ms _ s)
  · exact cursorOK_same h (sameCur_rainbow_frame s)
  · exact cursorOK_same (cursorOK_fill_scroll s h m2) (sameCur_delay_ms _ _)
  · exact cursorOK_same (cursorOK_fill_static s h) (sameCur_delay_ms _ _)
  · exact cursorOK_same h (sameCur_trans (sameCur_trans (sameCur_random_target i s)
      (sameCur_np_crossfade _ _)) (sameCur_delay_ms _ _))
  · exact cursorOK_same h (sameCur_trans (sameCur_np_gamma_fill _ s) (sameCur_delay_ms _ _))
  · exact h

theorem cursorOK_at_zero (y : State) (h0 : y.pixIndex = 0)
    (hl : y.pixLEDs = 24 ∨ y.pixLEDs = 60) : CursorOK y := by
  unfold CursorOK
  rw [h0]
  exact ⟨le_refl 0, by omega, hl, fun _ => rfl⟩

theorem cursorOK_mode_exit (m : Nat) (y : State) (h : CursorOK y)
    (hr : m = RAINBOW_MODE → y.pixIndex = 0) (hi : m ≠ IONGUN_MODE ∨ y.mode = IONGUN_MODE) :
    CursorOK (mode_exit m y) := by
  rcases mode_exit_cases m y with c | c | ⟨c1, _, c⟩ | ⟨c1, c2, _⟩
  · rw [c]; exact h
  · rw [c]; exact cursorOK_same h (sameCur_colour_bump y)
  · rw [c]
    apply cursorOK_at_zero
    · rw [(set_pixLEDs_cur 24 _).1, (sameCur_blob y).1]; exact hr c1
    · exact Or.inl (set_pixLEDs_cur 24 _).2.1
  · rcases hi with e | e
    · exact absurd c1 e
    · exact absurd e c2

/-- One tick keeps the cursor invariant, from any state; in ion gun mode this
needs that the tick makes no store outside an array. -/
theorem cursorOK_tick (i : Input) (s : State) (h : CursorOK s)
    (hs : s.mode = IONGUN_MODE → StoresOK (tick i s).acc) : CursorOK (tick i s) := by
  by_cases hm : s.mode ≤ 5
  · have hX := cursorOK_mode_frame i s h
    have eX : (mode_frame i s).mode = s.mode := (sameKey_mode_frame i s).1
    rcases tick_cases i s hm with e | e | ⟨b, e⟩ | ⟨b, e⟩
    · rw [e]; exact cursorOK_reboot s
    · rw [e]; exact cursorOK_same hX (sameCur_buttonDelay _)
    · rw [e]
      have hy : CursorOK (set_button b (mode_frame i s)) := cursorOK_same hX (sameCur_button b _)
      apply cursorOK_mode_exit _ _ hy
      · intro hr
        rw [(sameCur_button b _).1]
        exact hX.2.2.2 (by rw [eX, hr]; decide)
      · by_cases h2 : s.mode = IONGUN_MODE
        · exact Or.inr (by rw [(sameCur_button b _).2.2, eX, h2])
        · exact Or.inl h2
    · by_cases h2 : s.mode = IONGUN_MODE
      · have hy : (set_button b (mode_advance (mode_frame i s))).mode ≠ IONGUN_MODE := by
          rw [(sameCur_button b _).2.2, (mode_advance_cur _).2.2, eX, h2]
          decide
        have hs2 := hs h2
        rw [e, h2, mode_exit_iongun _ hy] at hs2
        exact absurd hs2 (stray_store _)
      · have hz : (mode_frame i s).pixIndex = 0 := hX.2.2.2 (by rw [eX]; exact h2)
        have hy0 : (set_button b (mode_advance (mode_frame i s))).pixIndex = 0 := by
          rw [(sameCur_button b _).1, (mode_advance_cur _).1, hz]
        have hyl : (set_button b (mode_advance (mode_frame i s))).pixLEDs = 24
            ∨ (set_button b (mode_advance (mode_frame i s))).pixLEDs = 60 := by
          rw [(sameCur_button b _).2.1, (mode_advance_cur _).2.1]
          exact hX.2.2.1
        rw [e]
        exact cursorOK_mode_exit _ _ (cursorOK_at_zero _ hy0 hyl) (fun _ => hy0) (Or.inl h2)
  · rw [tick_other i s hm]
    exact h

/-! ### Phases, colour bytes and accesses -/

theorem toU8_lt (x : Int) : toU8 x < 256 := by
  unfold toU8
  omega

theorem rest_delay_ms (n : Nat) (s : State) (h : Rest s) : Rest (delay_ms n s) := h

theorem rest_button (b : Nat) (s : State) (h : Rest s) : Rest (set_button b s) := h

theorem rest_buttonDelay (s : State) (h : Rest s) : Rest (dec_buttonDelay s) := h

theorem rest_set_pixLEDs (v : Nat) (s : State) (h : Rest s) : Rest (set_pixLEDs v s) := h

theorem rest_mode_advance (s : State) (h : Rest s) : Rest (mode_advance s) := by
  obtain ⟨l, bt, t, e⟩ := mode_advance_frame s
  rw [e]
  exact h

theorem rest_colour_bump (s : State) (h : Rest s) : Rest (colour_bump s) := by
  obtain ⟨hp, hb, ha⟩ := h
  obtain ⟨b1, b2, b3, b4, b5, b6, b7, b8⟩ := hb
  unfold colour_bump
  split_ifs
  · exact ⟨hp, ⟨Nat.mod_lt _ (by decide), b2, b3, b4, b5, b6, b7, b8⟩, ha⟩
  · exact ⟨hp, ⟨b1, Nat.mod_lt _ (by decide), b3, b4, b5, b6, b7, b8⟩, ha⟩
  · exact ⟨hp, ⟨b1, b2, Nat.mod_lt _ (by decide), b4, b5, b6, b7, b8⟩, ha⟩
  · exact ⟨hp, ⟨b1, b2, b3, b4, b5, b6, b7, b8⟩, ha⟩

theorem bytes_blob (s : State) (h : Bytes s) : Bytes (blob s) := by
  obtain ⟨b1, b2, b3, b4, b5, b6, b7, b8⟩ := h
  obtain ⟨r, g, b, l, a, e⟩ := blob_frame s
  rw [e]
  exact ⟨b1, b2, b3, show 0 < 256 by decide, b5, b6, b7, b8⟩

theorem rest_blob (s : State) (h : Rest s) : Rest (blob s) :=
  ⟨phaseInv_same h.1 (samePhase_blob s), bytes_blob s h.2.1, accOK_blob s h.2.2⟩

theorem bytes_main_init (s : State) (h : Bytes s) : Bytes (main_init s) := by
  obtain ⟨b1, b2, b3, b4, b5, b6, b7, b8⟩ := h
  obtain ⟨r, g, b, l, a, t, e⟩ := main_init_frame s
  rw [e]
  exact ⟨b1, b2, b3, show 0 < 256 by decide, b5, b6, b7, b8⟩

theorem rest_main_init (s : State) (hb : Bytes s) (ha : AccOK s.acc) : Rest (main_init s) :=
  ⟨phaseInv_main_init s (sineOK_of_accOK ha), bytes_main_init s hb, accOK_main_init s ha⟩

theorem bytes_start (t : List Ev) (a : List Access) :
    Bytes { initState with trace := t, acc := a } :=
  ⟨show 64 < 256 by decide, show 32 < 256 by decide, show 128 < 256 by decide,
    show 0 < 256 by decide, show 0 < 256 by decide, show 0 < 256 by decide,
    show 0 < 256 by decide, show 0 < 256 by decide⟩

theorem rest_reboot (s : State) (h : Rest s) : Rest (reboot s) :=
  rest_main_init _ (bytes_start _ _) h.2.2

theorem rest_powerOn : Rest powerOn :=
  rest_main_init _ (bytes_start [] []) accOK_nil

theorem rest_crossfade (i : Input) (s : State) (h : Rest s) :
    Rest (np_crossfade neoLEDs (random_target i s)) := by
  obtain ⟨hp, hb, ha⟩ := h
  obtain ⟨b1, b2, b3, b4, b5, b6, b7, b8⟩ := hb
  obtain ⟨⟨c1, c2, c3, c4⟩, ⟨c5, c6, c7, c8⟩⟩ := np_crossfade_colours neoLEDs (random_target i s)
  refine ⟨phaseInv_same hp (samePhase_trans (samePhase_random_target i s)
    (samePhase_np_crossfade _ _)), ?_, ?_⟩
  · unfold Bytes
    rw [c1, c2, c3, c4, c5, c6, c7, c8]
    exact ⟨toU8_lt _, toU8_lt _, toU8_lt _, b8, toU8_lt _, toU8_lt _, toU8_lt _, b8⟩
  · rw [np_crossfade_acc]
    exact ha

theorem rest_gamma_fill (s : State) (h : Rest s) : Rest (np_gamma_fill neoLEDs s) := by
  obtain ⟨hp, hb, ha⟩ := h
  refine ⟨phaseInv_same hp (samePhase_np_gamma_fill _ s), ?_, ?_⟩
  · rw [np_gamma_fill_eq]
    exact hb
  · rw [np_gamma_fill_acc]
    refine accOK_append ha ?_
    obtain ⟨b1, b2, b3, b4, _⟩ := hb
    intro a h1
    obtain ⟨l, hl, hal⟩ := List.mem_flatten.mp h1
    rw [List.eq_of_mem_replicate hl] at hal
    simp only [List.mem_cons, List.mem_singleton, List.not_mem_nil, or_false] at hal
    rcases hal with e | e | e | e <;> rw [e] <;>
      refine ⟨Int.natCast_nonneg _, ?_⟩ <;>
      (show ((_ : Nat) : Int) < ((256 : Nat) : Int)) <;> exact_mod_cast (by assumption)

theorem delay_ms_vals (n : Nat) (s : State) :
    (delay_ms n s).rVal = s.rVal ∧ (delay_ms n s).gVal = s.gVal
    ∧ (delay_ms n s).bVal = s.bVal := ⟨rfl, rfl, rfl⟩

theorem rainbow_advance_vals (s : State) :
    (rainbow_advance s).rVal = s.rVal ∧ (rainbow_advance s).gVal = s.gVal
    ∧ (rainbow_advance s).bVal = s.bVal := ⟨rfl, rfl, rfl⟩

theorem rainbow_frame_vals (s : State) (h : PhaseInv s) :
    (rainbow_frame s).rVal < 180 ∧ (rainbow_frame s).gVal < 180
    ∧ (rainbow_frame s).bVal < 180 := by
  obtain ⟨hg, hr, hb, _⟩ := runningOK_loop neoLEDs
    (runningOK_set_leds neoLEDs (runningOK_load h))
  obtain ⟨d1, d2, d3⟩ := delay_ms_vals neoDel
    (rainbow_advance (rainbow_loop neoLEDs (set_leds neoLEDs (rainbow_load s))))
  obtain ⟨a1, a2, a3⟩ := rainbow_advance_vals
    (rainbow_loop neoLEDs (set_leds neoLEDs (rainbow_load s)))
  rw [rainbow_frame, d1, d2, d3, a1, a2, a3]
  exact ⟨hr, hg, hb⟩

theorem rest_rainbow_frame (s : State) (h : Rest s) : Rest (rainbow_frame s) := by
  obtain ⟨hp, hb, ha⟩ := h
  obtain ⟨b1, b2, b3, b4, b5, b6, b7, b8⟩ := hb
  have hp2 := phaseInv_rainbow_frame hp
  obtain ⟨v1, v2, v3⟩ := rainbow_frame_vals s hp
  obtain ⟨r, g, b, l, bt, t, a, hf⟩ := rainbow_frame_frame s
  have e4 : (rainbow_frame s).wVal = s.wVal := by rw [hf]
  have e5 : (rainbow_frame s).rVal2 = s.rVal2 := by rw [hf]
  have e6 : (rainbow_frame s).gVal2 = s.gVal2 := by rw [hf]
  have e7 : (rainbow_frame s).bVal2 = s.bVal2 := by rw [hf]
  have e8 : (rainbow_frame s).wVal2 = s.wVal2 := by rw [hf]
  refine ⟨hp2, ?_, ?_⟩
  · unfold Bytes
    rw [e4, e5, e6, e7, e8]
    exact ⟨by omega, by omega, by omega, b4, b5, b6, b7, b8⟩
  · obtain ⟨l2, el, _, hl⟩ := rainbow_frame_reads s
    have hs := hp2.2.2.2
    rw [el] at hs ⊢
    refine accOK_append ha ?_
    intro x hx
    have h1 := hs x (List.mem_append_right _ hx) (hl x hx).1
    rw [(hl x hx).1]
    exact h1

theorem accOK_np_fill_array_loop (leds : Nat) (s : State) (h0 : 0 ≤ s.pixIndex)
    (h1 : s.pixIndex < (s.pixLEDs : Int)) (h2 : s.pixLEDs ≤ 60) (ha : AccOK s.acc) :
    AccOK (np_fill_array_loop leds s).acc := by
  induction leds generalizing s with
  | zero => exact ha
  | succ n ih =>
    rw [np_fill_array_loop]
    simp only [np_shift_eq, touch]
    have hi : s.pixIndex < ((60 : Nat) : Int) := by omega
    have h3 : AccOK (s.acc ++ [(⟨Arr.gPix, s.pixIndex, false⟩ : Access)] ++
        [(⟨Arr.rPix, s.pixIndex, false⟩ : Access)] ++
        [(⟨Arr.bPix, s.pixIndex, false⟩ : Access)]) :=
      accOK_append (accOK_append (accOK_append ha (accOK_one _ _ _ h0 hi))
        (accOK_one _ _ _ h0 hi)) (accOK_one _ _ _ h0 hi)
    have hw : toS8 (s.pixIndex + 1) = s.pixIndex + 1 := by
      unfold toS8
      omega
    split
    · exact ih _ (le_refl 0) (by show (0 : Int) < (s.pixLEDs : Int); omega) h2 h3
    · exact ih _ (by show 0 ≤ toS8 (s.pixIndex + 1); omega)
        (by show toS8 (s.pixIndex + 1) < (s.pixLEDs : Int); omega) h2 h3

theorem rest_np_fill_array (offset : Int) (s : State) (h : Rest s) (hc : CursorOK s) :
    Rest (np_fill_array neoLEDs offset s) := by
  obtain ⟨hp, hb, ha⟩ := h
  obtain ⟨c0, c1, c2, _⟩ := hc
  refine ⟨phaseInv_same hp (samePhase_np_fill_array _ _ s), ?_, ?_⟩
  · obtain ⟨b, t, a, e⟩ := np_fill_array_frame neoLEDs offset s
    rw [e]
    exact hb
  · rw [np_fill_array_acc_loop]
    have hs : start_index s = s.pixIndex := by
      unfold start_index
      rw [if_neg (by omega)]
    refine accOK_np_fill_array_loop neoLEDs { s with pixIndex := start_index s } ?_ ?_ ?_ ha
    · show 0 ≤ start_index s
      rw [hs]; exact c0
    · show start_index s < (s.pixLEDs : Int)
      rw [hs]; exact c1
    · show s.pixLEDs ≤ 60
      omega

theorem rest_mode_frame (i : Input) (s : State) (h : Rest s) (hc : CursorOK s) :
    Rest (mode_frame i s) := by
  unfold mode_frame
  split_ifs
  · exact rest_delay_ms _ s h
  · exact rest_rainbow_frame s h
  · exact rest_delay_ms _ _ (rest_np_fill_array 1 s h hc)
  · exact rest_delay_ms _ _ (rest_np_fill_array 0 s h hc)
  · exact rest_delay_ms _ _ (rest_crossfade i s h)
  · exact rest_delay_ms _ _ (rest_gamma_fill s h)
  · exact h

theorem rest_mode_exit (m : Nat) (y : State) (h : Rest y)
    (hs : m = IONGUN_MODE → StoresOK (mode_exit m y).acc) : Rest (mode_exit m y) := by
  rcases mode_exit_cases m y with c | c | ⟨_, _, c⟩ | ⟨c1, _, c⟩
  · rw [c]; exact h
  · rw [c]; exact rest_colour_bump y h
  · rw [c]; exact rest_set_pixLEDs 24 _ (rest_blob y h)
  · have h2 := hs c1
    rw [c] at h2
    exact absurd h2 (stray_store y)

/-- One tick keeps phases, colour bytes and accesses in range; in ion gun mode
this needs that the tick makes no store outside an array. -/
theorem rest_tick (i : Input) (s : State) (h : Rest s) (hc : CursorOK s)
    (hs : s.mode = IONGUN_MODE → StoresOK (tick i s).acc) : Rest (tick i s) := by
  by_cases hm : s.mode ≤ 5
  · have hX := rest_mode_frame i s h hc
    rcases tick_cases i s hm with e | e | ⟨b, e⟩ | ⟨b, e⟩
    · rw [e]; exact rest_reboot s h
    · rw [e]; exact rest_buttonDelay _ hX
    · rw [e]
      exact rest_mode_exit _ _ (rest_button b _ hX) (fun h2 => by rw [← e]; exact hs h2)
    · rw [e]
      exact rest_mode_exit _ _ (rest_button b _ (rest_mode_advance _ hX))
        (fun h2 => by rw [← e]; exact hs h2)
  · rw [tick_other i s hm]
    exact h

theorem safe_foldl (inputs : List Input) :
    ∀ s : State, CursorOK s → Rest s → StoresOK (inputs.foldl (fun s i => tick i s) s).acc →
      CursorOK (inputs.foldl (fun s i => tick i s) s)
      ∧ Rest (inputs.foldl (fun s i => tick i s) s) := by
  induction inputs with
  | nil => intro s hc hr _; exact ⟨hc, hr⟩
  | cons i rest ih =>
    intro s hc hr hs
    rw [List.foldl_cons] at hs ⊢
    have h1 : StoresOK (tick i s).acc := storesOK_of_grows (accGrows_foldl rest _) hs
    exact ih _ (cursorOK_tick i s hc (fun _ => h1)) (rest_tick i s hr hc (fun _ => h1)) hs

theorem sameKey_mode_exit_ne (m : Nat) (y : State) (hm : m ≠ IONGUN_MODE) :
    SameKey y (mode_exit m y) := by
  unfold mode_exit
  split_ifs
  · exact sameKey_rainbow_exit y
  · exact sameKey_colour_bump y
  · exact sameKey_refl y

theorem tick_press_key (i : Input) (s : State) (hm : s.mode ≤ 5) (hne : s.mode ≠ IONGUN_MODE)
    (h0 : s.buttonDelay = 0) (h1 : i.SW1 ≠ 0) (h2 : i.SW2 = 0) :
    (tick i s).mode = next_mode s.mode
    ∧ (tick i s).buttonDelay = if next_mode s.mode = RANDOM_MODE then 1 else 25 := by
  obtain ⟨x1, x2, _⟩ := sameKey_mode_exit_ne s.mode
    (set_button (i.junk % 256) (mode_advance (mode_frame i s))) hne
  obtain ⟨b1, b2⟩ := set_button_key (i.junk % 256) (mode_advance (mode_frame i s))
  obtain ⟨a1, a2⟩ := mode_advance_key (mode_frame i s)
  rw [tick_press i s hm h0 h1 h2, x1, x2, b1, b2, a1, a2, (sameKey_mode_frame i s).1]
  exact ⟨rfl, rfl⟩

theorem mode_frame_rainbow (i : Input) (s : State) (hm : s.mode = RAINBOW_MODE) :
    mode_frame i s = rainbow_frame s := by
  unfold mode_frame
  rw [if_neg (by rw [hm]; decide), if_pos hm]

theorem mode_exit_rainbow (y : State) : mode_exit RAINBOW_MODE y = rainbow_exit y := by
  unfold mode_exit
  rw [if_pos rfl]

theorem mode_exit_rainbow_fn : mode_exit RAINBOW_MODE = rainbow_exit := by
  unfold mode_exit
  rw [if_pos rfl]

theorem rainbow_exit_stay (y : State) (hy : y.mode = RAINBOW_MODE) : rainbow_exit y = y := by
  unfold rainbow_exit
  rw [if_neg (fun h => h hy)]

/-- Every tick that starts in rainbow mode, whatever the buttons, keeps the
phase counters below 180 and the reads of the sine table inside the table. -/
theorem phaseInv_rainbow_tick (i : Input) (s : State) (hm : s.mode = RAINBOW_MODE)
    (h : PhaseInv s) : PhaseInv (tick i s) := by
  have hX : PhaseInv (rainbow_frame s) := phaseInv_rainbow_frame h
  rcases tick_cases i s (by rw [hm]; decide) with e | e | ⟨b, e⟩ | ⟨b, e⟩
  · rw [e]; exact phaseInv_reboot s h
  · rw [e, mode_frame_rainbow i s hm]
    exact phaseInv_same hX (samePhase_buttonDelay _)
  · rw [e, mode_frame_rainbow i s hm, hm, mode_exit_rainbow]
    exact phaseInv_same (phaseInv_same hX (samePhase_button b _)) (samePhase_rainbow_exit _)
  · rw [e, mode_frame_rainbow i s hm, hm, mode_exit_rainbow]
    exact phaseInv_same (phaseInv_same (phaseInv_same hX (samePhase_mode_advance _))
      (samePhase_button b _)) (samePhase_rainbow_exit _)

theorem poll_then_idle (after : State → State) (i : Input) (s : State)
    (h1 : i.SW1 ≠ 0) (h2 : i.SW2 ≠ 0) :
    poll_then after i s = some (dec_buttonDelay s)
    ∨ ∃ b, poll_then after i s = some (after (set_button b s)) := by
  unfold poll_then read_button
  rw [if_neg h1, if_neg h2]
  by_cases h0 : s.buttonDelay = 0
  · right
    rw [if_pos h0]
    split_ifs
    · exact ⟨RBUTTON, rfl⟩
    · exact ⟨GBUTTON, rfl⟩
    · exact ⟨BBUTTON, rfl⟩
    · exact ⟨NOBUTTON, rfl⟩
  · left
    rw [if_neg h0]

/-- A tick that starts in rainbow mode with SW1 and SW2 not pressed ends in
rainbow mode. -/
theorem rainbow_tick_mode (i : Input) (s : State) (hm : s.mode = RAINBOW_MODE)
    (h1 : i.SW1 ≠ 0) (h2 : i.SW2 ≠ 0) : (tick i s).mode = RAINBOW_MODE := by
  have hf : (rainbow_frame s).mode = RAINBOW_MODE := by
    rw [(sameCur_rainbow_frame s).2.2, hm]
  have hp := pass_eq_poll i s (by rw [hm]; decide)
  rw [mode_frame_rainbow i s hm, hm, mode_exit_rainbow_fn] at hp
  rcases poll_then_idle rainbow_exit i (rainbow_frame s) h1 h2 with e | ⟨b, e⟩
  · rw [tick_of_pass i s _ (hp.trans e), (sameCur_buttonDelay (rainbow_frame s)).2.2]
    exact hf
  · have hb : (set_button b (rainbow_frame s)).mode = RAINBOW_MODE :=
      ((sameCur_button b (rainbow_frame s)).2.2).trans hf
    rw [tick_of_pass i s _ (hp.trans e), rainbow_exit_stay _ hb]
    exact hb

theorem rainbow_ticks (inputs : List Input) :
    ∀ s : State, s.mode = RAINBOW_MODE → PhaseInv s →
      (∀ i ∈ inputs, i.SW1 ≠ 0 ∧ i.SW2 ≠ 0) →
      (inputs.foldl (fun s i => tick i s) s).mode = RAINBOW_MODE
      ∧ PhaseInv (inputs.foldl (fun s i => tick i s) s) := by
  induction inputs with
  | nil => intro s hm hp _; exact ⟨hm, hp⟩
  | cons i rest ih =>
    intro s hm hp hi
    have h1 := hi i (List.mem_cons_self i rest)
    rw [List.foldl_cons]
    exact ih (tick i s) (rainbow_tick_mode i s hm h1.1 h1.2) (phaseInv_rainbow_tick i s hm hp)
      (fun j hj => hi j (List.mem_cons_of_mem i hj))

theorem powerOn_phases : powerOn.ri = 60 ∧ powerOn.gi = 0 ∧ powerOn.bi = 120 := by
  obtain ⟨r, g, b, l, a, t, h⟩ := main_init_frame initState
  rw [powerOn, h]
  exact ⟨rfl, rfl, rfl⟩

/-- C9: the rainbow phase invariant.  From any state in rainbow mode whose phase
counters ri, gi, bi are below 180 (`main` starts them at 60, 0, 120) and whose
reads of the sine table so far were inside the table, after every number of
rainbow ticks (ticks with SW1 and SW2 not pressed, which stay in rainbow mode)
the mode is rainbow mode, the three counters are below 180 and every read of
the 180-entry sine table had its index in [0, 180); the same holds after one
more tick with any buttons, a mode press or a reset included.  Each rainbow
frame makes 180 reads of the sine table, one per running index rVal, gVal, bVal
and pixel.  The counters and the sine reads are in range as well after every
run of the main loop from power-on that makes no store outside an array (a
tick can make one only when it starts in ion gun mode), and on such a run every
other access is inside its array too. -/
theorem rainbow_phases_and_sine_reads_stay_in_table (inputs fromPowerOn : List Input)
    (s : State) (hm : s.mode = RAINBOW_MODE)
    (hr : s.ri < 180) (hg : s.gi < 180) (hb : s.bi < 180)
    (ha : ∀ a ∈ s.acc, a.arr = Arr.sine → 0 ≤ a.idx ∧ a.idx < 180)
    (hi : ∀ i ∈ inputs, i.SW1 ≠ 0 ∧ i.SW2 ≠ 0) :
    ((inputs.foldl (fun s i => tick i s) s).mode = RAINBOW_MODE
      ∧ (inputs.foldl (fun s i => tick i s) s).ri < 180
      ∧ (inputs.foldl (fun s i => tick i s) s).gi < 180
      ∧ (inputs.foldl (fun s i => tick i s) s).bi < 180
      ∧ ∀ a ∈ (inputs.foldl (fun s i => tick i s) s).acc,
          a.arr = Arr.sine → 0 ≤ a.idx ∧ a.idx < 180)
    ∧ (∀ i : Input,
        (tick i (inputs.foldl (fun s i => tick i s) s)).ri < 180
        ∧ (tick i (inputs.foldl (fun s i => tick i s) s)).gi < 180
        ∧ (tick i (inputs.foldl (fun s i => tick i s) s)).bi < 180
        ∧ ∀ a ∈ (tick i (inputs.foldl (fun s i => tick i s) s)).acc,
            a.arr = Arr.sine → 0 ≤ a.idx ∧ a.idx < 180)
    ∧ (∃ l, (rainbow_frame s).acc = s.acc ++ l ∧ l.length = 180
        ∧ ∀ a ∈ l, a.arr = Arr.sine ∧ a.write = false)
    ∧ (powerOn.ri = 60 ∧ powerOn.gi = 0 ∧ powerOn.bi = 120)
    ∧ (StoresOK (run fromPowerOn).acc →
        (run fromPowerOn).ri < 180 ∧ (run fromPowerOn).gi < 180 ∧ (run fromPowerOn).bi < 180
        ∧ (∀ a ∈ (run fromPowerOn).acc, a.arr = Arr.sine → 0 ≤ a.idx ∧ a.idx < 180)
        ∧ AccOK (run fromPowerOn).acc) := by
  obtain ⟨m1, p1⟩ := rainbow_ticks inputs s hm ⟨hr, hg, hb, ha⟩ hi
  refine ⟨⟨m1, p1⟩, fun i => phaseInv_rainbow_tick i _ m1 p1, rainbow_frame_reads s,
    powerOn_phases, ?_⟩
  intro h
  obtain ⟨_, ⟨q1, q2, q3, q4⟩, _, q5⟩ :=
    safe_foldl fromPowerOn powerOn cursorOK_powerOn rest_powerOn h
  exact ⟨q1, q2, q3, q4, q5⟩

/-- C9 from the start-up state put in rainbow mode with the phases 60, 0, 120
of `main`, over two rainbow ticks: the phase counters are below 180. -/
theorem rainbow_phases_and_sine_reads_stay_in_table_witness :
    ([(⟨1, 1, 1, 1, 1, 0, 0, 0, 0⟩ : Input), ⟨1, 1, 1, 1, 1, 0, 0, 0, 0⟩].foldl
        (fun s i => tick i s)
        { initState with mode := RAINBOW_MODE, ri := 60, gi := 0, bi := 120 }).mode
      = RAINBOW_MODE
    ∧ ([(⟨1, 1, 1, 1, 1, 0, 0, 0, 0⟩ : Input), ⟨1, 1, 1, 1, 1, 0, 0, 0, 0⟩].foldl
        (fun s i => tick i s)
        { initState with mode := RAINBOW_MODE, ri := 60, gi := 0, bi := 120 }).ri < 180 :=
  ⟨(rainbow_phases_and_sine_reads_stay_in_table
      [⟨1, 1, 1, 1, 1, 0, 0, 0, 0⟩, ⟨1, 1, 1, 1, 1, 0, 0, 0, 0⟩] []
      { initState with mode := RAINBOW_MODE, ri := 60, gi := 0, bi := 120 }
      rfl (by decide) (by decide) (by decide) (fun _ h => absurd h (List.not_mem_nil _))
      (by decide)).1.1,
   (rainbow_phases_and_sine_reads_stay_in_table
      [⟨1, 1, 1, 1, 1, 0, 0, 0, 0⟩, ⟨1, 1, 1, 1, 1, 0, 0, 0, 0⟩] []
      { initState with mode := RAINBOW_MODE, ri := 60, gi := 0, bi := 120 }
      rfl (by decide) (by decide) (by decide) (fun _ h => absurd h (List.not_mem_nil _))
      (by decide)).1.2.1⟩

/-- C18: button rate limiting.  From every state with a mode in 0..5: a tick
with buttonDelay non-zero keeps the mode and the button value, lowers
buttonDelay by exactly 1, and does not depend on the button levels; with
buttonDelay 0, SW1 high and SW2 low, `read_button` runs after the frame of the
mode, takes its mode branch and sets the mode to (mode + 1) mod 6 and
buttonDelay to 1 if the new mode is random mode and to 25 otherwise, and these
are the mode and buttonDelay at the end of the tick in every mode but ion
gun mode (there the tick goes on to call `warmingStripes`, whose stores outside
the arrays leave the rest of the tick without a defined meaning in C); and
during the first buttonDelay ticks after any state the mode does not change,
so at least 25 ticks pass after an ordinary mode change before the mode can
change again. -/
theorem button_reads_are_rate_limited (i : Input) (inputs : List Input) (s : State)
    (hm : s.mode ≤ 5) (hb : s.buttonDelay < 256) :
    (s.buttonDelay ≠ 0 →
      (tick i s).mode = s.mode ∧ (tick i s).buttonDelay = s.buttonDelay - 1
      ∧ (tick i s).button = s.button
      ∧ ∀ i2 : Input, i2.rand1 = i.rand1 → i2.rand2 = i.rand2 → i2.rand3 = i.rand3 →
          tick i2 s = tick i s)
    ∧ (s.buttonDelay = 0 → i.SW1 ≠ 0 → i.SW2 = 0 →
      read_button i (mode_frame i s) = some (i.junk % 256, mode_advance (mode_frame i s))
      ∧ (mode_advance (mode_frame i s)).mode = (s.mode + 1) % 6
      ∧ (mode_advance (mode_frame i s)).buttonDelay
          = (if (s.mode + 1) % 6 = RANDOM_MODE then 1 else 25)
      ∧ (s.mode ≠ IONGUN_MODE →
          (tick i s).mode = (s.mode + 1) % 6
          ∧ (tick i s).buttonDelay = if (tick i s).mode = RANDOM_MODE then 1 else 25))
    ∧ (inputs.length ≤ s.buttonDelay →
      (inputs.foldl (fun s i => tick i s) s).mode = s.mode
      ∧ (inputs.foldl (fun s i => tick i s) s).buttonDelay
          = s.buttonDelay - inputs.length) := by
  refine ⟨?_, ?_, ticks_wait inputs s hm hb⟩
  · intro hd
    obtain ⟨k1, k2, k3⟩ := tick_wait_key i s hm hd hb
    refine ⟨k1, k2, k3, ?_⟩
    intro i2 e1 e2 e3
    rw [tick_wait i s hm hd, tick_wait i2 s hm hd, mode_frame_congr i i2 s e1 e2 e3]
  · intro h0 h1 h2
    obtain ⟨a1, a2⟩ := mode_advance_key (mode_frame i s)
    have hn := next_mode_mod s.mode hm
    refine ⟨?_, ?_, ?_, ?_⟩
    · unfold read_button
      rw [if_neg h1, if_pos h2]
    · rw [a1, (sameKey_mode_frame i s).1, hn]
    · rw [a2, (sameKey_mode_frame i s).1, hn]
    · intro hne
      obtain ⟨t1, t2⟩ := tick_press_key i s hm hne h0 h1 h2
      rw [t1, t2, hn]
      exact ⟨rfl, rfl⟩

/-- C18 at the start-up state with the key repeat counter at 25: the tick
leaves 24. -/
theorem button_reads_are_rate_limited_witness :
    (tick ⟨1, 0, 1, 1, 1, 0, 0, 0, 0⟩ { initState with buttonDelay := 25 }).buttonDelay
      = ({ initState with buttonDelay := 25 } : State).buttonDelay - 1 :=
  ((button_reads_are_rate_limited ⟨1, 0, 1, 1, 1, 0, 0, 0, 0⟩ []
    { initState with buttonDelay := 25 } (by decide) (by decide)).1 (by decide)).2.1

end NeoPixel
